import Mathlib

/-!
Verification development for the detechtor project-classification engine.

The definitions below are a shallow embedding of the TypeScript source:
  - `src/src/helpers/analyze/detectors/dependency.ts` (dependency classification),
  - `src/src/types/consts/categories.ts` (the fixed category tables),
  - `src/unnamed/part_002` (language ranking),
  - `src/src/helpers/analyze/detectors/structure.ts` (frontend detection),
  - `src/src/helpers/analyze/detectors/backend.ts` (backend detection and merge),
  - `src/src/helpers/analyze/detectors/workspace.ts` (workspace root discovery),
  - `src/src/analyze/index.ts` (the 8-phase aggregator and workspace aggregator).

Filesystem reads, `glob` matching and JSON parsing are modelled by passing the
observable data (file lists, parsed manifests, file contents) explicitly as
environment values; JavaScript objects whose keys may be absent are modelled
with `Option` fields (`none` = `undefined`), and JavaScript string operations
are modelled by executable functions over `List Char` so that every concrete
run can be evaluated by `decide`.
-/

namespace Detechtor

/-! ### JavaScript string-operation models (executable over `List Char`) -/

/-- Is `pat` a prefix of `l`? Models `String.prototype.startsWith` on
character lists. -/
def charIsPrefix : List Char → List Char → Bool
  | [], _ => true
  | _ :: _, [] => false
  | a :: as, b :: bs => a == b && charIsPrefix as bs

/-- Does `needle` occur contiguously in `hay`? Models
`String.prototype.includes` on character lists (an empty needle occurs in
every string, as in JavaScript). -/
def charContains : List Char → List Char → Bool
  | [], needle => needle.isEmpty
  | h :: t, needle => charIsPrefix needle (h :: t) || charContains t needle

/-- `s.includes(sub)` of JavaScript. -/
def jsIncludes (s sub : String) : Bool := charContains s.data sub.data

/-- `s.startsWith(pre)` of JavaScript. -/
def jsStartsWith (s pre : String) : Bool := charIsPrefix pre.data s.data

/-- `s.endsWith(suf)` of JavaScript. -/
def jsEndsWith (s suf : String) : Bool := charIsPrefix suf.data.reverse s.data.reverse

/-- ASCII lower-casing of one character, as `String.prototype.toLowerCase`
acts on the ASCII names this code base compares. -/
def lowerAscii (c : Char) : Char :=
  if 'A' ≤ c && c ≤ 'Z' then Char.ofNat (c.toNat + 32) else c

/-- `s.toLowerCase()` of JavaScript, for ASCII content. -/
def jsToLower (s : String) : String := ⟨s.data.map lowerAscii⟩

/-- Replace the first occurrence of `pat` in `l` by `repl`: the semantics of
`String.prototype.replace` with a string pattern. -/
def charReplaceFirst : List Char → List Char → List Char → List Char
  | [], _pat, _repl => []
  | h :: t, pat, repl =>
    if charIsPrefix pat (h :: t) then repl ++ (h :: t).drop pat.length
    else h :: charReplaceFirst t pat repl

/-- `s.replace(pat, repl)` of JavaScript (first occurrence only). -/
def jsReplaceFirst (s pat repl : String) : String :=
  ⟨charReplaceFirst s.data pat.data repl.data⟩

/-! ### `src/src/types/consts/categories.ts` -/

/-!  The `DEPENDENCY_CATEGORIES` constant object: each definition of this
namespace is one property of the object, with the exact string value of the
source. -/

namespace DEPENDENCY_CATEGORIES

def REACT : String := "React Ecosystem"
def VUE : String := "Vue Ecosystem"
def ANGULAR : String := "Angular Ecosystem"
def SVELTE : String := "Svelte Ecosystem"
def BUILD_TOOL : String := "Build Tool"
def BUNDLER : String := "Bundler"
def COMPILER : String := "Compiler"
def TRANSPILER : String := "Transpiler"
def CSS_FRAMEWORK : String := "CSS Framework"
def CSS_IN_JS : String := "CSS-in-JS"
def UI_LIBRARY : String := "UI Component Library"
def ICON_LIBRARY : String := "Icon Library"
def STATE_MANAGEMENT : String := "State Management"
def ROUTING : String := "Routing"
def DATA_FETCHING : String := "Data Fetching"
def GRAPHQL : String := "GraphQL"
def TESTING : String := "Testing Framework"
def ASSERTION : String := "Assertion Library"
def MOCKING : String := "Mocking Library"
def E2E : String := "End-to-End Testing"
def COVERAGE : String := "Code Coverage"
def LINTER : String := "Linter"
def FORMATTER : String := "Code Formatter"
def TYPE_CHECKER : String := "Type Checker"
def SERVER : String := "Server Framework"
def DATABASE : String := "Database"
def ORM : String := "ORM"
def AUTH : String := "Authentication"
def VALIDATION : String := "Validation"
def UTILITY : String := "Utility Library"
def DATE : String := "Date Manipulation"
def HTTP_CLIENT : String := "HTTP Client"
def LOGGING : String := "Logging"
def DEVELOPMENT : String := "Development Tool"
def HOT_RELOAD : String := "Hot Reload"
def DEBUGGING : String := "Debugging"
def TYPES : String := "Type Definitions"
def OTHER : String := "Other"

end DEPENDENCY_CATEGORIES

/-- The `PACKAGE_CATEGORIES` object of `categories.ts`, as the ordered list of
its (key, value) properties. All keys are non-integer strings, so
`Object.keys`/`Object.entries` enumerate them in this insertion order. -/
def PACKAGE_CATEGORIES : List (String × String) := [
  ("react", DEPENDENCY_CATEGORIES.REACT),
  ("react-dom", DEPENDENCY_CATEGORIES.REACT),
  ("react-router", DEPENDENCY_CATEGORIES.ROUTING),
  ("react-router-dom", DEPENDENCY_CATEGORIES.ROUTING),
  ("redux", DEPENDENCY_CATEGORIES.STATE_MANAGEMENT),
  ("mobx", DEPENDENCY_CATEGORIES.STATE_MANAGEMENT),
  ("zustand", DEPENDENCY_CATEGORIES.STATE_MANAGEMENT),
  ("next", DEPENDENCY_CATEGORIES.BUILD_TOOL),
  ("gatsby", DEPENDENCY_CATEGORIES.BUILD_TOOL),
  ("remix", DEPENDENCY_CATEGORIES.BUILD_TOOL),
  ("vue", DEPENDENCY_CATEGORIES.VUE),
  ("vue-router", DEPENDENCY_CATEGORIES.ROUTING),
  ("vuex", DEPENDENCY_CATEGORIES.STATE_MANAGEMENT),
  ("pinia", DEPENDENCY_CATEGORIES.STATE_MANAGEMENT),
  ("nuxt", DEPENDENCY_CATEGORIES.BUILD_TOOL),
  ("@angular/core", DEPENDENCY_CATEGORIES.ANGULAR),
  ("@angular/common", DEPENDENCY_CATEGORIES.ANGULAR),
  ("svelte", DEPENDENCY_CATEGORIES.SVELTE),
  ("sveltekit", DEPENDENCY_CATEGORIES.BUILD_TOOL),
  ("webpack", DEPENDENCY_CATEGORIES.BUNDLER),
  ("vite", DEPENDENCY_CATEGORIES.BUNDLER),
  ("rollup", DEPENDENCY_CATEGORIES.BUNDLER),
  ("parcel", DEPENDENCY_CATEGORIES.BUNDLER),
  ("esbuild", DEPENDENCY_CATEGORIES.BUNDLER),
  ("babel", DEPENDENCY_CATEGORIES.TRANSPILER),
  ("typescript", DEPENDENCY_CATEGORIES.COMPILER),
  ("swc", DEPENDENCY_CATEGORIES.COMPILER),
  ("tailwindcss", DEPENDENCY_CATEGORIES.CSS_FRAMEWORK),
  ("bootstrap", DEPENDENCY_CATEGORIES.CSS_FRAMEWORK),
  ("material-ui", DEPENDENCY_CATEGORIES.UI_LIBRARY),
  ("@mui/material", DEPENDENCY_CATEGORIES.UI_LIBRARY),
  ("antd", DEPENDENCY_CATEGORIES.UI_LIBRARY),
  ("chakra-ui", DEPENDENCY_CATEGORIES.UI_LIBRARY),
  ("styled-components", DEPENDENCY_CATEGORIES.CSS_IN_JS),
  ("emotion", DEPENDENCY_CATEGORIES.CSS_IN_JS),
  ("sass", DEPENDENCY_CATEGORIES.CSS_FRAMEWORK),
  ("less", DEPENDENCY_CATEGORIES.CSS_FRAMEWORK),
  ("jest", DEPENDENCY_CATEGORIES.TESTING),
  ("vitest", DEPENDENCY_CATEGORIES.TESTING),
  ("mocha", DEPENDENCY_CATEGORIES.TESTING),
  ("jasmine", DEPENDENCY_CATEGORIES.TESTING),
  ("cypress", DEPENDENCY_CATEGORIES.E2E),
  ("playwright", DEPENDENCY_CATEGORIES.E2E),
  ("puppeteer", DEPENDENCY_CATEGORIES.E2E),
  ("@testing-library/react", DEPENDENCY_CATEGORIES.TESTING),
  ("@testing-library/vue", DEPENDENCY_CATEGORIES.TESTING),
  ("@testing-library/angular", DEPENDENCY_CATEGORIES.TESTING),
  ("enzyme", DEPENDENCY_CATEGORIES.TESTING),
  ("chai", DEPENDENCY_CATEGORIES.ASSERTION),
  ("sinon", DEPENDENCY_CATEGORIES.MOCKING),
  ("eslint", DEPENDENCY_CATEGORIES.LINTER),
  ("prettier", DEPENDENCY_CATEGORIES.FORMATTER),
  ("stylelint", DEPENDENCY_CATEGORIES.LINTER),
  ("@typescript-eslint/eslint-plugin", DEPENDENCY_CATEGORIES.LINTER),
  ("express", DEPENDENCY_CATEGORIES.SERVER),
  ("koa", DEPENDENCY_CATEGORIES.SERVER),
  ("fastify", DEPENDENCY_CATEGORIES.SERVER),
  ("nestjs", DEPENDENCY_CATEGORIES.SERVER),
  ("mongoose", DEPENDENCY_CATEGORIES.ORM),
  ("prisma", DEPENDENCY_CATEGORIES.ORM),
  ("typeorm", DEPENDENCY_CATEGORIES.ORM),
  ("sequelize", DEPENDENCY_CATEGORIES.ORM),
  ("passport", DEPENDENCY_CATEGORIES.AUTH),
  ("jsonwebtoken", DEPENDENCY_CATEGORIES.AUTH),
  ("joi", DEPENDENCY_CATEGORIES.VALIDATION),
  ("yup", DEPENDENCY_CATEGORIES.VALIDATION),
  ("zod", DEPENDENCY_CATEGORIES.VALIDATION),
  ("lodash", DEPENDENCY_CATEGORIES.UTILITY),
  ("underscore", DEPENDENCY_CATEGORIES.UTILITY),
  ("moment", DEPENDENCY_CATEGORIES.DATE),
  ("dayjs", DEPENDENCY_CATEGORIES.DATE),
  ("date-fns", DEPENDENCY_CATEGORIES.DATE),
  ("axios", DEPENDENCY_CATEGORIES.HTTP_CLIENT),
  ("node-fetch", DEPENDENCY_CATEGORIES.HTTP_CLIENT),
  ("winston", DEPENDENCY_CATEGORIES.LOGGING),
  ("pino", DEPENDENCY_CATEGORIES.LOGGING),
  ("graphql", DEPENDENCY_CATEGORIES.GRAPHQL),
  ("apollo-server", DEPENDENCY_CATEGORIES.GRAPHQL),
  ("apollo-client", DEPENDENCY_CATEGORIES.GRAPHQL),
  ("webpack-dev-server", DEPENDENCY_CATEGORIES.DEVELOPMENT),
  ("nodemon", DEPENDENCY_CATEGORIES.DEVELOPMENT),
  ("concurrently", DEPENDENCY_CATEGORIES.DEVELOPMENT),
  ("dotenv", DEPENDENCY_CATEGORIES.DEVELOPMENT),
  ("@types/node", DEPENDENCY_CATEGORIES.TYPES),
  ("@types/react", DEPENDENCY_CATEGORIES.TYPES),
  ("@types/jest", DEPENDENCY_CATEGORIES.TYPES)
]

/-! ### `src/src/helpers/analyze/detectors/dependency.ts`: classification -/

/-- `guessCategoryFromName` of `dependency.ts` (lines 144-223): the keyword
heuristic over the lower-cased name, checked in the fixed source order. -/
def guessCategoryFromName (name : String) : String :=
  let nameLower := jsToLower name
  if jsIncludes nameLower "test" || jsIncludes nameLower "spec" then
    DEPENDENCY_CATEGORIES.TESTING
  else if jsIncludes nameLower "assert" || jsIncludes nameLower "expect" then
    DEPENDENCY_CATEGORIES.ASSERTION
  else if jsIncludes nameLower "mock" || jsIncludes nameLower "stub" then
    DEPENDENCY_CATEGORIES.MOCKING
  else if jsStartsWith nameLower "@types/" then
    DEPENDENCY_CATEGORIES.TYPES
  else if jsIncludes nameLower "css" || jsIncludes nameLower "style" then
    DEPENDENCY_CATEGORIES.CSS_FRAMEWORK
  else if jsIncludes nameLower "ui" || jsIncludes nameLower "component" then
    DEPENDENCY_CATEGORIES.UI_LIBRARY
  else if jsIncludes nameLower "icon" then
    DEPENDENCY_CATEGORIES.ICON_LIBRARY
  else if jsIncludes nameLower "date" || jsIncludes nameLower "time" then
    DEPENDENCY_CATEGORIES.DATE
  else if jsIncludes nameLower "fetch" || jsIncludes nameLower "http" ||
      jsIncludes nameLower "request" then
    DEPENDENCY_CATEGORIES.HTTP_CLIENT
  else if jsIncludes nameLower "log" then
    DEPENDENCY_CATEGORIES.LOGGING
  else if jsIncludes nameLower "db" || jsIncludes nameLower "database" ||
      jsIncludes nameLower "sql" then
    DEPENDENCY_CATEGORIES.DATABASE
  else if jsIncludes nameLower "auth" || jsIncludes nameLower "jwt" ||
      jsIncludes nameLower "oauth" then
    DEPENDENCY_CATEGORIES.AUTH
  else if jsIncludes nameLower "valid" || jsIncludes nameLower "schema" then
    DEPENDENCY_CATEGORIES.VALIDATION
  else if jsIncludes nameLower "build" || jsIncludes nameLower "compile" then
    DEPENDENCY_CATEGORIES.BUILD_TOOL
  else if jsIncludes nameLower "dev" || jsIncludes nameLower "watch" ||
      jsIncludes nameLower "hot" then
    DEPENDENCY_CATEGORIES.DEVELOPMENT
  else
    DEPENDENCY_CATEGORIES.OTHER

/-- `PACKAGE_CATEGORIES[name]` used as a truthy lookup (every value of the
table is a nonempty string, hence truthy). -/
def packageCategoryExact (name : String) : Option String :=
  (PACKAGE_CATEGORIES.find? (fun e => e.1 == name)).map (·.2)

/-- `key.replace('/*', '')` as the source applies it to table keys. -/
def stripGlob (key : String) : String := jsReplaceFirst key "/*" ""

/-- The scoped-package tier of `createDependencyObject` (lines 112-114):
`Object.keys(PACKAGE_CATEGORIES).find(key => name.startsWith(key.replace('/*', '')))`,
returning the matched key's category. -/
def packageCategoryScoped (name : String) : Option String :=
  (PACKAGE_CATEGORIES.find? (fun e => jsStartsWith name (stripGlob e.1))).map (·.2)

/-- The partial-match tier of `createDependencyObject` (lines 119-124): the
first table entry whose key occurs in the name as a substring, or whose
stripped key is a prefix of the name. -/
def packageCategorySubstring (name : String) : Option String :=
  (PACKAGE_CATEGORIES.find?
    (fun e => jsIncludes name e.1 || jsStartsWith name (stripGlob e.1))).map (·.2)

/-- A classified dependency, as `createDependencyObject` returns it (the
`description`, `license`, `repository` and `homepage` fields are always the
empty string in the source and are elided). -/
structure Dependency where
  name : String
  version : String
  category : String
deriving Repr, DecidableEq

/-- `createDependencyObject` of `dependency.ts` (lines 97-142). The source
normalizes non-string version data with `JSON.stringify` before storing it;
the model receives the resulting version string. The `type` argument of the
source is only used by the caller to choose a bucket and does not influence
the returned object, so it is not a parameter here. -/
def createDependencyObject (name version : String) : Dependency :=
  let category :=
    match packageCategoryExact name with
    | some c => c
    | none =>
      match packageCategoryScoped name with
      | some c => c
      | none =>
        match packageCategorySubstring name with
        | some c => c
        | none => DEPENDENCY_CATEGORIES.OTHER
  let category :=
    if category == DEPENDENCY_CATEGORIES.OTHER then guessCategoryFromName name
    else category
  { name := name, version := version, category := category }

/-- `categorizeDependency` of `dependency.ts` (lines 396-401): exact table
lookup, then the keyword heuristic. -/
def categorizeDependency (name : String) : String :=
  match packageCategoryExact name with
  | some c => c
  | none => guessCategoryFromName name

/-! #### Helper lemmas on `List.find?` -/

/-- `find?` only depends on the predicate's values on the list. -/
theorem find?_congr_on {α : Type} {p q : α → Bool} :
    ∀ {l : List α}, (∀ a ∈ l, p a = q a) → l.find? p = l.find? q := by
  intro l
  induction l with
  | nil => intro _; rfl
  | cons a t ih =>
    intro h
    have ha := h a (List.mem_cons_self a t)
    by_cases hpa : p a = true
    · rw [List.find?_cons_of_pos _ hpa, List.find?_cons_of_pos _ (ha ▸ hpa)]
    · have hqa : ¬ q a = true := fun hq => hpa (ha ▸ hq)
      rw [List.find?_cons_of_neg _ hpa, List.find?_cons_of_neg _ hqa]
      exact ih (fun b hb => h b (List.mem_cons_of_mem a hb))

/-- No entry of the category table carries the category `"Other"`. -/
theorem PACKAGE_CATEGORIES_ne_other :
    ∀ e ∈ PACKAGE_CATEGORIES, e.2 ≠ DEPENDENCY_CATEGORIES.OTHER := by decide

/-! ### Claim C6: `categorizeDependency "my-test-package"` -/

/-- C6 counterexample: the claim predicts the return value `"Testing"`, but
`categorizeDependency "my-test-package"` returns the TESTING category
constant, whose value is the string `"Testing Framework"`, not `"Testing"`. -/
theorem categorizeDependency_my_test_package_not_Testing :
    categorizeDependency "my-test-package" = "Testing Framework" ∧
      ("Testing Framework" : String) ≠ "Testing" := by
  constructor
  · decide
  · decide

/-- C6 amended: for the name `"my-test-package"`, absent from
`PACKAGE_CATEGORIES` (the exact lookup yields nothing), `categorizeDependency`
returns `DEPENDENCY_CATEGORIES.TESTING`, i.e. the string
`"Testing Framework"`, via the keyword heuristic branch that fires on names
containing `"test"`. -/
theorem categorizeDependency_my_test_package :
    packageCategoryExact "my-test-package" = none ∧
      categorizeDependency "my-test-package" = DEPENDENCY_CATEGORIES.TESTING ∧
      guessCategoryFromName "my-test-package" = DEPENDENCY_CATEGORIES.TESTING := by
  refine ⟨by decide, by decide, by decide⟩

/-! ### Claim C10: the substring tier of `createDependencyObject` -/

/-- C10: in `createDependencyObject`, a dependency name that is neither an
exact key of `PACKAGE_CATEGORIES` nor a prefix match in the scoped tier, but
which contains some table key as a substring, is assigned the category of the
first such table entry (in the table's insertion order). -/
theorem createDependencyObject_substring_tier (name version : String)
    (e : String × String)
    (h1 : packageCategoryExact name = none)
    (h2 : PACKAGE_CATEGORIES.find?
      (fun p => jsStartsWith name (stripGlob p.1)) = none)
    (h3 : PACKAGE_CATEGORIES.find? (fun p => jsIncludes name p.1) = some e) :
    (createDependencyObject name version).category = e.2 := by
  have hnostart : ∀ p ∈ PACKAGE_CATEGORIES,
      jsStartsWith name (stripGlob p.1) = false := by
    intro p hp
    have := List.find?_eq_none.mp h2 p hp
    simpa using this
  have hsub : packageCategorySubstring name = some e.2 := by
    unfold packageCategorySubstring
    have hcongr : PACKAGE_CATEGORIES.find?
        (fun p => jsIncludes name p.1 || jsStartsWith name (stripGlob p.1)) =
        PACKAGE_CATEGORIES.find? (fun p => jsIncludes name p.1) := by
      refine find?_congr_on ?_
      intro p hp
      rw [hnostart p hp, Bool.or_false]
    rw [hcongr, h3]
    rfl
  have hscoped : packageCategoryScoped name = none := by
    unfold packageCategoryScoped
    rw [h2]
    rfl
  have hmem : e ∈ PACKAGE_CATEGORIES := List.mem_of_find?_eq_some h3
  have hneq : e.2 ≠ DEPENDENCY_CATEGORIES.OTHER := PACKAGE_CATEGORIES_ne_other e hmem
  unfold createDependencyObject
  rw [h1, hscoped, hsub]
  simp only []
  have : (e.2 == DEPENDENCY_CATEGORIES.OTHER) = false := by
    exact beq_eq_false_iff_ne.mpr hneq
  rw [this]
  simp

/-- C10 witness: the name `"preact"` is not a table key, no stripped key is a
prefix of it, the first table key occurring inside it is `"react"`, and the
resulting category is `"React Ecosystem"`. -/
theorem createDependencyObject_substring_tier_witness :
    (createDependencyObject "preact" "^10.0.0").category = "React Ecosystem" :=
  createDependencyObject_substring_tier "preact" "^10.0.0"
    ("react", "React Ecosystem") (by decide) (by decide) (by decide)

/-! ### `src/unnamed/part_002`: language ranking (`rankLanguages`) -/

/-- Per-language accumulated statistics, as `LanguageStats` stores them (the
`extensions` and `primaryExtension` fields play no role in ranking and are
elided). -/
structure LangData where
  files : Nat
  lines : Nat
  bytes : Nat
deriving Repr, DecidableEq

/-- The `priorityMap` literal of `rankLanguages` (lines 231-250), in source
order. -/
def priorityMap : List (String × ℚ) := [
  ("TypeScript", 10), ("JavaScript", 9), ("Python", 8), ("Java", 7),
  ("Go", 7), ("Rust", 7), ("C++", 6), ("C#", 6), ("PHP", 5), ("Ruby", 5),
  ("Swift", 6), ("Kotlin", 6), ("HTML", 4), ("CSS", 4), ("SCSS", 4),
  ("SASS", 4), ("Vue", 7), ("Svelte", 7)]

/-- `priorityMap[language] || 1`. -/
def languagePriority (lang : String) : ℚ :=
  (((priorityMap.find? (fun e => e.1 == lang)).map (·.2)).getD 1)

/-- The score of one language (lines 219-252):
`files*0.4 + Math.log(lines+1)*0.3 + (bytes/1MiB)*0.2 + priority*0.1`.
The decimal literals are modelled as the rationals they denote, and
`Math.log` is a parameter `logFn` applied to `lines + 1`: every theorem below
holds for an arbitrary `logFn`, hence in particular for the real logarithm
the engine uses (whose value on a language is unchanged when only that
language's `files` field changes). -/
def languageScore (logFn : Nat → ℚ) (lang : String) (d : LangData) : ℚ :=
  (d.files : ℚ) * (4/10) + logFn (d.lines + 1) * (3/10) +
    ((d.bytes : ℚ) / (1024 * 1024)) * (2/10) + languagePriority lang * (1/10)

/-- The descending-by-score order used by the sort
`languages.sort((a, b) => b.score - a.score)`: element `a` may come before
`b` when `b`'s score does not exceed `a`'s. A JavaScript `Array.sort` is
stable, so the sort below is the stable insertion sort with this relation. -/
def byScoreDesc (a b : String × ℚ) : Prop := b.2 ≤ a.2

instance : DecidableRel byScoreDesc := fun a b =>
  inferInstanceAs (Decidable (b.2 ≤ a.2))

instance : IsTotal (String × ℚ) byScoreDesc :=
  ⟨fun a b => le_total b.2 a.2⟩

instance : IsTrans (String × ℚ) byScoreDesc :=
  ⟨fun _ _ _ h1 h2 => le_trans h2 h1⟩

/-- The scored array `Object.entries(stats).map(...)` (only the fields the
rest of the function reads: the language name and its score). -/
def scoredOf (logFn : Nat → ℚ) (stats : List (String × LangData)) :
    List (String × ℚ) :=
  stats.map (fun e => (e.1, languageScore logFn e.1 e.2))

/-- `rankLanguages` of `src/unnamed/part_002` (lines 212-275): empty guard,
scoring, stable descending sort, top five, then forced inclusion of
TypeScript and JavaScript (in that order) when present but outside the top
five. -/
def rankLanguages (logFn : Nat → ℚ) (stats : List (String × LangData)) :
    List String :=
  if stats.isEmpty then []
  else
    let scored := scoredOf logFn stats
    let sorted := List.insertionSort byScoreDesc scored
    let topLanguages := (sorted.take 5).map Prod.fst
    let hasJS := scored.any (fun l => l.1 == "JavaScript")
    let hasTS := scored.any (fun l => l.1 == "TypeScript")
    let withTS :=
      if hasTS && !(topLanguages.contains "TypeScript") then
        topLanguages ++ ["TypeScript"]
      else topLanguages
    if hasJS && !(withTS.contains "JavaScript") then withTS ++ ["JavaScript"]
    else withTS

/-- Incrementing one language's `fileCount` by `δ` while holding every other
entry fixed. -/
def bumpFiles (L : String) (δ : Nat) (stats : List (String × LangData)) :
    List (String × LangData) :=
  stats.map (fun e =>
    if e.1 == L then (e.1, { e.2 with files := e.2.files + δ }) else e)

/-! #### Generic list-order helpers for the ranking proofs

`[x, y] <+ l` (sublist) states that `x` occupies a strictly earlier position
than `y` in `l`; for lists without duplicates it is the faithful rendering of
relative order. -/

/-- In a duplicate-free list, two distinct members appear in one of the two
relative orders. -/
theorem pair_sublist_of_mem {α : Type} {l : List α} {x y : α}
    (hx : x ∈ l) (hy : y ∈ l) (hxy : x ≠ y) :
    List.Sublist [x, y] l ∨ List.Sublist [y, x] l := by
  obtain ⟨p, q, rfl⟩ := List.append_of_mem hx
  rcases List.mem_append.mp hy with hyp | hyq
  · right
    have h1 : List.Sublist [y] p := List.singleton_sublist.mpr hyp
    have h2 : List.Sublist [x] (x :: q) := by simp
    simpa using List.Sublist.append h1 h2
  · left
    have hyq2 : y ∈ q := by
      rcases List.mem_cons.mp hyq with h | h
      · exact absurd h.symm hxy
      · exact h
    have h2 : List.Sublist [x, y] (x :: q) :=
      List.Sublist.cons₂ x (List.singleton_sublist.mpr hyq2)
    exact h2.trans (List.sublist_append_right p (x :: q))

/-- In a duplicate-free list, both relative orders at once force equality. -/
theorem pair_sublist_antisymm {α : Type} {l : List α} {x y : α}
    (hnd : l.Nodup) (h1 : List.Sublist [x, y] l) (h2 : List.Sublist [y, x] l) :
    x = y := by
  induction l with
  | nil => exact absurd h1 (by simp)
  | cons a t ih =>
    rcases List.nodup_cons.mp hnd with ⟨hat, hndt⟩
    cases h1 with
    | cons _ h1t =>
      cases h2 with
      | cons _ h2t => exact ih hndt h1t h2t
      | cons₂ _ h2t =>
        have hy : y ∈ t := h1t.subset (by simp)
        exact absurd hy hat
    | cons₂ _ h1t =>
      cases h2 with
      | cons _ h2t =>
        have hx : x ∈ t := h2t.subset (by simp)
        exact absurd hx hat
      | cons₂ _ h2t => rfl

/-- Membership in the `k`-prefix of `p ++ x :: q` is exactly `p.length < k`
when the list has no duplicates. -/
theorem mem_take_split {α : Type} {p q : List α} {x : α} {k : Nat}
    (hnd : (p ++ x :: q).Nodup) :
    x ∈ (p ++ x :: q).take k ↔ p.length < k := by
  have hxp : x ∉ p := by
    rcases List.nodup_append.mp hnd with ⟨_, _, hdisj⟩
    intro hx
    exact hdisj hx (by simp)
  rw [List.take_append_eq_append_take]
  constructor
  · intro hmem
    by_contra hk
    push_neg at hk
    have hz : k - p.length = 0 := Nat.sub_eq_zero_of_le hk
    rw [hz] at hmem
    simp only [List.take_zero, List.append_nil] at hmem
    exact hxp (List.take_subset k p hmem)
  · intro hk
    have h1 : 1 ≤ k - p.length := by omega
    have : x ∈ (x :: q).take (k - p.length) := by
      cases hkp : k - p.length with
      | zero => omega
      | succ m => simp [List.take_cons]
    exact List.mem_append.mpr (Or.inr this)

/-- An element of the left part sits before the split point. -/
theorem pair_sublist_of_mem_left {α : Type} {p q : List α} {x y : α}
    (hy : y ∈ p) : List.Sublist [y, x] (p ++ x :: q) := by
  have h1 : List.Sublist [y] p := List.singleton_sublist.mpr hy
  have h2 : List.Sublist [x] (x :: q) := by simp
  simpa using List.Sublist.append h1 h2

/-- Decomposition of a two-element list as an append. -/
theorem pair_eq_append_cases {α : Type} {x y : α} {u v : List α}
    (h : u ++ v = [x, y]) :
    (u = [] ∧ v = [x, y]) ∨ (u = [x] ∧ v = [y]) ∨ (u = [x, y] ∧ v = []) := by
  rcases u with _ | ⟨a, _ | ⟨b, rest⟩⟩
  · exact Or.inl ⟨rfl, by simpa using h⟩
  · right; left
    simp only [List.cons_append, List.nil_append] at h
    injection h with h1 h2
    subst h1
    subst h2
    exact ⟨rfl, rfl⟩
  · right; right
    simp only [List.cons_append] at h
    injection h with h1 h2
    injection h2 with h3 h4
    obtain ⟨hr, hv⟩ := List.append_eq_nil.mp h4
    subst h1
    subst h3
    subst hr
    subst hv
    exact ⟨rfl, rfl⟩

/-- Conversely, in a duplicate-free split, anything before the split point is
in the left part. -/
theorem mem_left_of_pair_sublist {α : Type} {p q : List α} {x y : α}
    (hnd : (p ++ x :: q).Nodup) (h : List.Sublist [y, x] (p ++ x :: q)) :
    y ∈ p := by
  have hxp : x ∉ p := by
    rcases List.nodup_append.mp hnd with ⟨_, _, hdisj⟩
    intro hx
    exact hdisj hx (by simp)
  have hxq : x ∉ q := by
    rcases List.nodup_append.mp hnd with ⟨_, hnd2, _⟩
    exact (List.nodup_cons.mp hnd2).1
  rcases List.sublist_append_iff.mp h with ⟨u, v, huv, hu, hv⟩
  rcases pair_eq_append_cases huv.symm with ⟨hu0, hv0⟩ | ⟨hu0, hv0⟩ | ⟨hu0, hv0⟩
  · subst hu0; subst hv0
    cases hv with
    | cons _ hvt => exact absurd (hvt.subset (by simp)) hxq
    | cons₂ _ hvt => exact absurd (hvt.subset (by simp)) hxq
  · subst hu0; subst hv0
    exact List.singleton_sublist.mp hu
  · subst hu0; subst hv0
    exact absurd (hu.subset (by simp)) hxp

/-- A pair order within a duplicate-free list restricts to any prefix that
contains the second element. -/
theorem pair_sublist_take {α : Type} {l : List α} {x y : α} {k : Nat}
    (hnd : l.Nodup) (h : List.Sublist [x, y] l) (hy : y ∈ l.take k) :
    List.Sublist [x, y] (l.take k) := by
  have hsplit := List.take_append_drop k l
  have hnd2 : (l.take k ++ l.drop k).Nodup := by rw [hsplit]; exact hnd
  rcases List.nodup_append.mp hnd2 with ⟨_, _, hdisj⟩
  have h2 : List.Sublist [x, y] (l.take k ++ l.drop k) := by rw [hsplit]; exact h
  rcases List.sublist_append_iff.mp h2 with ⟨u, v, huv, hu, hv⟩
  rcases pair_eq_append_cases huv.symm with ⟨hu0, hv0⟩ | ⟨hu0, hv0⟩ | ⟨hu0, hv0⟩
  · subst hu0; subst hv0
    exact absurd hy (fun hmem => hdisj hmem (hv.subset (by simp)))
  · subst hu0; subst hv0
    exact absurd hy (fun hmem => hdisj hmem (hv.subset (by simp)))
  · subst hu0; subst hv0
    exact hu

/-! #### Scores attached to names -/

/-- With duplicate-free keys, `find?` on the key of a member returns that
member. -/
theorem find?_key_eq_of_mem {β : Type} {l : List (String × β)} {e : String × β}
    (hnd : (l.map Prod.fst).Nodup) (he : e ∈ l) :
    l.find? (fun p => p.1 == e.1) = some e := by
  induction l with
  | nil => cases he
  | cons a t ih =>
    have hnd' : (a.1 :: t.map Prod.fst).Nodup := by simpa using hnd
    rcases List.mem_cons.mp he with rfl | het
    · exact List.find?_cons_of_pos _ (by simp)
    · have ha : a.1 ≠ e.1 := by
        intro hcontra
        exact (List.nodup_cons.mp hnd').1
          (hcontra ▸ List.mem_map_of_mem Prod.fst het)
      rw [List.find?_cons_of_neg _ (by simpa using ha)]
      exact ih (List.nodup_cons.mp hnd').2 het

/-- The score attached to a language name by a stats list (0 when absent; the
names of interest are always present). -/
def scoreOf (logFn : Nat → ℚ) (stats : List (String × LangData)) (n : String) :
    ℚ :=
  (((stats.find? (fun e => e.1 == n)).map
    (fun e => languageScore logFn e.1 e.2)).getD 0)

/-- The names of the scored array are the names of the stats list. -/
theorem scoredOf_map_fst (logFn : Nat → ℚ) (stats : List (String × LangData)) :
    (scoredOf logFn stats).map Prod.fst = stats.map Prod.fst := by
  simp [scoredOf]

/-- Every element of the scored array is its name paired with that name's
score. -/
theorem mem_scoredOf_shape {logFn : Nat → ℚ} {stats : List (String × LangData)}
    (hnd : (stats.map Prod.fst).Nodup) {p : String × ℚ}
    (hp : p ∈ scoredOf logFn stats) : p = (p.1, scoreOf logFn stats p.1) := by
  rcases List.mem_map.mp hp with ⟨e, he, rfl⟩
  have := find?_key_eq_of_mem hnd he
  simp [scoreOf, this]

/-- The scored pair of a present name is in the scored array. -/
theorem scored_pair_mem {logFn : Nat → ℚ} {stats : List (String × LangData)}
    (hnd : (stats.map Prod.fst).Nodup) {n : String}
    (hn : n ∈ stats.map Prod.fst) :
    (n, scoreOf logFn stats n) ∈ scoredOf logFn stats := by
  rcases List.mem_map.mp hn with ⟨e, he, rfl⟩
  have hfind := find?_key_eq_of_mem hnd he
  have : (e.1, languageScore logFn e.1 e.2) ∈ scoredOf logFn stats :=
    List.mem_map_of_mem _ he
  simpa [scoreOf, hfind] using this

/-- Pair-level rendering of the file-count bump on the scored array. -/
def pairBump (L : String) (δ : Nat) (p : String × ℚ) : String × ℚ :=
  if p.1 == L then (p.1, p.2 + (δ : ℚ) * (4 / 10)) else p

theorem pairBump_fst (L : String) (δ : Nat) (p : String × ℚ) :
    (pairBump L δ p).1 = p.1 := by
  unfold pairBump
  split <;> rfl

theorem pairBump_of_ne {L : String} {δ : Nat} {p : String × ℚ}
    (h : p.1 ≠ L) : pairBump L δ p = p := by
  unfold pairBump
  simp [h]

/-- Adding `δ` files adds `δ * 0.4` to a language's score. -/
theorem languageScore_bump (logFn : Nat → ℚ) (lang : String) (d : LangData)
    (δ : Nat) :
    languageScore logFn lang { d with files := d.files + δ } =
      languageScore logFn lang d + (δ : ℚ) * (4 / 10) := by
  unfold languageScore
  push_cast
  ring

/-- Bumping commutes with scoring: the scored array of the bumped stats is
the pair-bumped scored array. -/
theorem scoredOf_bumpFiles (logFn : Nat → ℚ) (stats : List (String × LangData))
    (L : String) (δ : Nat) :
    scoredOf logFn (bumpFiles L δ stats) =
      (scoredOf logFn stats).map (pairBump L δ) := by
  unfold scoredOf bumpFiles
  rw [List.map_map, List.map_map]
  refine List.map_congr_left ?_
  intro e _
  by_cases h : e.1 = L
  · simp [Function.comp, pairBump, h, languageScore_bump]
  · simp [Function.comp, pairBump, h]

/-- The bump does not change the set (or order) of names. -/
theorem bumpFiles_map_fst (L : String) (δ : Nat)
    (stats : List (String × LangData)) :
    (bumpFiles L δ stats).map Prod.fst = stats.map Prod.fst := by
  unfold bumpFiles
  rw [List.map_map]
  refine List.map_congr_left ?_
  intro e _
  by_cases h : e.1 = L <;> simp [Function.comp, h]

/-- The bumped score of the bumped language. -/
theorem scoreOf_bump_self {logFn : Nat → ℚ} {stats : List (String × LangData)}
    {L : String} (δ : Nat) (hnd : (stats.map Prod.fst).Nodup)
    (hL : L ∈ stats.map Prod.fst) :
    scoreOf logFn (bumpFiles L δ stats) L =
      scoreOf logFn stats L + (δ : ℚ) * (4 / 10) := by
  rcases List.mem_map.mp hL with ⟨e, he, rfl⟩
  have hfind := find?_key_eq_of_mem hnd he
  have hmem' : (e.1, { e.2 with files := e.2.files + δ }) ∈ bumpFiles e.1 δ stats := by
    unfold bumpFiles
    have : (if e.1 == e.1 then (e.1, { e.2 with files := e.2.files + δ }) else e)
        ∈ stats.map (fun p =>
          if p.1 == e.1 then (p.1, { p.2 with files := p.2.files + δ }) else p) :=
      List.mem_map_of_mem _ he
    simpa using this
  have hnd' : ((bumpFiles e.1 δ stats).map Prod.fst).Nodup := by
    rw [bumpFiles_map_fst]; exact hnd
  have hfind' := find?_key_eq_of_mem hnd' hmem'
  simp only [scoreOf, hfind, hfind']
  simp [languageScore_bump]

/-- The bump leaves every other language's score unchanged. -/
theorem scoreOf_bump_other {logFn : Nat → ℚ} {stats : List (String × LangData)}
    {L n : String} (δ : Nat) (hn : n ≠ L) :
    scoreOf logFn (bumpFiles L δ stats) n = scoreOf logFn stats n := by
  unfold scoreOf bumpFiles
  rw [List.find?_map]
  have hcongr : stats.find?
      ((fun e => e.1 == n) ∘ fun e =>
        if e.1 == L then (e.1, { e.2 with files := e.2.files + δ }) else e) =
      stats.find? (fun e => e.1 == n) := by
    refine find?_congr_on ?_
    intro e _
    by_cases h : e.1 = L <;> simp [Function.comp, h]
  rw [hcongr]
  cases hf : stats.find? (fun e => e.1 == n) with
  | none => rfl
  | some e =>
    have hen : e.1 = n := by
      have := List.find?_some hf
      simpa using this
    by_cases h : e.1 = L
    · exact absurd (h ▸ hen.symm) (by simpa using hn)
    · simp [h]

/-! #### The stable descending sort, viewed on names -/

/-- The names of the stable descending sort of the scored array, in sorted
order. -/
def namesSorted (logFn : Nat → ℚ) (stats : List (String × LangData)) :
    List String :=
  (List.insertionSort byScoreDesc (scoredOf logFn stats)).map Prod.fst

theorem namesSorted_perm (logFn : Nat → ℚ)
    (stats : List (String × LangData)) :
    (namesSorted logFn stats).Perm (stats.map Prod.fst) := by
  have h := (List.perm_insertionSort byScoreDesc (scoredOf logFn stats)).map
    Prod.fst
  rw [scoredOf_map_fst] at h
  exact h

theorem namesSorted_nodup {logFn : Nat → ℚ} {stats : List (String × LangData)}
    (hnd : (stats.map Prod.fst).Nodup) : (namesSorted logFn stats).Nodup :=
  (namesSorted_perm logFn stats).symm.nodup hnd

theorem mem_namesSorted {logFn : Nat → ℚ} {stats : List (String × LangData)}
    {n : String} : n ∈ namesSorted logFn stats ↔ n ∈ stats.map Prod.fst :=
  (namesSorted_perm logFn stats).mem_iff

/-- Sortedness of `namesSorted` expressed through `scoreOf`. -/
theorem namesSorted_pairwise {logFn : Nat → ℚ}
    {stats : List (String × LangData)} (hnd : (stats.map Prod.fst).Nodup) :
    (namesSorted logFn stats).Pairwise
      (fun a b => scoreOf logFn stats b ≤ scoreOf logFn stats a) := by
  have hsorted : (List.insertionSort byScoreDesc (scoredOf logFn stats)).Pairwise
      byScoreDesc := List.sorted_insertionSort byScoreDesc _
  have hshape : ∀ p ∈ List.insertionSort byScoreDesc (scoredOf logFn stats),
      p = (p.1, scoreOf logFn stats p.1) := by
    intro p hp
    exact mem_scoredOf_shape hnd
      ((List.perm_insertionSort byScoreDesc _).subset hp)
  unfold namesSorted
  rw [List.pairwise_map]
  refine hsorted.imp_of_mem ?_
  intro a b ha hb hab
  have hsa := hshape a ha
  have hsb := hshape b hb
  unfold byScoreDesc at hab
  rw [hsa, hsb] at hab
  exact hab

/-- In the sorted name list, coming earlier means scoring at least as much. -/
theorem score_ge_of_before {logFn : Nat → ℚ}
    {stats : List (String × LangData)} (hnd : (stats.map Prod.fst).Nodup)
    {x y : String} (h : List.Sublist [x, y] (namesSorted logFn stats)) :
    scoreOf logFn stats y ≤ scoreOf logFn stats x := by
  have := List.Pairwise.sublist h (namesSorted_pairwise hnd)
  rcases List.pairwise_cons.mp this with ⟨h1, _⟩
  exact h1 y (by simp)

/-- A strictly larger score forces the earlier position. -/
theorem before_of_score_gt {logFn : Nat → ℚ}
    {stats : List (String × LangData)} (hnd : (stats.map Prod.fst).Nodup)
    {x y : String} (hx : x ∈ namesSorted logFn stats)
    (hy : y ∈ namesSorted logFn stats)
    (hgt : scoreOf logFn stats y < scoreOf logFn stats x) :
    List.Sublist [x, y] (namesSorted logFn stats) := by
  have hxy : x ≠ y := by
    intro h
    rw [h] at hgt
    exact lt_irrefl _ hgt
  rcases pair_sublist_of_mem hx hy hxy with h | h
  · exact h
  · exact absurd (score_ge_of_before hnd h) (not_le.mpr hgt)

/-- Relative order of two languages other than the bumped one is unchanged by
the bump (stability of the sort plus unchanged scores). -/
theorem before_bump_of_ne_left {logFn : Nat → ℚ}
    {stats : List (String × LangData)} {L x y : String} (δ : Nat)
    (hnd : (stats.map Prod.fst).Nodup) (hx : x ≠ L) (hy : y ≠ L) (hxy : x ≠ y)
    (h : List.Sublist [x, y] (namesSorted logFn stats)) :
    List.Sublist [x, y] (namesSorted logFn (bumpFiles L δ stats)) := by
  have hnd' : ((bumpFiles L δ stats).map Prod.fst).Nodup := by
    rw [bumpFiles_map_fst]; exact hnd
  have hxnames : x ∈ stats.map Prod.fst :=
    mem_namesSorted.mp (h.subset (by simp))
  have hynames : y ∈ stats.map Prod.fst :=
    mem_namesSorted.mp (h.subset (by simp))
  have hge := score_ge_of_before hnd h
  rcases lt_or_eq_of_le hge with hlt | heq
  · refine before_of_score_gt hnd' ?_ ?_ ?_
    · exact mem_namesSorted.mpr (by rw [bumpFiles_map_fst]; exact hxnames)
    · exact mem_namesSorted.mpr (by rw [bumpFiles_map_fst]; exact hynames)
    · rw [scoreOf_bump_other δ hx, scoreOf_bump_other δ hy]
      exact hlt
  · have hxp := @scored_pair_mem logFn stats hnd x hxnames
    have hyp := @scored_pair_mem logFn stats hnd y hynames
    have hndsc : (scoredOf logFn stats).Nodup :=
      List.Nodup.of_map Prod.fst (by rw [scoredOf_map_fst]; exact hnd)
    have hpairne : (x, scoreOf logFn stats x) ≠ (y, scoreOf logFn stats y) := by
      intro hcontra
      exact hxy (congrArg Prod.fst hcontra)
    rcases pair_sublist_of_mem hxp hyp hpairne with hin | hin
    · have hmap := hin.map (pairBump L δ)
      rw [← scoredOf_bumpFiles] at hmap
      rw [List.map_cons, List.map_cons, List.map_nil,
        @pairBump_of_ne L δ (x, scoreOf logFn stats x) hx,
        @pairBump_of_ne L δ (y, scoreOf logFn stats y) hy]
        at hmap
      have hr : byScoreDesc (x, scoreOf logFn stats x)
          (y, scoreOf logFn stats y) := by
        unfold byScoreDesc
        exact le_of_eq heq
      have hst := List.pair_sublist_insertionSort hr hmap
      have := hst.map Prod.fst
      simpa [namesSorted] using this
    · have hr : byScoreDesc (y, scoreOf logFn stats y)
          (x, scoreOf logFn stats x) := by
        unfold byScoreDesc
        exact le_of_eq heq.symm
      have hst := List.pair_sublist_insertionSort hr hin
      have hyx : List.Sublist [y, x] (namesSorted logFn stats) := by
        have := hst.map Prod.fst
        simpa [namesSorted] using this
      exact absurd (pair_sublist_antisymm (namesSorted_nodup hnd) h hyx) hxy

/-- After the bump, the bumped language comes before every language it
scored at least as much as. -/
theorem before_bump_self {logFn : Nat → ℚ} {stats : List (String × LangData)}
    {L y : String} {δ : Nat} (hδ : 0 < δ)
    (hnd : (stats.map Prod.fst).Nodup) (hL : L ∈ stats.map Prod.fst)
    (hy : y ∈ stats.map Prod.fst) (hyL : y ≠ L)
    (hle : scoreOf logFn stats y ≤ scoreOf logFn stats L) :
    List.Sublist [L, y] (namesSorted logFn (bumpFiles L δ stats)) := by
  have hnd' : ((bumpFiles L δ stats).map Prod.fst).Nodup := by
    rw [bumpFiles_map_fst]; exact hnd
  refine before_of_score_gt hnd' ?_ ?_ ?_
  · exact mem_namesSorted.mpr (by rw [bumpFiles_map_fst]; exact hL)
  · exact mem_namesSorted.mpr (by rw [bumpFiles_map_fst]; exact hy)
  · rw [scoreOf_bump_other δ hyL, scoreOf_bump_self δ hnd hL]
    have hpos : (0 : ℚ) < (δ : ℚ) * (4 / 10) := by
      have : (0 : ℚ) < (δ : ℚ) := by exact_mod_cast hδ
      positivity
    linarith

/-- The bumped language never leaves the top-`k` prefix of the sorted name
list. -/
theorem take_preserved_bump {logFn : Nat → ℚ}
    {stats : List (String × LangData)} {L : String} {δ : Nat} {k : Nat}
    (hδ : 0 < δ)
    (hnd : (stats.map Prod.fst).Nodup) (hL : L ∈ stats.map Prod.fst)
    (htake : L ∈ (namesSorted logFn stats).take k) :
    L ∈ (namesSorted logFn (bumpFiles L δ stats)).take k := by
  have hndO : (namesSorted logFn stats).Nodup := namesSorted_nodup hnd
  have hnd2 : ((bumpFiles L δ stats).map Prod.fst).Nodup := by
    rw [bumpFiles_map_fst]; exact hnd
  have hndN : (namesSorted logFn (bumpFiles L δ stats)).Nodup :=
    namesSorted_nodup hnd2
  have hLO : L ∈ namesSorted logFn stats := mem_namesSorted.mpr hL
  have hLN : L ∈ namesSorted logFn (bumpFiles L δ stats) :=
    mem_namesSorted.mpr (by rw [bumpFiles_map_fst]; exact hL)
  obtain ⟨p, q, hpq⟩ := List.append_of_mem hLO
  obtain ⟨p', q', hpq'⟩ := List.append_of_mem hLN
  have hlen : p.length < k := by
    rw [hpq] at htake hndO
    exact (mem_take_split hndO).mp htake
  have hsub : p' ⊆ p := by
    intro x hxp'
    have hxL : x ≠ L := by
      intro hcontra
      have : L ∉ p' := by
        rw [hpq'] at hndN
        rcases List.nodup_append.mp hndN with ⟨_, _, hdisj⟩
        exact fun hmem => hdisj hmem (by simp)
      exact this (hcontra ▸ hxp')
    have hbeforeN : List.Sublist [x, L]
        (namesSorted logFn (bumpFiles L δ stats)) := by
      rw [hpq']
      exact pair_sublist_of_mem_left hxp'
    have hgeN := score_ge_of_before hnd2 hbeforeN
    rw [scoreOf_bump_other δ hxL, scoreOf_bump_self δ hnd hL] at hgeN
    have hpos : (0 : ℚ) < (δ : ℚ) * (4 / 10) := by
      have : (0 : ℚ) < (δ : ℚ) := by exact_mod_cast hδ
      positivity
    have hgtO : scoreOf logFn stats L < scoreOf logFn stats x := by linarith
    have hxO : x ∈ namesSorted logFn stats := by
      rw [mem_namesSorted]
      rw [← bumpFiles_map_fst L δ stats]
      exact mem_namesSorted.mp (hbeforeN.subset (by simp))
    have hbeforeO := before_of_score_gt hnd hxO hLO hgtO
    rw [hpq] at hbeforeO hndO
    exact mem_left_of_pair_sublist hndO hbeforeO
  have hndp' : p'.Nodup := by
    have : List.Sublist p' (p' ++ L :: q') := List.sublist_append_left _ _
    exact List.Nodup.sublist this (hpq' ▸ hndN)
  have hlen' : p'.length ≤ p.length :=
    (List.subperm_of_subset hndp' hsub).length_le
  rw [hpq'] at hndN ⊢
  exact (mem_take_split hndN).mpr (lt_of_le_of_lt hlen' hlen)

/-- A language other than the bumped one that was outside the top-`k` prefix
stays outside it. -/
theorem take_excluded_bump {logFn : Nat → ℚ}
    {stats : List (String × LangData)} {L M : String} {δ : Nat} {k : Nat}
    (hδ : 0 < δ)
    (hnd : (stats.map Prod.fst).Nodup) (hL : L ∈ stats.map Prod.fst)
    (hM : M ∈ stats.map Prod.fst) (hML : M ≠ L)
    (hnot : M ∉ (namesSorted logFn stats).take k) :
    M ∉ (namesSorted logFn (bumpFiles L δ stats)).take k := by
  have hndO : (namesSorted logFn stats).Nodup := namesSorted_nodup hnd
  have hnd2 : ((bumpFiles L δ stats).map Prod.fst).Nodup := by
    rw [bumpFiles_map_fst]; exact hnd
  have hndN : (namesSorted logFn (bumpFiles L δ stats)).Nodup :=
    namesSorted_nodup hnd2
  have hMO : M ∈ namesSorted logFn stats := mem_namesSorted.mpr hM
  have hMN : M ∈ namesSorted logFn (bumpFiles L δ stats) :=
    mem_namesSorted.mpr (by rw [bumpFiles_map_fst]; exact hM)
  obtain ⟨p, q, hpq⟩ := List.append_of_mem hMO
  obtain ⟨p', q', hpq'⟩ := List.append_of_mem hMN
  have hlen : ¬ p.length < k := by
    intro hcontra
    apply hnot
    rw [hpq]
    exact (mem_take_split (hpq ▸ hndO)).mpr hcontra
  have hsub : p ⊆ p' := by
    intro x hxp
    have hxM : x ≠ M := by
      intro hcontra
      have : M ∉ p := by
        rw [hpq] at hndO
        rcases List.nodup_append.mp hndO with ⟨_, _, hdisj⟩
        exact fun hmem => hdisj hmem (by simp)
      exact this (hcontra ▸ hxp)
    have hbeforeO : List.Sublist [x, M] (namesSorted logFn stats) := by
      rw [hpq]
      exact pair_sublist_of_mem_left hxp
    have hbeforeN : List.Sublist [x, M]
        (namesSorted logFn (bumpFiles L δ stats)) := by
      by_cases hxL : x = L
      · subst hxL
        have hge := score_ge_of_before hnd hbeforeO
        exact before_bump_self hδ hnd hL hM hML hge
      · exact before_bump_of_ne_left δ hnd hxL hML hxM hbeforeO
    rw [hpq'] at hbeforeN
    exact mem_left_of_pair_sublist (hpq' ▸ hndN) hbeforeN
  have hndp : p.Nodup := by
    have : List.Sublist p (p ++ M :: q) := List.sublist_append_left _ _
    exact List.Nodup.sublist this (hpq ▸ hndO)
  have hlen' : p.length ≤ p'.length :=
    (List.subperm_of_subset hndp hsub).length_le
  rw [hpq']
  intro hcontra
  have := (mem_take_split (hpq' ▸ hndN)).mp hcontra
  omega

/-! #### The shape of the ranking output -/

/-- The top five names of the sorted scored array. -/
def topOf (logFn : Nat → ℚ) (stats : List (String × LangData)) : List String :=
  (namesSorted logFn stats).take 5

/-- The forced TypeScript extension of the top five. -/
def tsExt (logFn : Nat → ℚ) (stats : List (String × LangData)) : List String :=
  if (scoredOf logFn stats).any (fun l => l.1 == "TypeScript") &&
      !((topOf logFn stats).contains "TypeScript") then ["TypeScript"]
  else []

/-- The forced JavaScript extension. -/
def jsExt (logFn : Nat → ℚ) (stats : List (String × LangData)) : List String :=
  if (scoredOf logFn stats).any (fun l => l.1 == "JavaScript") &&
      !((topOf logFn stats ++ tsExt logFn stats).contains "JavaScript") then
    ["JavaScript"]
  else []

theorem any_fst_iff_mem {logFn : Nat → ℚ} {stats : List (String × LangData)}
    {n : String} :
    ((scoredOf logFn stats).any (fun l => l.1 == n)) = true ↔
      n ∈ stats.map Prod.fst := by
  rw [List.any_eq_true]
  constructor
  · rintro ⟨p, hp, hpn⟩
    have : p.1 = n := by simpa using hpn
    rw [← this, ← scoredOf_map_fst logFn stats]
    exact List.mem_map_of_mem Prod.fst hp
  · intro hn
    rw [← scoredOf_map_fst logFn stats] at hn
    rcases List.mem_map.mp hn with ⟨p, hp, rfl⟩
    exact ⟨p, hp, by simp⟩

/-- `rankLanguages` on a nonempty stats list is the top five followed by the
forced extensions. -/
theorem rankLanguages_shape (logFn : Nat → ℚ)
    (stats : List (String × LangData)) (h : stats ≠ []) :
    rankLanguages logFn stats =
      topOf logFn stats ++ (tsExt logFn stats ++ jsExt logFn stats) := by
  have hne : stats.isEmpty = false := by
    cases stats with
    | nil => exact absurd rfl h
    | cons a t => rfl
  unfold rankLanguages
  rw [hne]
  simp only [Bool.false_eq_true, if_false]
  have htop : List.map Prod.fst
      ((List.insertionSort byScoreDesc (scoredOf logFn stats)).take 5) =
      topOf logFn stats := by
    unfold topOf namesSorted
    exact List.map_take Prod.fst _ 5
  rw [htop]
  unfold jsExt tsExt
  by_cases hc1 : ((scoredOf logFn stats).any (fun l => l.1 == "TypeScript") &&
      !((topOf logFn stats).contains "TypeScript")) = true
  · simp only [hc1, if_true]
    by_cases hc2 : ((scoredOf logFn stats).any (fun l => l.1 == "JavaScript") &&
        !((topOf logFn stats ++ ["TypeScript"]).contains "JavaScript")) = true
    · rw [if_pos hc2, if_pos hc2]
      simp
    · rw [if_neg hc2, if_neg hc2]
      simp
  · simp only [hc1]
    simp only [Bool.false_eq_true, if_false, List.append_nil, List.nil_append]
    by_cases hc2 : ((scoredOf logFn stats).any (fun l => l.1 == "JavaScript") &&
        !((topOf logFn stats).contains "JavaScript")) = true
    · rw [if_pos hc2, if_pos hc2]
    · rw [if_neg hc2, if_neg hc2]
      simp

theorem mem_tsExt {logFn : Nat → ℚ} {stats : List (String × LangData)}
    {x : String} (hx : x ∈ tsExt logFn stats) :
    x = "TypeScript" ∧ "TypeScript" ∈ stats.map Prod.fst ∧
      "TypeScript" ∉ topOf logFn stats := by
  unfold tsExt at hx
  by_cases hc : ((scoredOf logFn stats).any (fun l => l.1 == "TypeScript") &&
      !((topOf logFn stats).contains "TypeScript")) = true
  · rw [if_pos hc] at hx
    have hc2 := hc
    rw [Bool.and_eq_true] at hc2
    rcases hc2 with ⟨h1, h2⟩
    refine ⟨by simpa using hx, any_fst_iff_mem.mp h1, ?_⟩
    intro hmem
    rw [Bool.not_eq_eq_eq_not, Bool.not_true] at h2
    exact (by simpa using h2 : "TypeScript" ∉ topOf logFn stats) hmem
  · rw [if_neg hc] at hx
    cases hx

theorem mem_jsExt {logFn : Nat → ℚ} {stats : List (String × LangData)}
    {x : String} (hx : x ∈ jsExt logFn stats) :
    x = "JavaScript" ∧ "JavaScript" ∈ stats.map Prod.fst ∧
      "JavaScript" ∉ topOf logFn stats ∧
      "JavaScript" ∉ tsExt logFn stats := by
  unfold jsExt at hx
  by_cases hc : ((scoredOf logFn stats).any (fun l => l.1 == "JavaScript") &&
      !((topOf logFn stats ++ tsExt logFn stats).contains "JavaScript")) = true
  · rw [if_pos hc] at hx
    have hc2 := hc
    rw [Bool.and_eq_true] at hc2
    rcases hc2 with ⟨h1, h2⟩
    rw [Bool.not_eq_eq_eq_not, Bool.not_true] at h2
    have hnot : "JavaScript" ∉ topOf logFn stats ++ tsExt logFn stats := by
      simpa using h2
    refine ⟨by simpa using hx, any_fst_iff_mem.mp h1, ?_, ?_⟩
    · exact fun hmem => hnot (List.mem_append.mpr (Or.inl hmem))
    · exact fun hmem => hnot (List.mem_append.mpr (Or.inr hmem))
  · rw [if_neg hc] at hx
    cases hx

/-- TypeScript, when present at all, is in the ranking. -/
theorem ts_mem_rank {logFn : Nat → ℚ} {stats : List (String × LangData)}
    (h : stats ≠ []) (hts : "TypeScript" ∈ stats.map Prod.fst) :
    "TypeScript" ∈ rankLanguages logFn stats := by
  rw [rankLanguages_shape logFn stats h]
  by_cases htop : "TypeScript" ∈ topOf logFn stats
  · exact List.mem_append.mpr (Or.inl htop)
  · refine List.mem_append.mpr (Or.inr (List.mem_append.mpr (Or.inl ?_)))
    unfold tsExt
    rw [if_pos]
    · simp
    · rw [Bool.and_eq_true]
      refine ⟨any_fst_iff_mem.mpr hts, ?_⟩
      rw [Bool.not_eq_eq_eq_not, Bool.not_true]
      simpa using htop

/-- JavaScript, when present at all, is in the ranking. -/
theorem js_mem_rank {logFn : Nat → ℚ} {stats : List (String × LangData)}
    (h : stats ≠ []) (hjs : "JavaScript" ∈ stats.map Prod.fst) :
    "JavaScript" ∈ rankLanguages logFn stats := by
  rw [rankLanguages_shape logFn stats h]
  by_cases hin : "JavaScript" ∈ topOf logFn stats ++ tsExt logFn stats
  · rcases List.mem_append.mp hin with h1 | h1
    · exact List.mem_append.mpr (Or.inl h1)
    · exact List.mem_append.mpr (Or.inr (List.mem_append.mpr (Or.inl h1)))
  · refine List.mem_append.mpr (Or.inr (List.mem_append.mpr (Or.inr ?_)))
    unfold jsExt
    rw [if_pos]
    · simp
    · rw [Bool.and_eq_true]
      refine ⟨any_fst_iff_mem.mpr hjs, ?_⟩
      rw [Bool.not_eq_eq_eq_not, Bool.not_true]
      simpa using hin

/-- Every ranked name is a name of the stats list. -/
theorem rank_subset_names {logFn : Nat → ℚ} {stats : List (String × LangData)}
    {x : String} (hx : x ∈ rankLanguages logFn stats) :
    x ∈ stats.map Prod.fst := by
  have hne : stats ≠ [] := by
    rintro rfl
    simp [rankLanguages] at hx
  rw [rankLanguages_shape logFn stats hne] at hx
  rcases List.mem_append.mp hx with h1 | h1
  · exact mem_namesSorted.mp (List.take_subset 5 _ h1)
  · rcases List.mem_append.mp h1 with h2 | h2
    · rcases mem_tsExt h2 with ⟨rfl, hmem, _⟩
      exact hmem
    · rcases mem_jsExt h2 with ⟨rfl, hmem, _, _⟩
      exact hmem

theorem tsExt_length_le (logFn : Nat → ℚ) (stats : List (String × LangData)) :
    (tsExt logFn stats).length ≤ 1 := by
  unfold tsExt
  split <;> simp

theorem jsExt_length_le (logFn : Nat → ℚ) (stats : List (String × LangData)) :
    (jsExt logFn stats).length ≤ 1 := by
  unfold jsExt
  split <;> simp

/-! ### Claim C8: `rankLanguages` is monotone in `fileCount` -/

/-- C8: increasing one language's file count by any positive amount, holding
every other language's data fixed, never moves that language to a strictly
lower position relative to any other language of the returned ranking: the
language stays in the ranking if it was there, and every other language it
preceded that is still ranked is still preceded by it. Stated for an
arbitrary `logFn` standing for `Math.log`, which the bump does not touch. -/
theorem rankLanguages_fileCount_monotone
    (logFn : Nat → ℚ) (stats : List (String × LangData)) (L : String)
    (δ : Nat) (hδ : 0 < δ) (hnd : (stats.map Prod.fst).Nodup)
    (hL : L ∈ stats.map Prod.fst) :
    (L ∈ rankLanguages logFn stats →
      L ∈ rankLanguages logFn (bumpFiles L δ stats)) ∧
    (∀ M, M ≠ L → List.Sublist [L, M] (rankLanguages logFn stats) →
      M ∈ rankLanguages logFn (bumpFiles L δ stats) →
      List.Sublist [L, M] (rankLanguages logFn (bumpFiles L δ stats))) := by
  have hne : stats ≠ [] := by
    rintro rfl
    simp at hL
  have hmapN := bumpFiles_map_fst L δ stats
  have hneN : bumpFiles L δ stats ≠ [] := by
    intro hc
    have h2 := congrArg (List.map Prod.fst) hc
    rw [hmapN] at h2
    rw [h2] at hL
    simp at hL
  have hndN : ((bumpFiles L δ stats).map Prod.fst).Nodup := hmapN ▸ hnd
  have hLN : L ∈ (bumpFiles L δ stats).map Prod.fst := hmapN ▸ hL
  have hshO := rankLanguages_shape logFn stats hne
  have hshN := rankLanguages_shape logFn (bumpFiles L δ stats) hneN
  have hndnsO : (namesSorted logFn stats).Nodup := namesSorted_nodup hnd
  have hndnsN : (namesSorted logFn (bumpFiles L δ stats)).Nodup :=
    namesSorted_nodup hndN
  have hpres : L ∈ rankLanguages logFn stats →
      L ∈ rankLanguages logFn (bumpFiles L δ stats) := by
    intro hmem
    rw [hshO] at hmem
    rcases List.mem_append.mp hmem with htop | hext
    · rw [hshN]
      exact List.mem_append.mpr (Or.inl (take_preserved_bump hδ hnd hL htop))
    · rcases List.mem_append.mp hext with hts | hjs
      · rcases mem_tsExt hts with ⟨rfl, hmemTS, _⟩
        exact ts_mem_rank hneN (hmapN ▸ hmemTS)
      · rcases mem_jsExt hjs with ⟨rfl, hmemJS, _, _⟩
        exact js_mem_rank hneN (hmapN ▸ hmemJS)
  refine ⟨hpres, ?_⟩
  intro M hML hbefore hMnew
  have hMnames : M ∈ stats.map Prod.fst := by
    have h2 := rank_subset_names hMnew
    rwa [hmapN] at h2
  have hLrankO : L ∈ rankLanguages logFn stats := hbefore.subset (by simp)
  rw [hshO] at hbefore
  rw [hshN] at hMnew ⊢
  have hpos : (0 : ℚ) < (δ : ℚ) * (4 / 10) := by
    have h2 : (0 : ℚ) < (δ : ℚ) := by exact_mod_cast hδ
    positivity
  have hcont : scoreOf logFn stats M ≤ scoreOf logFn stats L →
      L ∈ topOf logFn stats →
      List.Sublist [L, M] (topOf logFn (bumpFiles L δ stats) ++
        (tsExt logFn (bumpFiles L δ stats) ++
          jsExt logFn (bumpFiles L δ stats))) := by
    intro hge hLtop
    have hLtopN : L ∈ topOf logFn (bumpFiles L δ stats) :=
      take_preserved_bump hδ hnd hL hLtop
    rcases List.mem_append.mp hMnew with hMtopN | hMextN
    · have hlt : scoreOf logFn (bumpFiles L δ stats) M <
          scoreOf logFn (bumpFiles L δ stats) L := by
        rw [scoreOf_bump_other δ hML, scoreOf_bump_self δ hnd hL]
        linarith
      have hLM_nsN := before_of_score_gt hndN
        (mem_namesSorted.mpr hLN) (mem_namesSorted.mpr (hmapN ▸ hMnames)) hlt
      have htake : List.Sublist [L, M]
          ((namesSorted logFn (bumpFiles L δ stats)).take 5) :=
        pair_sublist_take hndnsN hLM_nsN hMtopN
      exact htake.trans (List.sublist_append_left _ _)
    · have h1 : List.Sublist [L] (topOf logFn (bumpFiles L δ stats)) :=
        List.singleton_sublist.mpr hLtopN
      have h2 : List.Sublist [M] (tsExt logFn (bumpFiles L δ stats) ++
          jsExt logFn (bumpFiles L δ stats)) :=
        List.singleton_sublist.mpr hMextN
      simpa using List.Sublist.append h1 h2
  rcases List.sublist_append_iff.mp hbefore with ⟨u, v, huv, hu, hv⟩
  rcases pair_eq_append_cases huv.symm with ⟨hu0, hv0⟩ | ⟨hu0, hv0⟩ | ⟨hu0, hv0⟩
  · -- both forced extensions: L is TypeScript, M is JavaScript
    subst hu0; subst hv0
    rcases List.sublist_append_iff.mp hv with ⟨u2, v2, huv2, hu2, hv2⟩
    rcases pair_eq_append_cases huv2.symm with ⟨hu20, hv20⟩ | ⟨hu20, hv20⟩ |
      ⟨hu20, hv20⟩
    · subst hu20; subst hv20
      have h1 := hv2.length_le
      simp only [List.length_cons, List.length_nil] at h1
      have h2 := jsExt_length_le logFn stats
      omega
    · subst hu20; subst hv20
      obtain ⟨rfl, hmemTS, hTSnotTop⟩ := mem_tsExt (List.singleton_sublist.mp hu2)
      obtain ⟨rfl, hmemJS, hJSnotTop, _⟩ :=
        mem_jsExt (List.singleton_sublist.mp hv2)
      have hMnotTopN := take_excluded_bump hδ hnd hL hMnames hML hJSnotTop
      rcases List.mem_append.mp hMnew with hMtopN | hMextN
      · exact absurd hMtopN hMnotTopN
      · have hLrankN := hpres hLrankO
        rw [hshN] at hLrankN
        rcases List.mem_append.mp hLrankN with hLtopN | hLextN
        · have h1 : List.Sublist ["TypeScript"]
              (topOf logFn (bumpFiles "TypeScript" δ stats)) :=
            List.singleton_sublist.mpr hLtopN
          have h2 := List.singleton_sublist.mpr hMextN
          simpa using List.Sublist.append h1 h2
        · rcases List.mem_append.mp hLextN with hLts | hLjs
          · rcases List.mem_append.mp hMextN with hMts | hMjs
            · obtain ⟨hMeq, _, _⟩ := mem_tsExt hMts
              exact absurd hMeq hML
            · have h1 := List.singleton_sublist.mpr hLts
              have h2 := List.singleton_sublist.mpr hMjs
              have h3 := List.Sublist.append h1 h2
              have h4 : List.Sublist ["TypeScript", "JavaScript"]
                  (tsExt logFn (bumpFiles "TypeScript" δ stats) ++
                    jsExt logFn (bumpFiles "TypeScript" δ stats)) := by
                simpa using h3
              exact h4.trans (List.sublist_append_right _ _)
          · obtain ⟨hLeq, _, _, _⟩ := mem_jsExt hLjs
            exact absurd hLeq (by decide)
    · subst hu20; subst hv20
      have h1 := hu2.length_le
      simp only [List.length_cons, List.length_nil] at h1
      have h2 := tsExt_length_le logFn stats
      omega
  · -- L in the top five, M a forced extension
    subst hu0; subst hv0
    have hLtop : L ∈ topOf logFn stats := List.singleton_sublist.mp hu
    have hMext := List.singleton_sublist.mp hv
    have hMnotTop : M ∉ topOf logFn stats := by
      rcases List.mem_append.mp hMext with hts | hjs
      · obtain ⟨rfl, _, hnot⟩ := mem_tsExt hts
        exact hnot
      · obtain ⟨rfl, _, hnot, _⟩ := mem_jsExt hjs
        exact hnot
    have hMns : M ∈ namesSorted logFn stats := mem_namesSorted.mpr hMnames
    have hMdrop : M ∈ (namesSorted logFn stats).drop 5 := by
      have hsplit := List.take_append_drop 5 (namesSorted logFn stats)
      rcases List.mem_append.mp (by rw [hsplit]; exact hMns) with h2 | h2
      · exact absurd h2 hMnotTop
      · exact h2
    have hLM_nsO : List.Sublist [L, M] (namesSorted logFn stats) := by
      have h1 : List.Sublist [L] ((namesSorted logFn stats).take 5) :=
        List.singleton_sublist.mpr hLtop
      have h2 : List.Sublist [M] ((namesSorted logFn stats).drop 5) :=
        List.singleton_sublist.mpr hMdrop
      have h3 := List.Sublist.append h1 h2
      rw [List.take_append_drop] at h3
      simpa using h3
    exact hcont (score_ge_of_before hnd hLM_nsO) hLtop
  · -- both in the top five
    subst hu0; subst hv0
    have hLtop : L ∈ topOf logFn stats := hu.subset (by simp)
    have hLM_nsO : List.Sublist [L, M] (namesSorted logFn stats) :=
      hu.trans (List.take_sublist 5 _)
    exact hcont (score_ge_of_before hnd hLM_nsO) hLtop

/-- C8 witness: two languages with one file each; bumping JavaScript by one
file keeps it ranked ahead of Python. The score computations are evaluated
with the constant-zero stand-in for `Math.log` (both languages have zero
lines, so the logarithm term is the same constant `logFn 1` in every score;
zero makes the arithmetic explicit). -/
theorem rankLanguages_fileCount_monotone_witness :
    List.Sublist ["JavaScript", "Python"]
      (rankLanguages (fun _ => 0)
        (bumpFiles "JavaScript" 1
          [("JavaScript", ⟨1, 0, 0⟩), ("Python", ⟨1, 0, 0⟩)])) := by
  have hfJS : priorityMap.find? (fun e => e.1 == "JavaScript") =
      some ("JavaScript", 9) := by decide
  have hfPy : priorityMap.find? (fun e => e.1 == "Python") =
      some ("Python", 8) := by decide
  have hbump : bumpFiles "JavaScript" 1
      [("JavaScript", ⟨1, 0, 0⟩), ("Python", ⟨1, 0, 0⟩)] =
      [("JavaScript", ⟨2, 0, 0⟩), ("Python", ⟨1, 0, 0⟩)] := by decide
  have hsc1 : scoredOf (fun _ => (0 : ℚ))
      [("JavaScript", ⟨1, 0, 0⟩), ("Python", ⟨1, 0, 0⟩)] =
      [("JavaScript", 13 / 10), ("Python", 12 / 10)] := by
    simp only [scoredOf, List.map, languageScore, languagePriority, hfJS, hfPy,
      Option.map, Option.getD]
    norm_num
  have hsort1 : List.insertionSort byScoreDesc
      [(("JavaScript" : String), (13 : ℚ) / 10), ("Python", 12 / 10)] =
      [("JavaScript", 13 / 10), ("Python", 12 / 10)] := by
    norm_num [List.insertionSort, List.orderedInsert, byScoreDesc]
  have hrank1 : rankLanguages (fun _ => 0)
      [("JavaScript", ⟨1, 0, 0⟩), ("Python", ⟨1, 0, 0⟩)] =
      ["JavaScript", "Python"] := by
    simp only [rankLanguages, hsc1, hsort1]
    decide
  have hscB : scoredOf (fun _ => (0 : ℚ))
      [("JavaScript", ⟨2, 0, 0⟩), ("Python", ⟨1, 0, 0⟩)] =
      [("JavaScript", 17 / 10), ("Python", 12 / 10)] := by
    simp only [scoredOf, List.map, languageScore, languagePriority, hfJS, hfPy,
      Option.map, Option.getD]
    norm_num
  have hsortB : List.insertionSort byScoreDesc
      [(("JavaScript" : String), (17 : ℚ) / 10), ("Python", 12 / 10)] =
      [("JavaScript", 17 / 10), ("Python", 12 / 10)] := by
    norm_num [List.insertionSort, List.orderedInsert, byScoreDesc]
  have hrankB : rankLanguages (fun _ => 0)
      [("JavaScript", ⟨2, 0, 0⟩), ("Python", ⟨1, 0, 0⟩)] =
      ["JavaScript", "Python"] := by
    simp only [rankLanguages, hscB, hsortB]
    decide
  refine (rankLanguages_fileCount_monotone (fun _ => 0)
      [("JavaScript", ⟨1, 0, 0⟩), ("Python", ⟨1, 0, 0⟩)] "JavaScript" 1
      ?_ ?_ ?_).2 "Python" ?_ ?_ ?_
  · decide
  · decide
  · decide
  · decide
  · rw [hrank1]
  · rw [hbump, hrankB]
    decide

/-! ### Filesystem and manifest environment

Detectors read the project tree through `glob` and `fs`; the model receives
the observable data directly: `files` is the list of all file paths of the
tree, relative to the project root in POSIX form, and a parsed
`package.json` is passed as an optional `PackageJson` (`none` when the file
is missing or unparsable, exactly the cases where `readPackageJson` returns
`null`). -/

/-- The dependency-bearing fields of a parsed `package.json`. Each section is
an association list in property order; keys inside one section are unique
(JSON object). -/
structure PackageJson where
  dependencies : List (String × String) := []
  devDependencies : List (String × String) := []
  peerDependencies : List (String × String) := []
  optionalDependencies : List (String × String) := []
  scripts : List (String × String) := []
deriving Repr, DecidableEq

/-- Property lookup in one object. -/
def lookupDep (m : List (String × String)) (k : String) : Option String :=
  (m.find? (fun e => e.1 == k)).map (·.2)

/-- JavaScript truthiness of an optional string (absent and empty are
falsy). -/
def truthy (o : Option String) : Bool :=
  match o with
  | some s => !s.isEmpty
  | none => false

/-- `a || b` on two optional strings, as JavaScript evaluates it. -/
def firstTruthy (a b : Option String) : Option String :=
  if truthy a then a else b

/-- `{ ...a, ...b }[k]`: the later spread wins. -/
def spread2 (a b : List (String × String)) (k : String) : Option String :=
  match lookupDep b k with
  | some v => some v
  | none => lookupDep a k

/-- `{ ...a, ...b, ...c }[k]`. -/
def spread3 (a b c : List (String × String)) (k : String) : Option String :=
  match lookupDep c k with
  | some v => some v
  | none => spread2 a b k

/-- The `deps` object of `detectFrameworkFromDependencies`
(dependencies, devDependencies and peerDependencies spread together). -/
def deps3 (p : PackageJson) (k : String) : Option String :=
  spread3 p.dependencies p.devDependencies p.peerDependencies k

/-- The `deps` object used by the other phases (dependencies and
devDependencies only). -/
def deps2 (p : PackageJson) (k : String) : Option String :=
  spread2 p.dependencies p.devDependencies k

def hasDep3 (p : PackageJson) (k : String) : Bool := truthy (deps3 p k)

def hasDep2 (p : PackageJson) (k : String) : Bool := truthy (deps2 p k)

/-! #### Path helpers (POSIX relative paths, executable over `List Char`) -/

/-- Split a character list at every occurrence of `sep`. -/
def splitChars (sep : Char) : List Char → List (List Char)
  | [] => [[]]
  | c :: t =>
    let r := splitChars sep t
    if c == sep then [] :: r
    else
      match r with
      | [] => [[c]]
      | h :: t2 => (c :: h) :: t2

/-- The `/`-separated segments of a relative path. -/
def pathSegments (p : String) : List String :=
  (splitChars '/' p.data).map (fun l => ⟨l⟩)

/-- `path.basename`. -/
def baseName (p : String) : String := (pathSegments p).getLast?.getD p

/-- A file directly in the project root (single path segment). -/
def isTopLevel (p : String) : Bool := (pathSegments p).length == 1

/-- `path.extname` on a file name: the suffix from the last dot, empty when
there is no dot or the only dot starts a dotfile name. -/
def extname (name : String) : String :=
  let base := baseName name
  let parts := splitChars '.' base.data
  match parts with
  | [] => ""
  | [_] => ""
  | first :: r :: rest2 =>
    if first.isEmpty && rest2.isEmpty then ""
    else "." ++ (⟨(r :: rest2).getLast (by simp)⟩ : String)

/-- The file name without its `extname`. -/
def baseNameNoExt (p : String) : String :=
  let b := baseName p
  let e := extname p
  ⟨b.data.take (b.data.length - e.data.length)⟩

/-- Does the path descend through directory `seg` (the segment occurs before
the final file name)? Models `**/<seg>/**` glob patterns. -/
def hasDirSegment (p seg : String) : Bool :=
  (pathSegments p).dropLast.contains seg

/-- Is the path excluded by a `['node_modules/**', ...]` ignore list? Those
patterns are anchored at the glob root, so they exclude paths whose first
segment is an ignored directory. -/
def ignoredBy (igs : List String) (p : String) : Bool :=
  igs.any (fun d => jsStartsWith p (d ++ "/"))

/-- A `glob` `maxDepth: k` bound, modelled as the path having at most `k`
segments. -/
def withinDepth (k : Nat) (p : String) : Bool :=
  (pathSegments p).length ≤ k

/-- Does the file name carry one of the given extensions? -/
def hasExt (exts : List String) (p : String) : Bool :=
  exts.any (fun e => jsEndsWith p e)

/-- Matcher for the simple one-star glob patterns this code base uses for
config-file names (`next.config.*`, `.eslintrc*`, `tsconfig.*.json`,
`Dockerfile*`, exact names). A starless pattern matches exactly; one star
matches any (possibly empty) infix. No pattern of the source has two
stars. -/
def simpleGlobMatch (pat name : String) : Bool :=
  match splitChars '*' pat.data with
  | [p] => name.data == p
  | [p1, p2] =>
    charIsPrefix p1 name.data && charIsPrefix p2.reverse name.data.reverse &&
      p1.length + p2.length ≤ name.data.length
  | _ => false

/-! ### `src/src/helpers/analyze/detectors/structure.ts`: `detectFrontend` -/

/-- One detected framework signal (the `Framework` interface). -/
structure Framework where
  name : String
  version : Option String := none
  server : Option String := none
deriving Repr, DecidableEq

/-- The `features` object of `FrontendAnalysis`. Each flag is optional
because the configuration-file phase replaces the whole object with one that
carries only `hasSSR` and `hasStaticSite`; `none` renders a key that is
absent (`undefined`) at run time. -/
structure FrontendFeatures where
  hasTypeScript : Option Bool := none
  hasJSX : Option Bool := none
  hasSSR : Option Bool := none
  hasStaticSite : Option Bool := none
  hasPWA : Option Bool := none
  hasMobile : Option Bool := none
  hasDesktop : Option Bool := none
  hasTesting : Option Bool := none
  hasStorybook : Option Bool := none
  hasLinting : Option Bool := none
  hasFormatting : Option Bool := none
deriving Repr, DecidableEq

/-- The result object of `detectFrontend`. -/
structure FrontendAnalysis where
  framework : Framework
  hasRouter : Bool
  hasStateManagement : Bool
  frameworks : List Framework
  metaFrameworks : List String
  features : FrontendFeatures
  configFiles : List String
  entryPoints : List String
  sourceDirectories : List String
  testDirectories : List String
  cssFramework : Option String := none
  cssPreprocessor : Option String := none
  uiLibrary : Option String := none
  iconsLibrary : Option String := none
  formLibrary : Option String := none
  chartLibrary : Option String := none
  internationalization : Option String := none
  buildTool : Option String := none
  buildToolVersion : Option String := none
deriving Repr, DecidableEq

namespace Frontend

/-- The initial `analysis` object of `detectFrontend` (lines 134-157): every
feature flag present and false. -/
def baseAnalysis : FrontendAnalysis where
  framework := { name := "Unknown" }
  hasRouter := false
  hasStateManagement := false
  frameworks := []
  metaFrameworks := []
  features := {
    hasTypeScript := some false, hasJSX := some false, hasSSR := some false,
    hasStaticSite := some false, hasPWA := some false, hasMobile := some false,
    hasDesktop := some false, hasTesting := some false,
    hasStorybook := some false, hasLinting := some false,
    hasFormatting := some false }
  configFiles := []
  entryPoints := []
  sourceDirectories := []
  testDirectories := []

/-- `detectFrameworksFromDependencies` (lines 277-309): the ordered signal
collection over the three-way dependency spread. -/
def detectFrameworksFromDependencies (d : String → Option String) :
    List Framework :=
  (if truthy (d "react") || truthy (d "react-dom") then
    [{ name := "React", version := firstTruthy (d "react") (d "react-dom") }]
  else []) ++
  (if truthy (d "vue") || truthy (d "@vue/runtime-dom") then
    [{ name := "Vue", version := firstTruthy (d "vue") (d "@vue/runtime-dom") }]
  else []) ++
  (if truthy (d "@angular/core") then
    [{ name := "Angular", version := d "@angular/core" }]
  else []) ++
  (if truthy (d "svelte") || truthy (d "svelte/store") then
    [{ name := "Svelte", version := d "svelte" }]
  else []) ++
  (if truthy (d "preact") then [{ name := "Preact", version := d "preact" }]
  else []) ++
  (if truthy (d "solid-js") then
    [{ name := "SolidJS", version := d "solid-js" }]
  else []) ++
  (if truthy (d "lit") || truthy (d "lit-element") then
    [{ name := "Lit", version := firstTruthy (d "lit") (d "lit-element") }]
  else []) ++
  (if truthy (d "alpinejs") then
    [{ name := "Alpine.js", version := d "alpinejs" }]
  else []) ++
  (if truthy (d "jquery") then [{ name := "jQuery", version := d "jquery" }]
  else [])

/-- The fixed priority list of `pickPrimaryFramework` (lines 316-326). -/
def FRAMEWORK_PRIORITY : List String :=
  ["React", "Vue", "Angular", "Svelte", "Preact", "SolidJS", "Lit",
   "Alpine.js", "jQuery"]

/-- `pickPrimaryFramework` (lines 311-336): the first priority name with a
match, else the first collected framework. -/
def pickPrimaryFramework (frameworks : List Framework) : Option Framework :=
  if frameworks.isEmpty then none
  else
    match FRAMEWORK_PRIORITY.findSome?
        (fun name => frameworks.find? (fun fw => fw.name == name)) with
    | some fw => some fw
    | none => frameworks.head?

/-- `mergeFrameworks` (lines 338-349). -/
def mergeFrameworks (existing incoming : List Framework) : List Framework :=
  incoming.foldl
    (fun merged fw =>
      if fw.name.isEmpty then merged
      else if merged.any (fun item => item.name == fw.name) then merged
      else merged ++ [fw])
    existing

/-- The result of `detectFrameworkFromDependencies` (lines 231-275). -/
structure FrameworkDetection where
  framework : Framework
  hasRouter : Bool
  hasStateManagement : Bool
  frameworks : List Framework
deriving Repr, DecidableEq

/-- `detectFrameworkFromDependencies` (lines 231-275). -/
def detectFrameworkFromDependencies (p : PackageJson) : FrameworkDetection :=
  let d := deps3 p
  let frameworks := detectFrameworksFromDependencies d
  let framework :=
    match pickPrimaryFramework frameworks with
    | some primary => primary
    | none => { name := "Unknown" }
  { framework := framework
    frameworks := frameworks
    hasRouter :=
      truthy (d "react-router") || truthy (d "react-router-dom") ||
      truthy (d "vue-router") || truthy (d "svelte-routing") ||
      truthy (d "@sveltejs/kit") || truthy (d "preact-router") ||
      truthy (d "@solidjs/router") || truthy (d "@angular/router")
    hasStateManagement :=
      truthy (d "redux") || truthy (d "mobx") || truthy (d "zustand") ||
      truthy (d "recoil") || truthy (d "vuex") || truthy (d "pinia") ||
      truthy (d "@ngrx/store") || truthy (d "ngxs") }

/-- `detectMetaFrameworks` (lines 351-409), over the two-way spread. -/
def detectMetaFrameworks (p : PackageJson) : List String :=
  let d := deps2 p
  (if truthy (d "next") then ["Next.js"] else []) ++
  (if truthy (d "gatsby") then ["Gatsby"] else []) ++
  (if truthy (d "remix") then ["Remix"] else []) ++
  (if truthy (d "vite") && truthy (d "react") then ["Vite + React"] else []) ++
  (if truthy (d "nuxt") || truthy (d "nuxt3") then ["Nuxt.js"] else []) ++
  (if truthy (d "vite") && truthy (d "vue") then ["Vite + Vue"] else []) ++
  (if truthy (d "quasar") then ["Quasar"] else []) ++
  (if truthy (d "@sveltejs/kit") then ["SvelteKit"] else []) ++
  (if truthy (d "vite") && truthy (d "svelte") then ["Vite + Svelte"]
  else []) ++
  (if truthy (d "@angular/platform-server") then ["Angular Universal"]
  else []) ++
  (if truthy (d "astro") then ["Astro"] else []) ++
  (if truthy (d "eleventy") then ["Eleventy"] else []) ++
  (if truthy (d "vuepress") then ["VuePress"] else [])

/-- `detectFeaturesFromDependencies` (lines 411-474): every flag present. -/
def detectFeaturesFromDependencies (p : PackageJson) : FrontendFeatures :=
  let d := deps2 p
  { hasTypeScript := some (truthy (d "typescript") || truthy (d "ts-node"))
    hasJSX := some (truthy (d "react") || truthy (d "preact") ||
      truthy (d "solid-js"))
    hasSSR := some (truthy (d "next") || truthy (d "nuxt") ||
      truthy (d "@sveltejs/kit") || truthy (d "@angular/platform-server"))
    hasStaticSite := some (truthy (d "gatsby") || truthy (d "astro") ||
      truthy (d "eleventy") || truthy (d "vuepress"))
    hasPWA := some (truthy (d "workbox-webpack-plugin") ||
      truthy (d "@angular/pwa") || truthy (d "@vue/cli-plugin-pwa"))
    hasMobile := some (truthy (d "react-native") ||
      truthy (d "@ionic/react") || truthy (d "@capacitor/core"))
    hasDesktop := some (truthy (d "electron") || truthy (d "tauri") ||
      truthy (d "@neutralinojs/neu"))
    hasTesting := some (truthy (d "jest") || truthy (d "vitest") ||
      truthy (d "mocha") || truthy (d "cypress") || truthy (d "playwright") ||
      truthy (d "@testing-library/react") ||
      truthy (d "@testing-library/vue") ||
      truthy (d "@testing-library/angular") ||
      truthy (d "@testing-library/svelte"))
    hasStorybook := some (truthy (d "storybook") ||
      truthy (d "@storybook/react") || truthy (d "@storybook/vue") ||
      truthy (d "@storybook/angular") || truthy (d "@storybook/svelte"))
    hasLinting := some (truthy (d "eslint") ||
      truthy (d "@typescript-eslint/eslint-plugin") || truthy (d "stylelint"))
    hasFormatting := some (truthy (d "prettier")) }

/-- The top-level directory entries of the tree (`fs.readdir` with file
types), in first-occurrence order: a one-segment path is a top-level file, a
longer path contributes its leading directory. -/
def topEntries (files : List String) : List (String × Bool) :=
  files.foldl
    (fun acc p =>
      match pathSegments p with
      | [n] => if acc.any (fun e => e.1 == n) then acc else acc ++ [(n, false)]
      | n :: _ :: _ =>
        if acc.any (fun e => e.1 == n) then acc else acc ++ [(n, true)]
      | [] => acc)
    []

/-- The result of the frontend detector's local `analyzeProjectStructure`
(lines 476-546). -/
structure StructureFE where
  entryPoints : List String
  sourceDirectories : List String
  testDirectories : List String
  framework : Option Framework
deriving Repr, DecidableEq

/-- The frontend detector's `analyzeProjectStructure` (lines 476-546). Its
`result.framework` starts absent, and the component-pattern branch only
assigns it when `result.framework?.name === 'Unknown'`, which is false for an
absent field: the branch never fires, and it is rendered here exactly as
written. -/
def analyzeProjectStructureFE (files : List String) : StructureFE :=
  let entries := topEntries files
  let sourceDirs := ["src", "app", "components", "pages", "views", "lib",
    "utils"]
  let testDirs := ["tests", "test", "__tests__", "cypress", "e2e", "spec"]
  let entryFiles := ["index", "main", "app"]
  let sourceDirectories := entries.filterMap (fun e =>
    if e.2 && sourceDirs.any (fun d => jsToLower d == jsToLower e.1) then
      some e.1
    else none)
  let testDirectories := entries.filterMap (fun e =>
    if e.2 && testDirs.any (fun d => jsToLower d == jsToLower e.1) then
      some e.1
    else none)
  let entryPoints0 := entries.filterMap (fun e =>
    if !e.2 && entryFiles.contains (jsToLower (baseNameNoExt e.1)) &&
        [".js", ".jsx", ".ts", ".tsx", ".vue", ".svelte"].contains
          (jsToLower (extname e.1)) then
      some e.1
    else none)
  let entryPoints :=
    if entryPoints0.isEmpty then
      (files.filter (fun p =>
        !(ignoredBy ["node_modules", "dist", "build"] p) && withinDepth 3 p &&
        baseNameNoExt p == "index" &&
        hasExt [".js", ".jsx", ".ts", ".tsx", ".vue", ".svelte"] p)).take 5
    else entryPoints0
  let reactFiles := files.filter (fun p =>
    withinDepth 3 p && hasExt [".jsx", ".tsx"] p)
  let vueFiles := files.filter (fun p => withinDepth 3 p && hasExt [".vue"] p)
  let svelteFiles := files.filter (fun p =>
    withinDepth 3 p && hasExt [".svelte"] p)
  let angularFiles := files.filter (fun p =>
    withinDepth 3 p && hasExt [".component.ts", ".component.js"] p)
  let fw0 : Option Framework := none
  let isUnknown : Option Framework → Bool := fun fw =>
    match fw with
    | some f => f.name == "Unknown"
    | none => false
  let fw :=
    if reactFiles.length > 0 && isUnknown fw0 then
      some { name := "React" : Framework }
    else if vueFiles.length > 0 && isUnknown fw0 then
      some { name := "Vue" : Framework }
    else if svelteFiles.length > 0 && isUnknown fw0 then
      some { name := "Svelte" : Framework }
    else if angularFiles.length > 0 && isUnknown fw0 then
      some { name := "Angular" : Framework }
    else fw0
  { entryPoints := entryPoints
    sourceDirectories := sourceDirectories
    testDirectories := testDirectories
    framework := fw }

/-- The result of the frontend detector's local `analyzeConfigFiles`. -/
structure ConfigFE where
  configFiles : List String
  hasSSR : Bool
  hasStaticSite : Bool
deriving Repr, DecidableEq

/-- The `configPatterns` list of the frontend `analyzeConfigFiles`
(lines 553-586): relative patterns without `**`, so they match top-level
file names only. -/
def FRONTEND_CONFIG_PATTERNS : List String :=
  ["next.config.*", "nuxt.config.*", "svelte.config.*", "angular.json",
   "vue.config.*", "vite.config.*", "webpack.config.*", "rollup.config.*",
   "parcel.config.*", "tsconfig.json", "tsconfig.*.json", "jest.config.*",
   "vitest.config.*", "cypress.config.*", "playwright.config.*",
   ".eslintrc*", ".prettierrc*", "stylelint.config.*", ".babelrc*",
   "postcss.config.*", "tailwind.config.*"]

/-- The frontend detector's `analyzeConfigFiles` (lines 548-620). Its fresh
`features` object holds only `hasSSR` and `hasStaticSite` (both start false
and are OR-ed with the config-file evidence). -/
def analyzeConfigFilesFE (files : List String) : ConfigFE :=
  let configFiles := FRONTEND_CONFIG_PATTERNS.foldl
    (fun acc pat =>
      acc ++ files.filter (fun p => isTopLevel p && simpleGlobMatch pat p))
    []
  { configFiles := configFiles
    hasSSR := configFiles.any (fun f =>
      jsIncludes f "next.config" || jsIncludes f "nuxt.config" ||
      jsIncludes f "svelte.config")
    hasStaticSite := configFiles.any (fun f =>
      jsIncludes f "gatsby-config" || jsIncludes f "astro.config") }

/-- Dependency lookup through an optional `package.json`
(`packageJson?.dependencies || {}` spreads). -/
def deps2opt (pkg : Option PackageJson) (k : String) : Option String :=
  match pkg with
  | some p => deps2 p k
  | none => none

/-- The result of `detectCssFramework` (lines 622-676). -/
structure CssFE where
  cssFramework : Option String := none
  cssPreprocessor : Option String := none
  uiLibrary : Option String := none
deriving Repr, DecidableEq

/-- `detectCssFramework` (lines 622-676). -/
def detectCssFramework (files : List String) (pkg : Option PackageJson) :
    CssFE :=
  let d := deps2opt pkg
  let cssFramework : Option String :=
    if truthy (d "tailwindcss") then some "Tailwind CSS"
    else if truthy (d "bootstrap") then some "Bootstrap"
    else if truthy (d "foundation-sites") then some "Foundation"
    else if truthy (d "bulma") then some "Bulma"
    else if truthy (d "material-ui") || truthy (d "@mui/material") then
      some "Material-UI"
    else if truthy (d "antd") then some "Ant Design"
    else if truthy (d "chakra-ui") then some "Chakra UI"
    else none
  let cssPreprocessor : Option String :=
    if truthy (d "sass") || truthy (d "node-sass") then some "Sass"
    else if truthy (d "less") then some "Less"
    else if truthy (d "stylus") then some "Stylus"
    else none
  let uiLibrary : Option String :=
    if truthy (d "styled-components") then some "Styled Components"
    else if truthy (d "emotion") then some "Emotion"
    else if truthy (d "@emotion/react") then some "Emotion (React)"
    else none
  let cssConfigs := files.filter (fun p =>
    withinDepth 2 p && jsIncludes (baseName p) "tailwind" &&
    hasExt [".js", ".ts", ".json"] p)
  let cssFramework :=
    if cssConfigs.length > 0 && !(truthy cssFramework) then
      some "Tailwind CSS"
    else cssFramework
  { cssFramework := cssFramework
    cssPreprocessor := cssPreprocessor
    uiLibrary := uiLibrary }

/-- The result of `detectAdditionalLibraries` (lines 678-729). -/
structure LibFE where
  iconsLibrary : Option String := none
  formLibrary : Option String := none
  chartLibrary : Option String := none
  internationalization : Option String := none
deriving Repr, DecidableEq

/-- `detectAdditionalLibraries` (lines 678-729). -/
def detectAdditionalLibraries (pkg : Option PackageJson) : LibFE :=
  let d := deps2opt pkg
  { iconsLibrary :=
      if truthy (d "@fortawesome/fontawesome-free") ||
          truthy (d "@fortawesome/react-fontawesome") then
        some "Font Awesome"
      else if truthy (d "react-icons") then some "React Icons"
      else if truthy (d "@tabler/icons") then some "Tabler Icons"
      else if truthy (d "lucide-react") || truthy (d "lucide-vue") then
        some "Lucide Icons"
      else none
    formLibrary :=
      if truthy (d "formik") || truthy (d "react-hook-form") then
        some "Formik or React Hook Form"
      else if truthy (d "vee-validate") then some "VeeValidate"
      else if truthy (d "@angular/forms") then some "Angular Forms"
      else none
    chartLibrary :=
      if truthy (d "chart.js") || truthy (d "react-chartjs-2") then
        some "Chart.js"
      else if truthy (d "recharts") then some "Recharts"
      else if truthy (d "victory") then some "Victory"
      else if truthy (d "apexcharts") then some "ApexCharts"
      else none
    internationalization :=
      if truthy (d "react-i18next") then some "i18next"
      else if truthy (d "vue-i18n") then some "Vue I18n"
      else if truthy (d "@angular/localize") then some "Angular i18n"
      else if truthy (d "svelte-i18n") then some "Svelte i18n"
      else none }

/-- The result of `verifyFrameworkByFiles` (lines 731-802): the verification
framework and the two flags its `features` object always carries. -/
structure VerifyFE where
  framework : Option Framework
  hasJSX : Bool
  hasTypeScript : Bool
deriving Repr, DecidableEq

/-- `verifyFrameworkByFiles` (lines 731-802): the first check of the fixed
React, Vue, Svelte, Angular order whose file patterns match at least one
file (ignoring `node_modules/dist/build`, depth at most 4), plus the JSX and
TypeScript file evidence (ignoring `node_modules`, depth at most 3). -/
def verifyFrameworkByFiles (files : List String) : VerifyFE :=
  let ig := ["node_modules", "dist", "build"]
  let countReact :=
    (files.filter (fun p => !(ignoredBy ig p) && withinDepth 4 p &&
      hasExt [".jsx", ".tsx"] p)).length +
    (files.filter (fun p => !(ignoredBy ig p) && withinDepth 4 p &&
      hasDirSegment p ".react")).length
  let countVue :=
    (files.filter (fun p => !(ignoredBy ig p) && withinDepth 4 p &&
      hasExt [".vue"] p)).length +
    (files.filter (fun p => !(ignoredBy ig p) && withinDepth 4 p &&
      hasDirSegment p ".vue")).length
  let countSvelte :=
    (files.filter (fun p => !(ignoredBy ig p) && withinDepth 4 p &&
      hasExt [".svelte"] p)).length +
    (files.filter (fun p => !(ignoredBy ig p) && withinDepth 4 p &&
      hasDirSegment p ".svelte")).length
  let countAngular :=
    (files.filter (fun p => !(ignoredBy ig p) && withinDepth 4 p &&
      hasExt [".component.ts", ".component.js"] p)).length +
    (files.filter (fun p => !(ignoredBy ig p) && withinDepth 4 p &&
      baseName p == "angular.json")).length
  let framework : Option Framework :=
    if countReact ≥ 1 then some { name := "React" }
    else if countVue ≥ 1 then some { name := "Vue" }
    else if countSvelte ≥ 1 then some { name := "Svelte" }
    else if countAngular ≥ 1 then some { name := "Angular" }
    else none
  let jsxFiles := files.filter (fun p =>
    !(ignoredBy ["node_modules"] p) && withinDepth 3 p &&
    hasExt [".jsx", ".tsx"] p)
  let tsFiles := files.filter (fun p =>
    !(ignoredBy ["node_modules"] p) && withinDepth 3 p &&
    hasExt [".ts", ".tsx"] p)
  { framework := framework
    hasJSX := jsxFiles.length > 0
    hasTypeScript := tsFiles.length > 0 }

/-- The result of `detectBuildTools` (lines 804-844). -/
structure BuildFE where
  buildTool : Option String := none
  version : Option String := none
deriving Repr, DecidableEq

/-- `detectBuildTools` (lines 804-844). -/
def detectBuildTools (files : List String) (pkg : Option PackageJson) :
    BuildFE :=
  let d := deps2opt pkg
  let r : BuildFE :=
    if truthy (d "vite") then { buildTool := some "Vite", version := d "vite" }
    else if truthy (d "webpack") then
      { buildTool := some "Webpack", version := d "webpack" }
    else if truthy (d "rollup") then
      { buildTool := some "Rollup", version := d "rollup" }
    else if truthy (d "parcel") then
      { buildTool := some "Parcel", version := d "parcel" }
    else if truthy (d "esbuild") then
      { buildTool := some "esbuild", version := d "esbuild" }
    else if truthy (d "snowpack") then
      { buildTool := some "Snowpack", version := d "snowpack" }
    else {}
  let buildConfigs := files.filter (fun p =>
    withinDepth 2 p && jsIncludes (baseName p) "vite" &&
    hasExt [".js", ".ts", ".json"] p)
  if buildConfigs.length > 0 && !(truthy r.buildTool) then
    { r with buildTool := some "Vite" }
  else r

end Frontend

namespace Frontend

/-- `detectFrontend` (lines 133-219) over an explicit environment: `pkg` is
the parsed `package.json` (`none` when `readPackageJson` returns null) and
`files` the relative paths of the files under the project root. The
dependency phases 2-4 run only when the manifest parsed; phase 5 assigns the
structure keys (its `framework` key is only present when its dead branch
fired); phase 6 assigns `configFiles` and the two-flag `features` object of
`analyzeConfigFiles`; phases 7-8 assign the css and library keys; phase 9
re-picks the primary over `[verification.framework, ...frameworks]` when the
file verification produced a framework and then merges the JSX and
TypeScript evidence with `||`; phase 10 assigns the build tool; the final
guard fills a singleton `frameworks` list. -/
def detectFrontend (pkg : Option PackageJson) (files : List String) :
    FrontendAnalysis :=
  let a := baseAnalysis
  let a :=
    match pkg with
    | some p =>
      let fd := detectFrameworkFromDependencies p
      { a with
        framework := fd.framework
        hasRouter := fd.hasRouter
        hasStateManagement := fd.hasStateManagement
        frameworks := fd.frameworks
        metaFrameworks := detectMetaFrameworks p
        features := detectFeaturesFromDependencies p }
    | none => a
  let st := analyzeProjectStructureFE files
  let a := { a with
    entryPoints := st.entryPoints
    sourceDirectories := st.sourceDirectories
    testDirectories := st.testDirectories
    framework := st.framework.getD a.framework }
  let cfg := analyzeConfigFilesFE files
  let a := { a with
    configFiles := cfg.configFiles
    features := { hasSSR := some cfg.hasSSR,
                  hasStaticSite := some cfg.hasStaticSite } }
  let css := detectCssFramework files pkg
  let a := { a with
    cssFramework := css.cssFramework
    cssPreprocessor := css.cssPreprocessor
    uiLibrary := css.uiLibrary }
  let lib := detectAdditionalLibraries pkg
  let a := { a with
    iconsLibrary := lib.iconsLibrary
    formLibrary := lib.formLibrary
    chartLibrary := lib.chartLibrary
    internationalization := lib.internationalization }
  let ver := verifyFrameworkByFiles files
  let a :=
    match ver.framework with
    | some vfw =>
      if !vfw.name.isEmpty && !(vfw.name == "Unknown") then
        { a with
          framework := (pickPrimaryFramework (vfw :: a.frameworks)).getD vfw
          frameworks := mergeFrameworks a.frameworks [vfw] }
      else a
    | none => a
  let a := { a with features := { a.features with
    hasJSX := if ver.hasJSX then some true else a.features.hasJSX
    hasTypeScript :=
      if ver.hasTypeScript then some true else a.features.hasTypeScript } }
  let bt := detectBuildTools files pkg
  let a := { a with
    buildTool := bt.buildTool
    buildToolVersion := bt.version }
  if !a.framework.name.isEmpty && !(a.framework.name == "Unknown") &&
      a.frameworks.isEmpty then
    { a with frameworks := [a.framework] }
  else a

end Frontend

namespace Frontend

/-- The framework detection of the manifest phase: the result of
`detectFrameworkFromDependencies` when `package.json` parsed, and the
untouched initial analysis otherwise (phases 2-4 are skipped). -/
def manifestDetection (pkg : Option PackageJson) : FrameworkDetection :=
  match pkg with
  | some p => detectFrameworkFromDependencies p
  | none =>
    { framework := { name := "Unknown" }
      hasRouter := false
      hasStateManagement := false
      frameworks := [] }

/-- Position of a name in the frontend priority list (its length, 9, when
the name is absent). -/
def priorityIdx (n : String) : Nat :=
  FRAMEWORK_PRIORITY.findIdx (fun m => m == n)

theorem priorityIdx_le_nine (n : String) : priorityIdx n ≤ 9 :=
  List.findIdx_le_length (fun m => m == n)

theorem findSome?_find?_min (P : List String) (l : List Framework)
    (fw : Framework)
    (h : P.findSome? (fun name => l.find? (fun g => g.name == name)) =
      some fw) :
    fw ∈ l ∧ ∀ g ∈ l,
      P.findIdx (fun m => m == fw.name) ≤ P.findIdx (fun m => m == g.name) := by
  induction P with
  | nil => simp [List.findSome?] at h
  | cons name rest ih =>
    rw [List.findSome?_cons] at h
    cases hfind : l.find? (fun g => g.name == name) with
    | some found =>
      rw [hfind] at h
      cases h
      refine ⟨List.mem_of_find?_eq_some hfind, ?_⟩
      intro g _
      have hname : fw.name = name := by
        simpa using List.find?_some hfind
      rw [List.findIdx_cons]
      have : (name == fw.name) = true := by simp [hname]
      simp [this]
    | none =>
      rw [hfind] at h
      obtain ⟨hmem, hmin⟩ := ih h
      refine ⟨hmem, ?_⟩
      intro g hg
      have hnone := List.find?_eq_none.mp hfind
      have hfwne : (name == fw.name) = false := by
        have := hnone fw hmem
        simp at this ⊢
        exact fun hc => this hc.symm
      have hgne : (name == g.name) = false := by
        have := hnone g hg
        simp at this ⊢
        exact fun hc => this hc.symm
      rw [List.findIdx_cons, List.findIdx_cons, hfwne, hgne]
      simpa using hmin g hg

theorem pickPrimaryFramework_min (l : List Framework) (fw : Framework)
    (h : pickPrimaryFramework l = some fw) :
    fw ∈ l ∧ ∀ g ∈ l, priorityIdx fw.name ≤ priorityIdx g.name := by
  unfold pickPrimaryFramework at h
  by_cases hemp : l.isEmpty
  · rw [if_pos hemp] at h; cases h
  · rw [if_neg hemp] at h
    cases hfs : FRAMEWORK_PRIORITY.findSome?
        (fun name => l.find? (fun g => g.name == name)) with
    | some found =>
      rw [hfs] at h
      cases h
      exact findSome?_find?_min _ _ _ hfs
    | none =>
      rw [hfs] at h
      have hnone := List.findSome?_eq_none_iff.mp hfs
      have hlen : ∀ g ∈ l, priorityIdx g.name = 9 := by
        intro g hg
        have : ∀ x ∈ FRAMEWORK_PRIORITY, (x == g.name) = false := by
          intro x hx
          have := List.find?_eq_none.mp (hnone x hx) g hg
          simp at this ⊢
          exact fun hc => this hc.symm
        exact List.findIdx_eq_length.mpr this
      refine ⟨?_, ?_⟩
      · exact List.mem_of_mem_head? h
      · intro g hg
        rw [hlen fw (List.mem_of_mem_head? h), hlen g hg]

theorem pickPrimaryFramework_cons_isSome (fw : Framework)
    (l : List Framework) : (pickPrimaryFramework (fw :: l)).isSome := by
  unfold pickPrimaryFramework
  rw [if_neg (by simp)]
  cases hfs : FRAMEWORK_PRIORITY.findSome?
      (fun name => (fw :: l).find? (fun g => g.name == name)) <;> simp

theorem analyzeProjectStructureFE_framework (files : List String) :
    (analyzeProjectStructureFE files).framework = none := by
  unfold analyzeProjectStructureFE
  simp

/-- The primary framework `detectFrontend` returns: the phase-9 re-pick over
the verification framework and the manifest frameworks when the verification
found one, the manifest primary otherwise (the phase-5 structure analysis
never carries a `framework` key, and no other phase writes the field). -/
theorem detectFrontend_framework (pkg : Option PackageJson)
    (files : List String) :
    (detectFrontend pkg files).framework =
      (match (verifyFrameworkByFiles files).framework with
       | some vfw =>
         if !vfw.name.isEmpty && !(vfw.name == "Unknown") then
           (pickPrimaryFramework
             (vfw :: (manifestDetection pkg).frameworks)).getD vfw
         else (manifestDetection pkg).framework
       | none => (manifestDetection pkg).framework) := by
  unfold detectFrontend manifestDetection
  cases pkg <;>
    cases hv : (verifyFrameworkByFiles files).framework <;>
      simp only [analyzeProjectStructureFE_framework, Option.getD_none, hv] <;>
      (try split) <;> (try split) <;> rfl

theorem manifestDetection_framework_eq (pkg : Option PackageJson) :
    (manifestDetection pkg).framework =
      match pickPrimaryFramework (manifestDetection pkg).frameworks with
      | some fw => fw
      | none => { name := "Unknown" } := by
  cases pkg with
  | none => rfl
  | some p => rfl

end Frontend

/-- C2: the spec says the file-pattern verification pass never replaces a
manifest-chosen primary frontend framework, and that a Vue manifest with a
stray `.jsx` file keeps Vue as primary. The code re-picks the primary over
`[verification.framework, ...frameworks]`: with Vue from the manifest and a
stray `src/App.jsx`, the verification yields React, which outranks Vue in
`FRAMEWORK_PRIORITY`, so the primary becomes React. -/
theorem detectFrontend_vue_manifest_demoted_by_jsx :
    (Frontend.manifestDetection
      (some { dependencies := [("vue", "^3.0.0")] })).framework.name = "Vue" ∧
    (Frontend.detectFrontend (some { dependencies := [("vue", "^3.0.0")] })
      ["src/App.jsx"]).framework.name = "React" := by
  constructor
  · decide
  · decide

/-- C2 (amended): the verification pass can replace the manifest primary,
but only by a framework of equal or higher priority: the priority index of
the returned primary never exceeds the priority index of the manifest
primary. -/
theorem detectFrontend_verification_never_lowers_priority
    (pkg : Option PackageJson) (files : List String) :
    Frontend.priorityIdx (Frontend.detectFrontend pkg files).framework.name ≤
      Frontend.priorityIdx
        (Frontend.manifestDetection pkg).framework.name := by
  rw [Frontend.detectFrontend_framework]
  cases hv : (Frontend.verifyFrameworkByFiles files).framework with
  | none => simp
  | some vfw =>
    simp only
    split
    · cases hpick : Frontend.pickPrimaryFramework
          (vfw :: (Frontend.manifestDetection pkg).frameworks) with
      | none =>
        have := Frontend.pickPrimaryFramework_cons_isSome vfw
          (Frontend.manifestDetection pkg).frameworks
        rw [hpick] at this
        cases this
      | some fwNew =>
        obtain ⟨_, hmin⟩ := Frontend.pickPrimaryFramework_min _ _ hpick
        rw [Frontend.manifestDetection_framework_eq]
        cases hold : Frontend.pickPrimaryFramework
            (Frontend.manifestDetection pkg).frameworks with
        | some fwOld =>
          obtain ⟨holdmem, _⟩ := Frontend.pickPrimaryFramework_min _ _ hold
          exact hmin fwOld (List.mem_cons_of_mem _ holdmem)
        | none =>
          have h9 : Frontend.priorityIdx
              ({ name := "Unknown" : Framework }).name = 9 := by decide
          simpa [h9] using Frontend.priorityIdx_le_nine fwNew.name
    · exact le_refl _

/-! ### File-system environment

The detectors read the project tree through `glob` and `fs`. The embedding
passes the tree explicitly: `files` is the list of relative paths of the
regular files under the project root (the `glob` universe, in the order the
walker yields them), `read` gives a file's contents (`none` when the file is
missing or unreadable; `fs.access` succeeding is rendered as `read`
returning `some`), and `pkg`/`composer` are the parsed `package.json` and
`composer.json` (`none` when missing or `JSON.parse` throws). An empty
directory cannot be distinguished from an absent one: only regular files
are represented. -/

/-- The `require` sections of a parsed `composer.json`. -/
structure ComposerJson where
  require : List (String × String) := []
  requireDev : List (String × String) := []
deriving Repr, DecidableEq

/-- The project tree as the detectors see it. -/
structure FsEnv where
  files : List String
  read : String → Option String
  pkg : Option PackageJson
  composer : Option ComposerJson

/-- `String.prototype.trim`. -/
def jsTrim (s : String) : String :=
  ⟨((s.data.dropWhile Char.isWhitespace).reverse.dropWhile
    Char.isWhitespace).reverse⟩

/-- `content.split(new String [newline])`. -/
def splitLines (s : String) : List String :=
  (splitChars (Char.ofNat 10) s.data).map (fun l => ⟨l⟩)

/-- `[...new Set(list)]`: first occurrences, in order. -/
def dedupFirst (l : List String) : List String :=
  l.foldl (fun acc x => if acc.contains x then acc else acc ++ [x]) []

/-- Case-insensitive substring test (a `/.../i` regex of plain letters). -/
def icontains (hay needle : String) : Bool :=
  jsIncludes (jsToLower hay) (jsToLower needle)

/-- Is the path inside one of the directories, at any depth? Models the
`'**/<dir>/**'` form of ignore patterns. -/
def ignoredAnywhere (igs : List String) (p : String) : Bool :=
  igs.any (fun d => hasDirSegment p d)

/-- Do the path's segments end with the given segment list? Models
`'**/bin/console'`-style glob patterns. -/
def endsWithSegments (p : String) (suf : List String) : Bool :=
  List.isPrefixOf suf.reverse (pathSegments p).reverse

/-- A character of the `[\d.]` class. -/
def isDigitDot (c : Char) : Bool := c.isDigit || c == '.'

/-- One attempt of the `<key>[=<>]=?([\d.]+)` regex at the start of `s`. -/
def tryKeyVerAt (key : List Char) (s : List Char) : Option (List Char) :=
  if charIsPrefix key s then
    match s.drop key.length with
    | c :: rest =>
      if c == '=' || c == '<' || c == '>' then
        let rest2 := match rest with
          | '=' :: r => r
          | _ => rest
        let ver := rest2.takeWhile isDigitDot
        if ver.isEmpty then none else some ver
      else none
    | [] => none
  else none

/-- The search of the `<key>[=<>]=?([\d.]+)` regex over a string. -/
def scanKeyVer (key : List Char) : List Char → Option (List Char)
  | [] => none
  | c :: t =>
    match tryKeyVerAt key (c :: t) with
    | some v => some v
    | none => scanKeyVer key t

/-- `s.match(/<key>[=<>]=?([\d.]+)/)?.[1]`. -/
def matchKeyVer (key s : String) : Option String :=
  (scanKeyVer key.data s.data).map (fun l => ⟨l⟩)

/-- One attempt of the `<version>([\d.]+)<\x2fversion>` regex at the start
of `s`. -/
def tryTagVerAt (s : List Char) : Option (List Char) :=
  if charIsPrefix "<version>".data s then
    let rest := s.drop 9
    let ver := rest.takeWhile isDigitDot
    if ver.isEmpty then none
    else if charIsPrefix "</version>".data (rest.drop ver.length) then
      some ver
    else none
  else none

/-- The search of the `<version>([\d.]+)<\x2fversion>` regex. -/
def scanTagVer : List Char → Option (List Char)
  | [] => none
  | c :: t =>
    match tryTagVerAt (c :: t) with
    | some v => some v
    | none => scanTagVer t

/-- `content.match(/<version>([\d.]+)<\x2fversion>/)?.[1]`. -/
def matchTagVer (s : String) : Option String :=
  (scanTagVer s.data).map (fun l => ⟨l⟩)

/-! ### `src/src/helpers/analyze/detectors/backend.ts` -/

/-- The `features` object of `BackendAnalysis`. The flags are optional
because `detectAPIPatterns` builds its result from an empty object (a flag
it did not set is absent) and the `||=` merge assigns such an absent flag
through. -/
structure BackendFeatures where
  hasGraphQL : Option Bool := none
  hasREST : Option Bool := none
  hasWebSockets : Option Bool := none
  hasMicroservices : Option Bool := none
  hasQueue : Option Bool := none
  hasCronJobs : Option Bool := none
  hasFileUpload : Option Bool := none
  hasValidation : Option Bool := none
  hasTesting : Option Bool := none
  hasDocumentation : Option Bool := none
deriving Repr, DecidableEq

/-- The `deployment` object of `BackendAnalysis`. -/
structure BackendDeployment where
  hasDocker : Bool := false
  hasKubernetes : Bool := false
  hasCI : Bool := false
  cloudProvider : Option String := none
deriving Repr, DecidableEq

/-- The accumulated backend analysis. -/
structure BackendAnalysis where
  framework : Framework
  runtime : Option String := none
  server : Option String := none
  orm : Option String := none
  database : List String
  authentication : List String
  caching : List String
  messaging : List String
  search : List String
  monitoring : List String
  configFiles : List String
  entryPoints : List String
  apiRoutes : List String
  models : List String
  features : BackendFeatures
  deployment : BackendDeployment
  frameworks : List Framework
  runtimes : List String
  servers : List String
deriving Repr, DecidableEq

/-- A `Partial<BackendAnalysis>` phase result: `none` is an absent key. -/
structure PartialBackend where
  framework : Option Framework := none
  runtime : Option String := none
  server : Option String := none
  orm : Option String := none
  database : Option (List String) := none
  authentication : Option (List String) := none
  caching : Option (List String) := none
  messaging : Option (List String) := none
  search : Option (List String) := none
  monitoring : Option (List String) := none
  configFiles : Option (List String) := none
  entryPoints : Option (List String) := none
  apiRoutes : Option (List String) := none
  models : Option (List String) := none
  features : Option BackendFeatures := none
  deployment : Option BackendDeployment := none
  frameworks : Option (List Framework) := none
  runtimes : Option (List String) := none
  servers : Option (List String) := none
deriving Repr, DecidableEq

namespace Backend

/-- `createBackendAnalysisBase` (lines 6-40): every feature flag present and
false. -/
def createBackendAnalysisBase : BackendAnalysis where
  framework := { name := "Unknown" }
  database := []
  authentication := []
  caching := []
  messaging := []
  search := []
  monitoring := []
  features := {
    hasGraphQL := some false, hasREST := some false,
    hasWebSockets := some false, hasMicroservices := some false,
    hasQueue := some false, hasCronJobs := some false,
    hasFileUpload := some false, hasValidation := some false,
    hasTesting := some false, hasDocumentation := some false }
  deployment := {}
  configFiles := []
  entryPoints := []
  apiRoutes := []
  models := []
  frameworks := []
  runtimes := []
  servers := []

/-- `mergeList` (lines 138-150): append the source's missing items. -/
def mergeList (target : List String) (source : Option (List String)) :
    List String :=
  match source with
  | none => target
  | some s =>
    if s.isEmpty then target
    else s.foldl (fun t item => if t.contains item then t else t ++ [item])
      target

/-- `target ||= source` on one feature flag: keep a truthy target, else
assign the source value through (also when it is absent). -/
def jsOrAssign (t s : Option Bool) : Option Bool :=
  if t == some true then t else s

/-- The framework block of `mergeBackendAnalysis` (lines 43-53). -/
def mergeFrameworkStep (t : BackendAnalysis) (source : PartialBackend) :
    BackendAnalysis :=
  match source.framework with
  | some fw =>
    if !fw.name.isEmpty && !(fw.name == "Unknown") then
      let t1 := { t with framework := fw }
      let t2 :=
        if !(t1.frameworks.any (fun g => g.name == fw.name)) then
          { t1 with frameworks := t1.frameworks ++ [fw] }
        else t1
      if truthy fw.server && !(truthy t2.server) then
        { t2 with server := fw.server }
      else t2
    else t
  | none => t

/-- The frameworks block of `mergeBackendAnalysis` (lines 55-66). -/
def mergeFrameworksStep (t : BackendAnalysis) (source : PartialBackend) :
    BackendAnalysis :=
  match source.frameworks with
  | some fws =>
    if fws.isEmpty then t
    else
      let merged := fws.foldl
        (fun (fl : List Framework) (fw : Framework) =>
          if fw.name.isEmpty || fw.name == "Unknown" then fl
          else if fl.any (fun g => g.name == fw.name) then fl
          else fl ++ [fw])
        t.frameworks
      { t with frameworks := merged }
  | none => t

/-- The runtime block of `mergeBackendAnalysis` (lines 68-74). -/
def mergeRuntimeStep (t : BackendAnalysis) (source : PartialBackend) :
    BackendAnalysis :=
  if truthy source.runtime then
    { t with
      runtime := source.runtime
      runtimes :=
        match source.runtime with
        | some r => if t.runtimes.contains r then t.runtimes
                    else t.runtimes ++ [r]
        | none => t.runtimes }
  else t

/-- The runtimes block of `mergeBackendAnalysis` (lines 76-83). -/
def mergeRuntimesStep (t : BackendAnalysis) (source : PartialBackend) :
    BackendAnalysis :=
  match source.runtimes with
  | some rs =>
    if rs.isEmpty then t
    else
      let merged := rs.foldl
        (fun (acc : List String) r =>
          if acc.contains r then acc else acc ++ [r]) t.runtimes
      { t with runtimes := merged }
  | none => t

/-- The server block of `mergeBackendAnalysis` (lines 85-91). -/
def mergeServerStep (t : BackendAnalysis) (source : PartialBackend) :
    BackendAnalysis :=
  if truthy source.server then
    { t with
      server := source.server
      servers :=
        match source.server with
        | some s => if t.servers.contains s then t.servers
                    else t.servers ++ [s]
        | none => t.servers }
  else t

/-- The servers block of `mergeBackendAnalysis` (lines 93-100). -/
def mergeServersStep (t : BackendAnalysis) (source : PartialBackend) :
    BackendAnalysis :=
  match source.servers with
  | some ss =>
    if ss.isEmpty then t
    else
      let merged := ss.foldl
        (fun (acc : List String) s =>
          if acc.contains s then acc else acc ++ [s]) t.servers
      { t with servers := merged }
  | none => t

/-- The ten `mergeList` calls of `mergeBackendAnalysis` (lines 102-111). -/
def mergeListsStep (t : BackendAnalysis) (source : PartialBackend) :
    BackendAnalysis :=
  { t with
    database := mergeList t.database source.database
    authentication := mergeList t.authentication source.authentication
    caching := mergeList t.caching source.caching
    messaging := mergeList t.messaging source.messaging
    search := mergeList t.search source.search
    monitoring := mergeList t.monitoring source.monitoring
    configFiles := mergeList t.configFiles source.configFiles
    entryPoints := mergeList t.entryPoints source.entryPoints
    apiRoutes := mergeList t.apiRoutes source.apiRoutes
    models := mergeList t.models source.models }

/-- The features block of `mergeBackendAnalysis` (lines 113-124). -/
def mergeFeaturesStep (t : BackendAnalysis) (source : PartialBackend) :
    BackendAnalysis :=
  match source.features with
  | some f =>
    { t with features := {
        hasGraphQL := jsOrAssign t.features.hasGraphQL f.hasGraphQL
        hasREST := jsOrAssign t.features.hasREST f.hasREST
        hasWebSockets := jsOrAssign t.features.hasWebSockets f.hasWebSockets
        hasMicroservices :=
          jsOrAssign t.features.hasMicroservices f.hasMicroservices
        hasQueue := jsOrAssign t.features.hasQueue f.hasQueue
        hasCronJobs := jsOrAssign t.features.hasCronJobs f.hasCronJobs
        hasFileUpload := jsOrAssign t.features.hasFileUpload f.hasFileUpload
        hasValidation := jsOrAssign t.features.hasValidation f.hasValidation
        hasTesting := jsOrAssign t.features.hasTesting f.hasTesting
        hasDocumentation :=
          jsOrAssign t.features.hasDocumentation f.hasDocumentation } }
  | none => t

/-- The deployment block of `mergeBackendAnalysis` (lines 126-131). -/
def mergeDeploymentStep (t : BackendAnalysis) (source : PartialBackend) :
    BackendAnalysis :=
  match source.deployment with
  | some d =>
    { t with deployment := {
        hasDocker := t.deployment.hasDocker || d.hasDocker
        hasKubernetes := t.deployment.hasKubernetes || d.hasKubernetes
        hasCI := t.deployment.hasCI || d.hasCI
        cloudProvider :=
          if !(truthy t.deployment.cloudProvider) &&
              truthy d.cloudProvider then
            d.cloudProvider
          else t.deployment.cloudProvider } }
  | none => t

/-- The orm block of `mergeBackendAnalysis` (lines 133-135). -/
def mergeOrmStep (t : BackendAnalysis) (source : PartialBackend) :
    BackendAnalysis :=
  if truthy source.orm then { t with orm := source.orm } else t

/-- `mergeBackendAnalysis` (lines 42-136): the statement blocks applied in
source order. -/
def mergeBackendAnalysis (target : BackendAnalysis) (source : PartialBackend) :
    BackendAnalysis :=
  mergeOrmStep
    (mergeDeploymentStep
      (mergeFeaturesStep
        (mergeListsStep
          (mergeServersStep
            (mergeServerStep
              (mergeRuntimesStep
                (mergeRuntimeStep
                  (mergeFrameworksStep
                    (mergeFrameworkStep target source) source) source) source)
              source) source) source) source) source) source

end Backend

namespace Backend

theorem mergeFrameworkStep_features (t : BackendAnalysis)
    (s : PartialBackend) : (mergeFrameworkStep t s).features = t.features := by
  unfold mergeFrameworkStep
  repeat' split
  all_goals dsimp only
  all_goals repeat' split
  all_goals rfl

theorem mergeFrameworksStep_features (t : BackendAnalysis)
    (s : PartialBackend) :
    (mergeFrameworksStep t s).features = t.features := by
  unfold mergeFrameworksStep
  repeat' split
  all_goals rfl

theorem mergeRuntimeStep_features (t : BackendAnalysis) (s : PartialBackend) :
    (mergeRuntimeStep t s).features = t.features := by
  unfold mergeRuntimeStep
  repeat' split
  all_goals rfl

theorem mergeRuntimesStep_features (t : BackendAnalysis)
    (s : PartialBackend) : (mergeRuntimesStep t s).features = t.features := by
  unfold mergeRuntimesStep
  repeat' split
  all_goals rfl

theorem mergeServerStep_features (t : BackendAnalysis) (s : PartialBackend) :
    (mergeServerStep t s).features = t.features := by
  unfold mergeServerStep
  repeat' split
  all_goals rfl

theorem mergeServersStep_features (t : BackendAnalysis) (s : PartialBackend) :
    (mergeServersStep t s).features = t.features := by
  unfold mergeServersStep
  repeat' split
  all_goals rfl

theorem mergeListsStep_features (t : BackendAnalysis) (s : PartialBackend) :
    (mergeListsStep t s).features = t.features := rfl

theorem mergeDeploymentStep_features (t : BackendAnalysis)
    (s : PartialBackend) :
    (mergeDeploymentStep t s).features = t.features := by
  unfold mergeDeploymentStep
  repeat' split
  all_goals rfl

theorem mergeOrmStep_features (t : BackendAnalysis) (s : PartialBackend) :
    (mergeOrmStep t s).features = t.features := by
  unfold mergeOrmStep
  split
  all_goals rfl

/-- Only the features block of `mergeBackendAnalysis` touches `features`,
and it combines each flag with `||=`. -/
theorem mergeBackendAnalysis_features (t : BackendAnalysis)
    (s : PartialBackend) :
    (mergeBackendAnalysis t s).features =
      (mergeFeaturesStep
        { t with features := t.features } s).features := by
  unfold mergeBackendAnalysis
  rw [mergeOrmStep_features, mergeDeploymentStep_features]
  unfold mergeFeaturesStep
  cases s.features with
  | none =>
    simp only
    rw [mergeListsStep_features, mergeServersStep_features,
      mergeServerStep_features, mergeRuntimesStep_features,
      mergeRuntimeStep_features, mergeFrameworksStep_features,
      mergeFrameworkStep_features]
  | some f =>
    simp only
    rw [mergeListsStep_features, mergeServersStep_features,
      mergeServerStep_features, mergeRuntimesStep_features,
      mergeRuntimeStep_features, mergeFrameworksStep_features,
      mergeFrameworkStep_features]

theorem jsOrAssign_true (s : Option Bool) :
    jsOrAssign (some true) s = some true := rfl

end Backend

namespace Backend

theorem mergeFrameworkStep_deployment (t : BackendAnalysis)
    (s : PartialBackend) :
    (mergeFrameworkStep t s).deployment = t.deployment := by
  unfold mergeFrameworkStep
  repeat' split
  all_goals dsimp only
  all_goals repeat' split
  all_goals rfl

theorem mergeFrameworksStep_deployment (t : BackendAnalysis)
    (s : PartialBackend) :
    (mergeFrameworksStep t s).deployment = t.deployment := by
  unfold mergeFrameworksStep
  repeat' split
  all_goals rfl

theorem mergeRuntimeStep_deployment (t : BackendAnalysis)
    (s : PartialBackend) :
    (mergeRuntimeStep t s).deployment = t.deployment := by
  unfold mergeRuntimeStep
  repeat' split
  all_goals rfl

theorem mergeRuntimesStep_deployment (t : BackendAnalysis)
    (s : PartialBackend) :
    (mergeRuntimesStep t s).deployment = t.deployment := by
  unfold mergeRuntimesStep
  repeat' split
  all_goals rfl

theorem mergeServerStep_deployment (t : BackendAnalysis)
    (s : PartialBackend) :
    (mergeServerStep t s).deployment = t.deployment := by
  unfold mergeServerStep
  repeat' split
  all_goals rfl

theorem mergeServersStep_deployment (t : BackendAnalysis)
    (s : PartialBackend) :
    (mergeServersStep t s).deployment = t.deployment := by
  unfold mergeServersStep
  repeat' split
  all_goals rfl

theorem mergeListsStep_deployment (t : BackendAnalysis)
    (s : PartialBackend) :
    (mergeListsStep t s).deployment = t.deployment := rfl

theorem mergeFeaturesStep_deployment (t : BackendAnalysis)
    (s : PartialBackend) :
    (mergeFeaturesStep t s).deployment = t.deployment := by
  unfold mergeFeaturesStep
  repeat' split
  all_goals rfl

theorem mergeOrmStep_deployment (t : BackendAnalysis) (s : PartialBackend) :
    (mergeOrmStep t s).deployment = t.deployment := by
  unfold mergeOrmStep
  split
  all_goals rfl

/-- Only the deployment block of `mergeBackendAnalysis` touches the
deployment object, and it combines each flag with `||=`. -/
theorem mergeBackendAnalysis_deployment (t : BackendAnalysis)
    (s : PartialBackend) :
    (mergeBackendAnalysis t s).deployment =
      match s.deployment with
      | some d =>
        { hasDocker := t.deployment.hasDocker || d.hasDocker
          hasKubernetes := t.deployment.hasKubernetes || d.hasKubernetes
          hasCI := t.deployment.hasCI || d.hasCI
          cloudProvider :=
            if !(truthy t.deployment.cloudProvider) &&
                truthy d.cloudProvider then
              d.cloudProvider
            else t.deployment.cloudProvider }
      | none => t.deployment := by
  unfold mergeBackendAnalysis
  rw [mergeOrmStep_deployment]
  have hX : (mergeFeaturesStep
      (mergeListsStep
        (mergeServersStep
          (mergeServerStep
            (mergeRuntimesStep
              (mergeRuntimeStep
                (mergeFrameworksStep
                  (mergeFrameworkStep t s) s) s) s) s) s) s) s).deployment =
      t.deployment := by
    rw [mergeFeaturesStep_deployment, mergeListsStep_deployment,
      mergeServersStep_deployment, mergeServerStep_deployment,
      mergeRuntimesStep_deployment, mergeRuntimeStep_deployment,
      mergeFrameworksStep_deployment, mergeFrameworkStep_deployment]
  unfold mergeDeploymentStep
  cases s.deployment <;> simp only [hX]

end Backend

/-- C5 (corrected claim counterexample): the spec says every boolean
feature flag is OR-merged across the phases of frontend and backend
detection, so a flag once true is never reset. In `detectFrontend` the
configuration phase (phase 6) replaces the whole `features` object with one
carrying only `hasSSR` and `hasStaticSite` computed from config files: a
manifest declaring `next` sets `hasSSR` true in phase 4, yet with no config
files the final result has `hasSSR = some false` (and drops the other nine
flags entirely). -/
theorem detectFrontend_hasSSR_reset :
    (Frontend.detectFeaturesFromDependencies
      { dependencies := [("next", "13.0.0")] }).hasSSR = some true ∧
    (Frontend.detectFrontend (some { dependencies := [("next", "13.0.0")] })
      []).features.hasSSR = some false := by
  constructor
  · decide
  · decide

/-- C5 (amended): the backend merge really is OR-monotone: every boolean
feature flag of `BackendAnalysis.features`, and every deployment flag, that
is true before a `mergeBackendAnalysis` step is still true after it. (The
frontend side of the original claim is false, see the counterexample.) -/
theorem mergeBackendAnalysis_flags_monotone (t : BackendAnalysis)
    (s : PartialBackend) :
    ((t.features.hasGraphQL = some true →
        (Backend.mergeBackendAnalysis t s).features.hasGraphQL = some true) ∧
      (t.features.hasREST = some true →
        (Backend.mergeBackendAnalysis t s).features.hasREST = some true) ∧
      (t.features.hasWebSockets = some true →
        (Backend.mergeBackendAnalysis t s).features.hasWebSockets =
          some true) ∧
      (t.features.hasMicroservices = some true →
        (Backend.mergeBackendAnalysis t s).features.hasMicroservices =
          some true) ∧
      (t.features.hasQueue = some true →
        (Backend.mergeBackendAnalysis t s).features.hasQueue = some true) ∧
      (t.features.hasCronJobs = some true →
        (Backend.mergeBackendAnalysis t s).features.hasCronJobs =
          some true) ∧
      (t.features.hasFileUpload = some true →
        (Backend.mergeBackendAnalysis t s).features.hasFileUpload =
          some true) ∧
      (t.features.hasValidation = some true →
        (Backend.mergeBackendAnalysis t s).features.hasValidation =
          some true) ∧
      (t.features.hasTesting = some true →
        (Backend.mergeBackendAnalysis t s).features.hasTesting = some true) ∧
      (t.features.hasDocumentation = some true →
        (Backend.mergeBackendAnalysis t s).features.hasDocumentation =
          some true)) ∧
    ((t.deployment.hasDocker = true →
        (Backend.mergeBackendAnalysis t s).deployment.hasDocker = true) ∧
      (t.deployment.hasKubernetes = true →
        (Backend.mergeBackendAnalysis t s).deployment.hasKubernetes =
          true) ∧
      (t.deployment.hasCI = true →
        (Backend.mergeBackendAnalysis t s).deployment.hasCI = true)) := by
  rw [Backend.mergeBackendAnalysis_features,
    Backend.mergeBackendAnalysis_deployment]
  unfold Backend.mergeFeaturesStep
  constructor
  · cases s.features with
    | none => simp only; exact ⟨fun h => h, fun h => h, fun h => h,
        fun h => h, fun h => h, fun h => h, fun h => h, fun h => h,
        fun h => h, fun h => h⟩
    | some f =>
      simp only
      refine ⟨fun h => ?_, fun h => ?_, fun h => ?_, fun h => ?_,
        fun h => ?_, fun h => ?_, fun h => ?_, fun h => ?_, fun h => ?_,
        fun h => ?_⟩ <;>
        simp [h, Backend.jsOrAssign]
  · cases s.deployment with
    | none => exact ⟨fun h => h, fun h => h, fun h => h⟩
    | some d =>
      simp only
      refine ⟨fun h => ?_, fun h => ?_, fun h => ?_⟩ <;> simp [h]

namespace Backend

/-- Does a top-level file match one of the `runtimeChecks` patterns (plain
names and `*.csproj`-style, matched against direct children only)? -/
def runtimeFileMatch (env : FsEnv) (pat : String) : Bool :=
  env.files.any (fun p => isTopLevel p && simpleGlobMatch pat p)

/-- The `runtimeChecks` table of `detectRuntimeAndFramework`
(lines 198-207). -/
def runtimeChecks : List (List String × String) :=
  [(["package.json"], "Node.js"),
   (["requirements.txt", "pyproject.toml", "setup.py"], "Python"),
   (["pom.xml", "build.gradle", "build.sbt"], "Java"),
   (["go.mod", "go.sum"], "Go"),
   (["Cargo.toml", "Cargo.lock"], "Rust"),
   (["composer.json", "composer.lock"], "PHP"),
   (["Gemfile", "Gemfile.lock"], "Ruby"),
   (["*.csproj", "*.sln", "*.fsproj"], ".NET")]

/-- `detectRuntimes` (lines 228-249): the runtimes whose file patterns
match, in table order. -/
def detectRuntimes (env : FsEnv) : List String :=
  runtimeChecks.filterMap (fun c =>
    if c.1.any (runtimeFileMatch env) then some c.2 else none)

/-- `pickPrimaryRuntime` (lines 251-270). -/
def pickPrimaryRuntime (runtimes : List String) : Option String :=
  match ["Node.js", "Python", "Java", "Go", "Rust", "PHP", "Ruby",
      ".NET"].find? (fun r => runtimes.contains r) with
  | some r => some r
  | none => runtimes.head?

/-- `detectNodeFrameworks` (lines 325-385). -/
def detectNodeFrameworks (env : FsEnv) : List Framework :=
  match env.pkg with
  | none => []
  | some p =>
    let d := deps2 p
    let frameworks : List Framework :=
      (if truthy (d "express") then
        [{ name := "Express.js", version := d "express",
           server := some "Express" }]
      else []) ++
      (if truthy (d "koa") then
        [{ name := "Koa", version := d "koa", server := some "Koa" }]
      else []) ++
      (if truthy (d "fastify") then
        [{ name := "Fastify", version := d "fastify",
           server := some "Fastify" }]
      else []) ++
      (if truthy (d "@nestjs/core") then
        [{ name := "NestJS", version := d "@nestjs/core",
           server := some "Express/Fastify" }]
      else []) ++
      (if truthy (d "@hapi/hapi") then
        [{ name := "Hapi", version := d "@hapi/hapi",
           server := some "Hapi" }]
      else []) ++
      (if truthy (d "sails") then
        [{ name := "Sails.js", version := d "sails",
           server := some "Express" }]
      else []) ++
      (if truthy (d "meteor") then
        [{ name := "Meteor", version := d "meteor" }]
      else []) ++
      (if truthy (d "@adonisjs/core") then
        [{ name := "AdonisJS", version := d "@adonisjs/core",
           server := some "Adonis" }]
      else []) ++
      (if truthy (d "@loopback/core") then
        [{ name := "LoopBack", version := d "@loopback/core",
           server := some "Express" }]
      else [])
    let frameworks :=
      if (truthy (d "serverless") || truthy (d "@serverless/framework")) &&
          frameworks.length > 0 then
        frameworks.map (fun fw =>
          { fw with server :=
              match fw.server with
              | some s => some s
              | none => some "Serverless" })
      else frameworks
    let frameworks :=
      if truthy (d "typescript") && frameworks.length > 0 then
        frameworks.map (fun fw =>
          { fw with name :=
              if jsIncludes fw.name "(TypeScript)" then fw.name
              else fw.name ++ " (TypeScript)" })
      else frameworks
    frameworks

/-- The backend framework priority of `pickPrimaryFramework`
(lines 392-403). -/
def BACKEND_FRAMEWORK_PRIORITY : List String :=
  ["NestJS", "Express.js", "Fastify", "Koa", "Hapi", "Sails.js", "AdonisJS",
   "LoopBack", "Meteor"]

/-- The backend `pickPrimaryFramework` (lines 387-412): exact name or a
name followed by a blank (so the TypeScript-suffixed names still match). -/
def pickPrimaryFramework (frameworks : List Framework) : Option Framework :=
  if frameworks.isEmpty then none
  else
    match BACKEND_FRAMEWORK_PRIORITY.findSome?
        (fun name => frameworks.find? (fun fw =>
          fw.name == name || jsStartsWith fw.name (name ++ " "))) with
    | some fw => some fw
    | none => frameworks.head?

/-- `detectPythonFramework` (lines 414-499). The `pyproject.toml` read of
the source inspects the content and then does nothing with it; it leaves no
trace here. -/
def detectPythonFramework (env : FsEnv) : Option Framework :=
  let r : Framework := { name := "Unknown" }
  let r :=
    match env.read "requirements.txt" with
    | some content =>
      let lines := (splitLines content).map (fun l => jsToLower (jsTrim l))
      if lines.any (fun l =>
          jsStartsWith l "django" || jsIncludes l "django==") then
        let r1 := { r with name := "Django", server := some "Django" }
        match lines.find? (fun l => jsStartsWith l "django") with
        | some dl => { r1 with version := matchKeyVer "django" dl }
        | none => r1
      else if lines.any (fun l =>
          jsStartsWith l "flask" || jsIncludes l "flask==") then
        let r1 := { r with name := "Flask", server := some "Werkzeug" }
        match lines.find? (fun l => jsStartsWith l "flask") with
        | some fl => { r1 with version := matchKeyVer "flask" fl }
        | none => r1
      else if lines.any (fun l =>
          jsStartsWith l "fastapi" || jsIncludes l "fastapi==") then
        let r1 := { r with name := "FastAPI", server := some "Uvicorn" }
        match lines.find? (fun l => jsStartsWith l "fastapi") with
        | some fl => { r1 with version := matchKeyVer "fastapi" fl }
        | none => r1
      else if lines.any (fun l =>
          jsStartsWith l "pyramid" || jsIncludes l "pyramid==") then
        { r with name := "Pyramid", server := some "Pyramid" }
      else if lines.any (fun l =>
          jsStartsWith l "tornado" || jsIncludes l "tornado==") then
        { r with name := "Tornado", server := some "Tornado" }
      else r
    | none => r
  let r :=
    if env.files.any (fun p => baseName p == "manage.py") &&
        r.name == "Unknown" then
      { r with name := "Django", server := some "Django" }
    else r
  let flaskFiles := env.files.filter (fun p => baseName p == "app.py")
  let r :=
    if flaskFiles.length > 0 && r.name == "Unknown" then
      match flaskFiles.head? with
      | some f =>
        match env.read f with
        | some appContent =>
          if jsIncludes appContent "Flask" ||
              jsIncludes appContent "from flask import" then
            { r with name := "Flask", server := some "Werkzeug" }
          else r
        | none => r
      | none => r
    else r
  if r.name == "Unknown" then none else some r

/-- `detectJavaFramework` (lines 501-578). -/
def detectJavaFramework (env : FsEnv) : Option Framework :=
  let r : Framework := { name := "Unknown" }
  let r :=
    match env.read "pom.xml" with
    | some content =>
      if jsIncludes content "spring-boot-starter-web" ||
          jsIncludes content "org.springframework.boot" then
        let r1 := { r with
          name := "Spring Boot"
          server := some "Tomcat/Netty" }
        match matchTagVer content with
        | some v => { r1 with version := some v }
        | none => r1
      else if jsIncludes content "jakarta" || jsIncludes content "javax" then
        { r with name := "Jakarta EE", server := some "Jakarta EE Server" }
      else if jsIncludes content "micronaut" then
        { r with name := "Micronaut", server := some "Netty" }
      else if jsIncludes content "quarkus" then
        { r with name := "Quarkus", server := some "Netty/Vert.x" }
      else if jsIncludes content "play-framework" then
        { r with name := "Play Framework", server := some "Netty" }
      else if jsIncludes content "vertx" then
        { r with name := "Vert.x", server := some "Vert.x" }
      else r
    | none => r
  let r :=
    match env.read "build.gradle" with
    | some content =>
      if jsIncludes content "spring-boot" && r.name == "Unknown" then
        { r with name := "Spring Boot", server := some "Tomcat/Netty" }
      else r
    | none => r
  if r.name == "Unknown" then none else some r

/-- `detectGoFramework` (lines 580-649). -/
def detectGoFramework (env : FsEnv) : Option Framework :=
  let r : Framework := { name := "Unknown" }
  let r :=
    match env.read "go.mod" with
    | some content =>
      if jsIncludes content "github.com/gin-gonic/gin" then
        { r with name := "Gin", server := some "Gin" }
      else if jsIncludes content "github.com/labstack/echo" then
        { r with name := "Echo", server := some "Echo" }
      else if jsIncludes content "github.com/gorilla/mux" then
        { r with name := "Gorilla Mux", server := some "net/http" }
      else if jsIncludes content "github.com/gofiber/fiber" then
        { r with name := "Fiber", server := some "Fiber" }
      else if jsIncludes content "github.com/astaxie/beego" then
        { r with name := "Beego", server := some "Beego" }
      else if jsIncludes content "github.com/revel/revel" then
        { r with name := "Revel", server := some "Revel" }
      else if jsIncludes content "net/http" && r.name == "Unknown" then
        { r with name := "net/http", server := some "net/http" }
      else r
    | none => r
  let mainFiles := env.files.filter (fun p => baseName p == "main.go")
  let r :=
    if mainFiles.length > 0 && r.name == "Unknown" then
      match mainFiles.head? with
      | some f =>
        match env.read f with
        | some mainContent =>
          if jsIncludes mainContent "gin" then
            { r with name := "Gin", server := some "Gin" }
          else if jsIncludes mainContent "echo" then
            { r with name := "Echo", server := some "Echo" }
          else r
        | none => r
      | none => r
    else r
  if r.name == "Unknown" then none else some r

/-- `detectRustFramework` (lines 651-693). -/
def detectRustFramework (env : FsEnv) : Option Framework :=
  let r : Framework := { name := "Unknown" }
  let r :=
    match env.read "Cargo.toml" with
    | some content =>
      if jsIncludes content "actix-web" then
        { r with name := "Actix-web", server := some "Actix" }
      else if jsIncludes content "rocket" then
        { r with name := "Rocket", server := some "Rocket" }
      else if jsIncludes content "warp" then
        { r with name := "Warp", server := some "Warp" }
      else if jsIncludes content "axum" then
        { r with name := "Axum", server := some "Tower" }
      else if jsIncludes content "tide" then
        { r with name := "Tide", server := some "Tide" }
      else r
    | none => r
  if r.name == "Unknown" then none else some r

/-- `detectPHPFramework` (lines 695-766), over the parsed `composer.json`
of the environment. -/
def detectPHPFramework (env : FsEnv) : Option Framework :=
  let r : Framework := { name := "Unknown" }
  let r :=
    match env.composer with
    | some composer =>
      let d := fun k => spread2 composer.require composer.requireDev k
      if truthy (d "laravel/framework") then
        { r with
          name := "Laravel"
          version := d "laravel/framework"
          server := some "Apache/Nginx" }
      else if truthy (d "symfony/symfony") ||
          truthy (d "symfony/framework-bundle") then
        { r with name := "Symfony", server := some "Apache/Nginx" }
      else if truthy (d "codeigniter/framework") then
        { r with name := "CodeIgniter", server := some "Apache/Nginx" }
      else if truthy (d "slim/slim") then
        { r with name := "Slim", server := some "Apache/Nginx" }
      else if truthy (d "laminas/laminas-mvc") then
        { r with name := "Laminas", server := some "Apache/Nginx" }
      else if truthy (d "yiisoft/yii2") then
        { r with name := "Yii", server := some "Apache/Nginx" }
      else if truthy (d "cakephp/cakephp") then
        { r with name := "CakePHP", server := some "Apache/Nginx" }
      else r
    | none => r
  let r :=
    if env.files.any (fun p => baseName p == "artisan") &&
        r.name == "Unknown" then
      { r with name := "Laravel", server := some "Apache/Nginx" }
    else r
  let r :=
    if env.files.any (fun p => endsWithSegments p ["bin", "console"]) &&
        r.name == "Unknown" then
      { r with name := "Symfony", server := some "Apache/Nginx" }
    else r
  if r.name == "Unknown" then none else some r

/-- `detectRubyFramework` (lines 768-817). -/
def detectRubyFramework (env : FsEnv) : Option Framework :=
  let r : Framework := { name := "Unknown" }
  let r :=
    match env.read "Gemfile" with
    | some content =>
      if jsIncludes content "rails" then
        { r with name := "Ruby on Rails", server := some "Puma/Passenger" }
      else if jsIncludes content "sinatra" then
        { r with name := "Sinatra", server := some "WEBrick/Puma" }
      else if jsIncludes content "hanami" then
        { r with name := "Hanami", server := some "Puma" }
      else if jsIncludes content "padrino" then
        { r with name := "Padrino", server := some "Puma" }
      else r
    | none => r
  let r :=
    if env.files.any (fun p => endsWithSegments p ["bin", "rails"]) &&
        r.name == "Unknown" then
      { r with name := "Ruby on Rails", server := some "Puma/Passenger" }
    else r
  if r.name == "Unknown" then none else some r

/-- `detectDotNetFramework` (lines 819-857). -/
def detectDotNetFramework (env : FsEnv) : Option Framework :=
  let r : Framework := { name := "Unknown" }
  let csprojFiles := env.files.filter (fun p => jsEndsWith p ".csproj")
  let r :=
    if csprojFiles.length > 0 then
      let r1 := { r with name := "ASP.NET Core", server := some "Kestrel" }
      match csprojFiles.head? with
      | some f =>
        match env.read f with
        | some content =>
          if jsIncludes content "net8.0" then { r1 with version := some "8.0" }
          else if jsIncludes content "net7.0" then
            { r1 with version := some "7.0" }
          else if jsIncludes content "net6.0" then
            { r1 with version := some "6.0" }
          else if jsIncludes content "net5.0" then
            { r1 with version := some "5.0" }
          else if jsIncludes content "netcoreapp" then
            { r1 with version := some "Core" }
          else r1
        | none => r1
      | none => r1
    else r
  let r :=
    if env.files.any (fun p => baseName p == "Web.config") &&
        r.name == "Unknown" then
      { r with name := "ASP.NET", server := some "IIS" }
    else r
  if r.name == "Unknown" then none else some r

/-- `detectFrameworkByRuntime` (lines 272-323): primary and collected
frameworks for each runtime. -/
def detectFrameworkByRuntime (env : FsEnv) (runtime : String) :
    Option Framework × List Framework :=
  let single := fun (o : Option Framework) =>
    (o, match o with | some fw => [fw] | none => [])
  match runtime with
  | "Node.js" =>
    let fws := detectNodeFrameworks env
    (pickPrimaryFramework fws, fws)
  | "Python" => single (detectPythonFramework env)
  | "Java" => single (detectJavaFramework env)
  | "Go" => single (detectGoFramework env)
  | "Rust" => single (detectRustFramework env)
  | "PHP" => single (detectPHPFramework env)
  | "Ruby" => single (detectRubyFramework env)
  | ".NET" => single (detectDotNetFramework env)
  | _ => (none, [])

/-- `detectRuntimeAndFramework` (lines 195-226). -/
def detectRuntimeAndFramework (env : FsEnv) : PartialBackend :=
  let runtimes := detectRuntimes env
  let r : PartialBackend := {}
  let r :=
    if runtimes.length > 0 then
      { r with
        runtimes := some runtimes
        runtime := pickPrimaryRuntime runtimes }
    else r
  if truthy r.runtime then
    match r.runtime with
    | some rt =>
      let fd := detectFrameworkByRuntime env rt
      let r :=
        match fd.1 with
        | some primary => { r with framework := some primary }
        | none => r
      if fd.2.length > 0 then { r with frameworks := some fd.2 } else r
    | none => r
  else r

end Backend

namespace Backend

/-- The all-false feature object the dependency and verification phases
start from. -/
def allFalseFeatures : BackendFeatures where
  hasGraphQL := some false
  hasREST := some false
  hasWebSockets := some false
  hasMicroservices := some false
  hasQueue := some false
  hasCronJobs := some false
  hasFileUpload := some false
  hasValidation := some false
  hasTesting := some false
  hasDocumentation := some false

/-- The backend `analyzeDependencies` (lines 859-977): service lists and
three feature flags from the two-way dependency spread, read only for a
Node.js runtime or a Node framework label. -/
def analyzeDependencies (env : FsEnv) (runtime : Option String)
    (frameworkName : Option String) : PartialBackend :=
  let frameworkLabel := frameworkName.getD ""
  let isNodeRuntime := runtime == some "Node.js"
  let isNodeFramework := ["Express", "NestJS", "Koa", "Fastify"].any
    (fun n => jsIncludes frameworkLabel n)
  let d : String → Option String :=
    if isNodeRuntime || isNodeFramework then
      match env.pkg with
      | some p => deps2 p
      | none => fun _ => none
    else fun _ => none
  let authentication :=
    (if truthy (d "passport") || truthy (d "jsonwebtoken") ||
        truthy (d "bcrypt") then ["JWT/Passport"] else []) ++
    (if truthy (d "auth0") then ["Auth0"] else []) ++
    (if truthy (d "firebase-admin") then ["Firebase"] else []) ++
    (if truthy (d "@azure/msal-node") then ["Azure AD"] else [])
  let caching :=
    (if truthy (d "redis") || truthy (d "ioredis") then ["Redis"]
    else []) ++
    (if truthy (d "memcached") then ["Memcached"] else []) ++
    (if truthy (d "node-cache") || truthy (d "memory-cache") then
      ["In-memory"] else [])
  let messaging :=
    (if truthy (d "bull") || truthy (d "bullmq") then ["Bull (Redis)"]
    else []) ++
    (if truthy (d "amqplib") || truthy (d "rhea") then ["RabbitMQ"]
    else []) ++
    (if truthy (d "kafkajs") then ["Kafka"] else []) ++
    (if truthy (d "sqs-consumer") || truthy (d "@aws-sdk/client-sqs") then
      ["AWS SQS"] else [])
  let search :=
    (if truthy (d "@elastic/elasticsearch") then ["Elasticsearch"]
    else []) ++
    (if truthy (d "algoliasearch") then ["Algolia"] else [])
  let monitoring :=
    (if truthy (d "winston") || truthy (d "pino") then
      ["Structured Logging"] else []) ++
    (if truthy (d "prom-client") then ["Prometheus"] else []) ++
    (if truthy (d "@opentelemetry/api") then ["OpenTelemetry"] else []) ++
    (if truthy (d "sentry") then ["Sentry"] else [])
  { authentication := some authentication
    caching := some caching
    messaging := some messaging
    search := some search
    monitoring := some monitoring
    features := some { allFalseFeatures with
      hasGraphQL := some (truthy (d "graphql") || truthy (d "apollo-server"))
      hasWebSockets := some (truthy (d "socket.io") || truthy (d "ws"))
      hasTesting := some (truthy (d "jest") || truthy (d "mocha") ||
        truthy (d "chai") || truthy (d "supertest")) } }

/-- The `.env` content patterns of `detectDatabasesAndORMs`
(lines 1056-1062), alternatives of each case-insensitive regex with the
type they push. -/
def dbPatterns : List (List String × String) :=
  [(["DATABASE_URL", "DB_CONNECTION"], "Database"),
   (["MONGO", "MONGODB"], "MongoDB"),
   (["POSTGRES"], "PostgreSQL"),
   (["MYSQL"], "MySQL"),
   (["REDIS"], "Redis")]

/-- `detectDatabasesAndORMs` (lines 979-1082). -/
def detectDatabasesAndORMs (env : FsEnv) : PartialBackend :=
  let start : List String × Option String :=
    match env.pkg with
    | some p =>
      let d := deps2 p
      let dbs :=
        (if truthy (d "mongoose") then ["MongoDB"] else []) ++
        (if truthy (d "typeorm") then ["PostgreSQL/MySQL/SQLite"]
        else []) ++
        (if truthy (d "sequelize") then
          ["PostgreSQL/MySQL/MariaDB/SQLite"] else []) ++
        (if truthy (d "prisma") then ["PostgreSQL/MySQL/SQLite/MongoDB"]
        else []) ++
        (if truthy (d "redis") || truthy (d "ioredis") then ["Redis"]
        else []) ++
        (if truthy (d "@elastic/elasticsearch") then ["Elasticsearch"]
        else []) ++
        (if truthy (d "mysql2") || truthy (d "mysql") then ["MySQL"]
        else []) ++
        (if truthy (d "pg") || truthy (d "postgres") then ["PostgreSQL"]
        else []) ++
        (if truthy (d "sqlite3") then ["SQLite"] else []) ++
        (if truthy (d "mongodb") then ["MongoDB"] else []) ++
        (if truthy (d "cassandra-driver") then ["Cassandra"] else [])
      let orm := if truthy (d "mongoose") then some "Mongoose" else none
      let orm := if truthy (d "typeorm") then some "TypeORM" else orm
      let orm := if truthy (d "sequelize") then some "Sequelize" else orm
      let orm := if truthy (d "prisma") then some "Prisma" else orm
      (dbs, orm)
    | none => ([], none)
  let withPy : List String × Option String :=
    match env.read "requirements.txt" with
    | some content =>
      let pyDjango := jsIncludes content "django.db" ||
        jsIncludes content "psycopg2" || jsIncludes content "mysqlclient"
      let dbs := start.1 ++ (if pyDjango then ["PostgreSQL/MySQL"] else [])
      let orm := if pyDjango then some "Django ORM" else start.2
      let orm := if jsIncludes content "sqlalchemy" then some "SQLAlchemy"
        else orm
      let dbs := dbs ++ (if jsIncludes content "pymongo" then ["MongoDB"]
        else [])
      let dbs := dbs ++ (if jsIncludes content "redis" then ["Redis"]
        else [])
      (dbs, orm)
    | none => start
  let envFiles :=
    (env.files.filter (fun p => jsStartsWith (baseName p) ".env")).take 3
  let dbs := envFiles.foldl
    (fun (dbs : List String) f =>
      match env.read f with
      | some content =>
        dbPatterns.foldl
          (fun (dbs : List String) pat =>
            if pat.1.any (fun alt => icontains content alt) &&
                !(dbs.contains pat.2) then
              dbs ++ [pat.2]
            else dbs)
          dbs
      | none => dbs)
    withPy.1
  { database := some (dedupFirst dbs), orm := withPy.2 }

/-- The entry-point file-name groups of `analyzeBackendStructure`
(lines 1092-1099): each glob pattern as the set of base names it accepts
(`Program.cs` and `application.rb` are exact names). -/
def backendEntryNameGroups : List (List String) :=
  [["index.js", "index.ts"],
   ["app.js", "app.ts"],
   ["server.js", "server.ts"],
   ["main.go", "main.rs", "main.py", "main.java"],
   ["Program.cs"],
   ["application.rb"]]

/-- The route and model directory groups of `analyzeBackendStructure`:
directory segment and accepted extensions. -/
def backendRouteGroups : List (String × List String) :=
  [("routes", [".js", ".ts"]),
   ("controllers", [".js", ".ts", ".py", ".java", ".cs", ".rb"]),
   ("api", [".js", ".ts", ".py", ".java", ".cs", ".rb"])]

def backendModelGroups : List (String × List String) :=
  [("models", [".js", ".ts", ".py", ".java", ".cs", ".rb"]),
   ("entities", [".js", ".ts", ".py", ".java", ".cs", ".rb"]),
   ("schemas", [".js", ".ts", ".py", ".java", ".cs", ".rb"])]

/-- `analyzeBackendStructure` (lines 1085-1155): entry points (five per
pattern, depth three), API routes and models (ten per pattern, depth four),
each deduplicated, all ignoring `node_modules`, `dist`, `build` and
`vendor`. -/
def analyzeBackendStructure (env : FsEnv) : PartialBackend :=
  let ig := fun p => ignoredBy ["node_modules", "dist", "build", "vendor"] p
  let entryPoints_ := backendEntryNameGroups.foldl
    (fun (acc : List String) names =>
      acc ++ (env.files.filter (fun p =>
        !(ig p) && withinDepth 3 p && names.contains (baseName p))).take 5)
    []
  let apiRoutes := backendRouteGroups.foldl
    (fun (acc : List String) g =>
      acc ++ (env.files.filter (fun p =>
        !(ig p) && withinDepth 4 p && hasDirSegment p g.1 &&
          hasExt g.2 p)).take 10)
    []
  let models := backendModelGroups.foldl
    (fun (acc : List String) g =>
      acc ++ (env.files.filter (fun p =>
        !(ig p) && withinDepth 4 p && hasDirSegment p g.1 &&
          hasExt g.2 p)).take 10)
    []
  { entryPoints := some (dedupFirst entryPoints_)
    apiRoutes := some (dedupFirst apiRoutes)
    models := some (dedupFirst models) }

/-- `detectAdditionalServices` (lines 1157-1211): the source globs for
service config files, collects a `detectedServices` set, and then never
stores it — the returned object stays empty. -/
def detectAdditionalServices (_env : FsEnv) : PartialBackend := {}

/-- `detectDeploymentConfig` (lines 1213-1263). -/
def detectDeploymentConfig (env : FsEnv) : BackendDeployment :=
  let hasDocker :=
    (env.files.filter (fun p =>
      jsStartsWith (baseName p) "Dockerfile")).length > 0 ||
    (env.files.filter (fun p =>
      jsStartsWith (baseName p) "docker-compose" &&
        jsEndsWith (baseName p) ".yml")).length > 0
  let k8sFiles := env.files.filter (fun p =>
    withinDepth 2 p && hasExt [".yaml"] p)
  let hasKubernetes := k8sFiles.any (fun f =>
    jsIncludes f "deployment" || jsIncludes f "service" ||
    jsIncludes f "configmap" || jsIncludes f "ingress")
  let hasCI :=
    (env.files.filter (fun p =>
      match (pathSegments p).reverse with
      | f :: "workflows" :: ".github" :: _ => jsEndsWith f ".yml"
      | _ => false)).length > 0 ||
    (env.files.filter (fun p => baseName p == ".gitlab-ci.yml")).length > 0 ||
    (env.files.filter (fun p => baseName p == "Jenkinsfile")).length > 0
  let cloudProvider :=
    if env.files.any (fun p =>
        withinDepth 3 p && baseName p == "serverless.yml") then some "AWS"
    else if env.files.any (fun p =>
        withinDepth 3 p && baseName p == "serverless.yaml") then some "AWS"
    else if env.files.any (fun p =>
        withinDepth 3 p && baseName p == "app.yaml") then some "Google Cloud"
    else if env.files.any (fun p =>
        withinDepth 3 p && hasDirSegment p "appengine") then
      some "Google Cloud"
    else if env.files.any (fun p =>
        withinDepth 3 p && baseName p == "azure-pipelines.yml") then
      some "Azure"
    else none
  { hasDocker := hasDocker
    hasKubernetes := hasKubernetes
    hasCI := hasCI
    cloudProvider := cloudProvider }

/-- The test-file suffixes of the `'**/*.{test,spec}.{js,...}'` glob. -/
def testFileSuffixes : List String :=
  [".test.js", ".test.ts", ".test.py", ".test.java", ".test.cs", ".test.rb",
   ".spec.js", ".spec.ts", ".spec.py", ".spec.java", ".spec.cs", ".spec.rb"]

/-- `verifyBackendByFiles` (lines 1265-1333). -/
def verifyBackendByFiles (env : FsEnv) : PartialBackend :=
  let ig := fun p => ignoredBy ["node_modules", "dist", "build", "vendor"] p
  let restFiles := env.files.filter (fun p =>
    !(ig p) && withinDepth 4 p &&
    (jsIncludes (baseName p) "route" || jsIncludes (baseName p) "controller"
      || jsIncludes (baseName p) "api") &&
    hasExt [".js", ".ts", ".py", ".java", ".cs", ".rb"] p)
  let graphqlFiles := env.files.filter (fun p =>
    withinDepth 3 p && hasExt [".graphql", ".gql"] p)
  let graphqlResolvers := env.files.filter (fun p =>
    withinDepth 4 p && hasDirSegment p "resolvers" &&
    hasExt [".js", ".ts"] p)
  let websocketFiles := env.files.filter (fun p =>
    withinDepth 3 p && jsIncludes (baseName p) "socket" &&
    hasExt [".js", ".ts"] p)
  let microserviceFiles := env.files.filter (fun p =>
    withinDepth 4 p && hasDirSegment p "services" && hasExt [".js", ".ts"] p)
  let queueFiles := env.files.filter (fun p =>
    withinDepth 3 p &&
    (jsIncludes (baseName p) "worker" || jsIncludes (baseName p) "job" ||
      jsIncludes (baseName p) "queue" || jsIncludes (baseName p) "task") &&
    hasExt [".js", ".ts", ".py"] p)
  let cronFiles := env.files.filter (fun p =>
    withinDepth 3 p &&
    (jsIncludes (baseName p) "cron" || jsIncludes (baseName p) "schedule" ||
      jsIncludes (baseName p) "task") &&
    hasExt [".js", ".ts", ".py"] p)
  let uploadFiles := env.files.filter (fun p =>
    withinDepth 3 p &&
    (jsIncludes (baseName p) "upload" || jsIncludes (baseName p) "file" ||
      jsIncludes (baseName p) "storage") &&
    hasExt [".js", ".ts", ".py"] p)
  let validationFiles := env.files.filter (fun p =>
    withinDepth 3 p &&
    (jsIncludes (baseName p) "validat" || jsIncludes (baseName p) "schema")
      && hasExt [".js", ".ts", ".py"] p)
  let testFiles := env.files.filter (fun p =>
    withinDepth 4 p && hasExt testFileSuffixes p)
  let docsFiles := env.files.filter (fun p =>
    withinDepth 3 p && hasDirSegment p "docs")
  let readmeFiles := env.files.filter (fun p =>
    withinDepth 2 p && jsStartsWith (baseName p) "README")
  { features := some { allFalseFeatures with
      hasREST := some (restFiles.length > 0)
      hasGraphQL := some
        (graphqlFiles.length > 0 || graphqlResolvers.length > 0)
      hasWebSockets := some (websocketFiles.length > 0)
      hasMicroservices := some (microserviceFiles.length > 5)
      hasQueue := some (queueFiles.length > 0)
      hasCronJobs := some (cronFiles.length > 0)
      hasFileUpload := some (uploadFiles.length > 0)
      hasValidation := some (validationFiles.length > 0)
      hasTesting := some (testFiles.length > 0)
      hasDocumentation := some
        (docsFiles.length > 0 || readmeFiles.length > 0) } }

/-- The REST source patterns of `detectAPIPatterns`: the substrings whose
presence the three regexes test. -/
def restSourcePatterns : List String :=
  ["app.get", "app.post", "app.put", "app.delete", "app.patch",
   "router.get", "router.post", "router.put", "router.delete",
   "router.patch", "@Get", "@Post", "@Put", "@Delete", "@Patch"]

/-- The sampling loop of `detectAPIPatterns` (lines 1344-1375): flags start
absent and are only ever set to true; the loop stops early once all three
are true. -/
def detectAPIPatternsGo (env : FsEnv) :
    List String → BackendFeatures → BackendFeatures
  | [], acc => acc
  | f :: rest, acc =>
    let acc :=
      match env.read f with
      | some content =>
        let acc :=
          if restSourcePatterns.any (fun pat => jsIncludes content pat) then
            { acc with hasREST := some true }
          else acc
        let acc :=
          if jsIncludes content "GraphQL" || jsIncludes content "gql`" ||
              jsIncludes content "type Query" ||
              jsIncludes content "type Mutation" then
            { acc with hasGraphQL := some true }
          else acc
        let acc :=
          if jsIncludes content "WebSocket" ||
              jsIncludes content "socket.io" || jsIncludes content "ws." then
            { acc with hasWebSockets := some true }
          else acc
        acc
      | none => acc
    if acc.hasREST == some true && acc.hasGraphQL == some true &&
        acc.hasWebSockets == some true then
      acc
    else detectAPIPatternsGo env rest acc

/-- `detectAPIPatterns` (lines 1335-1378): sample up to ten source files. -/
def detectAPIPatterns (env : FsEnv) : BackendFeatures :=
  let apiFiles := env.files.filter (fun p =>
    !(ignoredBy ["node_modules", "dist", "build", "vendor"] p) &&
    withinDepth 4 p && hasExt [".js", ".ts", ".py"] p)
  detectAPIPatternsGo env (apiFiles.take 10) {}

/-- `detectBackend` (lines 152-194): the eight phases merged in order into
the base analysis. -/
def detectBackend (env : FsEnv) : BackendAnalysis :=
  let analysis := createBackendAnalysisBase
  let analysis := mergeBackendAnalysis analysis (detectRuntimeAndFramework env)
  let analysis := mergeBackendAnalysis analysis
    (analyzeDependencies env analysis.runtime (some analysis.framework.name))
  let analysis := mergeBackendAnalysis analysis (detectDatabasesAndORMs env)
  let analysis := mergeBackendAnalysis analysis (analyzeBackendStructure env)
  let analysis := mergeBackendAnalysis analysis (detectAdditionalServices env)
  let analysis := mergeBackendAnalysis analysis
    { deployment := some (detectDeploymentConfig env) }
  let analysis := mergeBackendAnalysis analysis (verifyBackendByFiles env)
  mergeBackendAnalysis analysis { features := some (detectAPIPatterns env) }

end Backend

/-! ### `src/src/helpers/analyze/detectors/dependency.ts`: the analysis -/

namespace Dependencies

/-- The per-type dependency buckets (`ClassifiedDependencies`). -/
structure ClassifiedDependencies where
  production : List Dependency := []
  development : List Dependency := []
  peer : List Dependency := []
  optional : List Dependency := []
  all : List Dependency := []
deriving Repr, DecidableEq

/-- The `riskAssessment` record of `assessDependencyRisks`. -/
structure RiskAssessment where
  outdatedCount : Nat := 0
  deprecatedCount : Nat := 0
  unlicensedCount : Nat := 0
  largeSizeCount : Nat := 0
deriving Repr, DecidableEq

/-- The result of `analyzeDependencies` (`DependencyAnalysis`); the
`uniqueCategories` set is kept in insertion order. -/
structure DependencyAnalysis where
  classified : ClassifiedDependencies
  packageManagers : List String
  hasLockFile : Bool
  totalDependencies : Nat
  uniqueCategories : List String
  riskAssessment : RiskAssessment
deriving Repr, DecidableEq

/-- The `lockFiles` table of `detectPackageManager` (lines 230-242). -/
def lockFilesTable : List (String × String) :=
  [("package-lock.json", "npm"), ("yarn.lock", "yarn"),
   ("pnpm-lock.yaml", "pnpm"), ("bun.lockb", "bun"),
   ("requirements.txt", "pip"), ("Cargo.lock", "cargo"), ("go.mod", "go"),
   ("composer.lock", "composer"), ("Gemfile.lock", "bundler"),
   ("Pipfile.lock", "pipenv"), ("poetry.lock", "poetry")]

/-- `Object.values(scripts).join(new String [blank])`. -/
def joinSpace (l : List String) : String :=
  match l with
  | [] => ""
  | h :: t => t.foldl (fun acc s => acc ++ " " ++ s) h

/-- `detectPackageManager` (lines 226-271): top-level lock files, with a
fallback scan of the `package.json` scripts. -/
def detectPackageManager (env : FsEnv) : List String × Bool :=
  let managers := lockFilesTable.filterMap (fun lf =>
    if (env.read lf.1).isSome then some lf.2 else none)
  if managers.isEmpty then
    let fromScripts :=
      match env.read "package.json", env.pkg with
      | some _, some p =>
        let scripts := joinSpace (p.scripts.map Prod.snd)
        (if jsIncludes scripts "yarn" then ["yarn"] else []) ++
        (if jsIncludes scripts "pnpm" then ["pnpm"] else []) ++
        (if jsIncludes scripts "bun" then ["bun"] else [])
      | _, _ => []
    (fromScripts, false)
  else (managers, true)

/-- A character of the `[\w\-]` class. -/
def isWordDash (c : Char) : Bool :=
  c.isAlphanum || c == '_' || c == '-'

/-- The anchored `([\w\-]+)\s*=\s*["\x27]?([^"\x27\s]+)["\x27]?` regex of
`parseTomlDependencies` on one trimmed line; quote characters are written
by code to stay out of the string literals. -/
def parseTomlLine (l : List Char) : Option (String × String) :=
  let quote1 := Char.ofNat 34
  let quote2 := Char.ofNat 39
  let name := l.takeWhile isWordDash
  if name.isEmpty then none
  else
    let r1 := (l.drop name.length).dropWhile Char.isWhitespace
    match r1 with
    | '=' :: r2 =>
      let r3 := r2.dropWhile Char.isWhitespace
      let r4 :=
        match r3 with
        | c :: t => if c == quote1 || c == quote2 then t else r3
        | [] => r3
      let ver := r4.takeWhile (fun c =>
        !(c == quote1 || c == quote2 || c.isWhitespace))
      if ver.isEmpty then none else some (⟨name⟩, ⟨ver⟩)
    | _ => none

/-- `result.dependencies[name] = version`: a JavaScript object keeps the
first-insertion position and the last value. -/
def upsertProp (m : List (String × String)) (k v : String) :
    List (String × String) :=
  if m.any (fun e => e.1 == k) then
    m.map (fun e => if e.1 == k then (k, v) else e)
  else m ++ [(k, v)]

/-- The line-scanning state of `parseTomlDependencies`. -/
structure TomlState where
  inDependencies : Bool := false
  inDevDependencies : Bool := false
  dependencies : List (String × String) := []
  devDependencies : List (String × String) := []

/-- `parseTomlDependencies` (lines 312-339). -/
def parseTomlDependencies (content : String) (type_ : String) : PackageJson :=
  let final := (splitLines content).foldl
    (fun (st : TomlState) line =>
      let trimmed := jsTrim line
      if jsStartsWith trimmed "[" then
        { st with
          inDependencies := jsIncludes trimmed "[dependencies]"
          inDevDependencies :=
            jsIncludes trimmed "[dev-dependencies]" ||
            (type_ == "python" &&
              jsIncludes trimmed "[tool.poetry.dev-dependencies]") }
      else if !trimmed.isEmpty && !(jsStartsWith trimmed "#") &&
          !(jsStartsWith trimmed ";") then
        match parseTomlLine trimmed.data with
        | some nv =>
          if st.inDependencies then
            { st with dependencies := upsertProp st.dependencies nv.1 nv.2 }
          else if st.inDevDependencies then
            { st with
              devDependencies := upsertProp st.devDependencies nv.1 nv.2 }
          else st
        | none => st
      else st)
    {}
  { dependencies := final.dependencies
    devDependencies := final.devDependencies }

/-- `readDependencies` (lines 273-310) from `Cargo.toml` on: the loop body
returns nothing for `build.gradle`, `pom.xml` and `go.mod`, so after a
failed `composer.json` parse the function returns null. -/
def readDependenciesTail (env : FsEnv) : Option PackageJson :=
  match env.read "Cargo.toml" with
  | some content => some (parseTomlDependencies content "cargo")
  | none =>
    match env.read "pyproject.toml" with
    | some content => some (parseTomlDependencies content "python")
    | none =>
      match env.read "composer.json" with
      | some _ =>
        match env.composer with
        | some c =>
          some { dependencies := c.require, devDependencies := c.requireDev }
        | none => none
      | none => none

/-- `readDependencies` (lines 273-310): the first manifest that parses, in
the fixed priority order; a `package.json` that exists but fails
`JSON.parse` falls through to the next manifest. -/
def readDependencies (env : FsEnv) : Option PackageJson :=
  match env.read "package.json" with
  | some _ =>
    match env.pkg with
    | some p => some p
    | none => readDependenciesTail env
  | none => readDependenciesTail env

/-- `/^\^?0\./`. -/
def startsZero (v : String) : Bool :=
  jsStartsWith v "0." || jsStartsWith v "^0."

/-- `/^\^?[0-9]+\.[0-9]+$/`. -/
def majorMinorOnly (v : String) : Bool :=
  let l := match v.data with
    | '^' :: t => t
    | t => t
  let d1 := l.takeWhile Char.isDigit
  if d1.isEmpty then false
  else
    match l.drop d1.length with
    | '.' :: r =>
      let d2 := r.takeWhile Char.isDigit
      !d2.isEmpty && (r.drop d2.length).isEmpty
    | _ => false

/-- `/alpha|beta|rc|dev|snapshot/i`. -/
def preReleaseVersion (v : String) : Bool :=
  ["alpha", "beta", "rc", "dev", "snapshot"].any (fun k => icontains v k)

/-- The `deprecatedPackages` list of `assessDependencyRisks`
(lines 362-369). -/
def deprecatedPackages : List String :=
  ["request", "gulp-util", "fsevents", "hoek", "debug", "minimatch"]

/-- `assessDependencyRisks` (lines 341-382): version-pattern and
deprecated-name counts; the unlicensed and large-size counts stay zero. -/
def assessDependencyRisks (dependencies : List Dependency) : RiskAssessment :=
  { outdatedCount := (dependencies.filter (fun d =>
      startsZero d.version || majorMinorOnly d.version ||
        preReleaseVersion d.version)).length
    deprecatedCount := (dependencies.filter (fun d =>
      deprecatedPackages.contains d.name)).length }

/-- `analyzeDependencies` (lines 21-95). Every fallible operation inside it
is individually guarded in the source (`detectPackageManager` and
`readDependencies` catch per file, the classification is pure), so the
function is total; its own catch-and-rethrow (lines 91-94) only fires for
runtime-level failures outside this model. -/
def analyzeDependencies (env : FsEnv) : DependencyAnalysis :=
  let pmInfo := detectPackageManager env
  let deps := readDependencies env
  let classified : ClassifiedDependencies :=
    match deps with
    | some dp =>
      let production := dp.dependencies.map (fun e =>
        createDependencyObject e.1 e.2)
      let development := dp.devDependencies.map (fun e =>
        createDependencyObject e.1 e.2)
      let peer := dp.peerDependencies.map (fun e =>
        createDependencyObject e.1 e.2)
      let optional := dp.optionalDependencies.map (fun e =>
        createDependencyObject e.1 e.2)
      { production := production
        development := development
        peer := peer
        optional := optional
        all := production ++ development ++ peer ++ optional }
    | none => {}
  let totalDependencies :=
    match deps with
    | some _ => classified.all.length
    | none => 0
  let uniqueCategories :=
    match deps with
    | some _ => dedupFirst (classified.all.filterMap (fun d =>
        if !d.category.isEmpty then some d.category else none))
    | none => []
  { classified := classified
    packageManagers := pmInfo.1
    hasLockFile := pmInfo.2
    totalDependencies := totalDependencies
    uniqueCategories := uniqueCategories
    riskAssessment := assessDependencyRisks classified.all }

end Dependencies

/-! ### `src/unnamed/part_002`: `detectLanguages` and `analyzeLanguages` -/

namespace Languages

/-- The `defaultIgnoredPatterns` of the language analyzer (the
configuration override defaults to this very list). -/
def defaultIgnored (p : String) : Bool :=
  ignoredAnywhere ["node_modules", ".git", "dist", "build", ".next",
    ".nuxt", "out"] p ||
  jsEndsWith p ".min.js" || jsEndsWith p ".min.css" ||
  baseName p == "package-lock.json" || baseName p == "yarn.lock" ||
  baseName p == ".DS_Store"

/-- The `extensionMap` of `detectLanguageByFile` (lines 116-196). -/
def extensionMap : List (String × String) :=
  [(".js", "JavaScript"), (".jsx", "JavaScript"), (".mjs", "JavaScript"),
   (".cjs", "JavaScript"), (".ts", "TypeScript"), (".tsx", "TypeScript"),
   (".vue", "Vue"), (".svelte", "Svelte"),
   (".html", "HTML"), (".htm", "HTML"), (".css", "CSS"), (".scss", "SCSS"),
   (".sass", "SASS"), (".less", "LESS"), (".styl", "Stylus"),
   (".py", "Python"), (".java", "Java"), (".kt", "Kotlin"),
   (".scala", "Scala"), (".go", "Go"), (".rs", "Rust"), (".php", "PHP"),
   (".rb", "Ruby"), (".cs", "C#"), (".fs", "F#"), (".swift", "Swift"),
   (".c", "C"), (".cpp", "C++"), (".h", "C/C++ Header"),
   (".hpp", "C++ Header"),
   (".sh", "Shell"), (".bash", "Bash"), (".zsh", "Zsh"),
   (".ps1", "PowerShell"), (".bat", "Batch"), (".cmd", "Batch"),
   (".json", "JSON"), (".yaml", "YAML"), (".yml", "YAML"),
   (".toml", "TOML"), (".xml", "XML"), (".csv", "CSV"),
   (".md", "Markdown"), (".txt", "Text"), (".ini", "INI"),
   (".cfg", "Configuration"), (".conf", "Configuration"),
   (".sql", "SQL"), (".db", "Database"), (".sqlite", "SQLite"),
   (".dockerfile", "Docker"), (".lock", "Lock File"),
   (".gitignore", "Git Ignore"), (".editorconfig", "EditorConfig"),
   (".prettierrc", "Prettier"), (".eslintrc", "ESLint")]

/-- `detectLanguageByFile` (lines 108-208): file-name checks, then the
shebang probe for extension-less files, then the extension map. -/
def detectLanguageByFile (env : FsEnv) (p : String) (ext : String) :
    Option String :=
  let fileName := jsToLower (baseName p)
  if fileName == "dockerfile" then some "Docker"
  else if fileName == "makefile" then some "Makefile"
  else if fileName == ".env" || jsStartsWith fileName ".env." then
    some "Environment Variables"
  else if ext.isEmpty then
    match env.read p with
    | some content =>
      if jsStartsWith content "#!" then
        let shebang := (splitLines content).headD ""
        if jsIncludes shebang "python" then some "Python"
        else if jsIncludes shebang "node" then some "JavaScript"
        else if jsIncludes shebang "bash" then some "Bash"
        else if jsIncludes shebang "sh" then some "Shell"
        else none
      else none
    | none => none
  else lookupDep extensionMap ext

/-- One file's contribution to the stats object: first detection inserts
the language at the end, later files update in place. -/
def bumpStat (stats : List (String × LangData)) (lang : String)
    (lines bytes : Nat) : List (String × LangData) :=
  if stats.any (fun e => e.1 == lang) then
    stats.map (fun e =>
      if e.1 == lang then
        (e.1, { files := e.2.files + 1, lines := e.2.lines + lines,
                bytes := e.2.bytes + bytes })
      else e)
  else stats ++ [(lang, { files := 1, lines := lines, bytes := bytes })]

/-- `analyzeLanguages` (lines 33-106) over the environment: the glob
universe filtered by the default ignore patterns, processed in walker
order (the batched `Promise.all` loop is determinized to that order). The
per-language extension set and the primary-extension pass only decorate the
stats object; the fields `rankLanguages` consumes are `files`, `lines` and
`bytes`, which is all `LangData` carries. -/
def analyzeLanguages (env : FsEnv) : List (String × LangData) :=
  env.files.foldl
    (fun stats p =>
      if defaultIgnored p then stats
      else
        match detectLanguageByFile env p (jsToLower (extname p)) with
        | none => stats
        | some lang =>
          match env.read p with
          | some content =>
            bumpStat stats lang (splitLines content).length
              content.utf8ByteSize
          | none => bumpStat stats lang 0 0)
    []

/-- `detectLanguages` (lines 22-30): analyze, then rank. The fallback
branch of the source only runs when the glob walk itself rejects, which the
pure environment cannot express; `analyzeLanguages` is total here. -/
def detectLanguages (logFn : Nat → ℚ) (env : FsEnv) : List String :=
  rankLanguages logFn (analyzeLanguages env)

end Languages

/-- The environment of a directory with no manifest files and no source
files: nothing to glob, nothing to read, no parsed manifests. -/
def emptyFsEnv : FsEnv where
  files := []
  read := fun _ => none
  pkg := none
  composer := none

/-- C7: on a directory with zero manifest files and zero source files every
detector is total (each top-level failure path is unreachable in the pure
environment) and the analysis degrades exactly as specified: no languages,
frontend and backend framework name "Unknown", and an empty classified
dependency list. -/
theorem emptyProject_degraded_profile :
    (∀ logFn : Nat → ℚ,
      Languages.detectLanguages logFn emptyFsEnv = []) ∧
    (Frontend.detectFrontend none []).framework.name = "Unknown" ∧
    (Backend.detectBackend emptyFsEnv).framework.name = "Unknown" ∧
    (Dependencies.analyzeDependencies emptyFsEnv).classified.all = [] := by
  refine ⟨fun logFn => ?_, ?_, ?_, ?_⟩
  · rfl
  · decide
  · decide
  · decide

/-! ### `src/src/helpers/analyze/detectors/workspace.ts` -/

/-- A discovered workspace root (`WorkspaceProjectRoot`). -/
structure WorkspaceProjectRoot where
  id : String
  rootPath : String
  name : String
  manifestFiles : List String
  packageManagers : List String
  hasLockFile : Bool
  typeHints : List String
deriving Repr, DecidableEq

namespace Workspace

/-- The workspace as the discoverer sees it: the relative paths of the
regular files under the workspace, and for every absolute root path the
tree `detectPackageManager` reads there. -/
structure WorkspaceEnv where
  workspacePath : String
  files : List String
  rootEnv : String → FsEnv

/-- The manifest file names of `MANIFEST_PATTERNS` (each pattern is
`**/<name>`). -/
def MANIFEST_NAMES : List String :=
  ["package.json", "requirements.txt", "pyproject.toml", "Cargo.toml",
   "composer.json", "pom.xml", "build.gradle", "go.mod"]

/-- The directory names of `IGNORE_PATTERNS` (each ignore pattern is
`**/<dir>/**`). -/
def WS_IGNORED_DIRS : List String :=
  ["node_modules", ".git", "dist", "build", "out", ".next", ".nuxt",
   "vendor"]

/-- Does a file match the `**/<name>` manifest glob under `dot: false` and
the ignore patterns? -/
def manifestMatch (name p : String) : Bool :=
  baseName p == name &&
  !((pathSegments p).any (fun s => jsStartsWith s ".")) &&
  !(ignoredAnywhere WS_IGNORED_DIRS p)

/-- Joining the non-final segments back into a path (`path.dirname` of an
absolute path). -/
def joinPathSegs (l : List (List Char)) : List Char :=
  match l with
  | [] => []
  | h :: t => t.foldl (fun acc s => acc ++ '/' :: s) h

/-- `path.dirname`. -/
def dirName (p : String) : String :=
  match (splitChars '/' p.data).dropLast with
  | [] => "."
  | segs => ⟨joinPathSegs segs⟩

/-- `roots.get(rootDir) ?? new Set(); existing.add(file); roots.set(...)`:
a JavaScript `Map` keeps first-insertion key order and the `Set` keeps
first-insertion element order. -/
def upsertRoot (acc : List (String × List String)) (rootDir file : String) :
    List (String × List String) :=
  if acc.any (fun e => e.1 == rootDir) then
    acc.map (fun e =>
      if e.1 == rootDir then
        (e.1, if e.2.contains file then e.2 else e.2 ++ [file])
      else e)
  else acc ++ [(rootDir, [file])]

/-- The manifest-collection loop of `detectWorkspaceProjects`
(lines 50-65): patterns in table order, matches in walker order, grouped by
containing directory. -/
def collectRoots (env : WorkspaceEnv) : List (String × List String) :=
  MANIFEST_NAMES.foldl
    (fun acc name =>
      (env.files.filter (fun p => manifestMatch name p)).foldl
        (fun acc file =>
          upsertRoot acc (dirName (env.workspacePath ++ "/" ++ file)) file)
        acc)
    []

/-- `String(n).padStart(3, Char 0)`. -/
def pad3 (n : Nat) : String :=
  let s := toString n
  if s.length < 3 then
    (⟨List.replicate (3 - s.length) '0'⟩ : String) ++ s
  else s

/-- `inferTypeHints` (lines 28-46). -/
def inferTypeHints (rootPath : String) : List String :=
  let normalized := jsToLower
    ⟨rootPath.data.map (fun c => if c == '\\' then '/' else c)⟩
  (if jsIncludes normalized "/client" || jsIncludes normalized "/frontend" ||
      jsIncludes normalized "/web" || jsIncludes normalized "/ui" then
    ["frontend"]
  else []) ++
  (if jsIncludes normalized "/server" || jsIncludes normalized "/backend" ||
      jsIncludes normalized "/api" then
    ["backend"]
  else []) ++
  (if jsIncludes normalized "/service" ||
      jsIncludes normalized "/services" then
    ["service"]
  else [])

/-- Code-point lexicographic comparison of two character lists. -/
def strLeGo : List Char → List Char → Bool
  | [], _ => true
  | _ :: _, [] => false
  | x :: xs, y :: ys =>
    if x < y then true
    else if y < x then false
    else strLeGo xs ys

/-- Code-point lexicographic string order: the determinization of
`a.localeCompare(b)` and of the default `Array.prototype.sort`
comparator. -/
def strLe (a b : String) : Bool := strLeGo a.data b.data

theorem strLeGo_total (a : List Char) :
    ∀ b, strLeGo a b = true ∨ strLeGo b a = true := by
  induction a with
  | nil => intro b; exact Or.inl rfl
  | cons x xs ih =>
    intro b
    cases b with
    | nil => exact Or.inr rfl
    | cons y ys =>
      by_cases hxy : x < y
      · left; simp [strLeGo, hxy]
      · by_cases hyx : y < x
        · right; simp [strLeGo, hyx]
        · rcases ih ys with h | h
          · left; simp [strLeGo, hxy, hyx, h]
          · right; simp [strLeGo, hxy, hyx, h]

theorem strLeGo_trans (a : List Char) :
    ∀ b c, strLeGo a b = true → strLeGo b c = true →
      strLeGo a c = true := by
  induction a with
  | nil => intro b c _ _; rfl
  | cons x xs ih =>
    intro b c hab hbc
    cases b with
    | nil => simp [strLeGo] at hab
    | cons y ys =>
      cases c with
      | nil => simp [strLeGo] at hbc
      | cons z zs =>
        by_cases hxy : x < y <;> by_cases hyz : y < z
        · have hxz : x < z := lt_trans hxy hyz
          simp [strLeGo, hxz]
        · by_cases hzy : z < y
          · exfalso
            simp [strLeGo, hyz, hzy] at hbc
          · have hyzeq : y = z := le_antisymm (not_lt.mp hzy) (not_lt.mp hyz)
            subst hyzeq
            simp [strLeGo, hxy]
        · by_cases hyx : y < x
          · exfalso
            simp [strLeGo, hxy, hyx] at hab
          · have hxyeq : x = y := le_antisymm (not_lt.mp hyx) (not_lt.mp hxy)
            subst hxyeq
            simp [strLeGo, hyz]
        · by_cases hyx : y < x
          · exfalso
            simp [strLeGo, hxy, hyx] at hab
          · by_cases hzy : z < y
            · exfalso
              simp [strLeGo, hyz, hzy] at hbc
            · have hxyeq : x = y :=
                le_antisymm (not_lt.mp hyx) (not_lt.mp hxy)
              have hyzeq : y = z :=
                le_antisymm (not_lt.mp hzy) (not_lt.mp hyz)
              subst hxyeq
              subst hyzeq
              simp [strLeGo, lt_irrefl] at hab hbc ⊢
              exact ih _ _ hab hbc

theorem strLe_total (a b : String) :
    strLe a b = true ∨ strLe b a = true := strLeGo_total a.data b.data

theorem strLe_trans {a b c : String} (h1 : strLe a b = true)
    (h2 : strLe b c = true) : strLe a c = true :=
  strLeGo_trans a.data b.data c.data h1 h2

/-- Root order: `([a], [b]) => a.localeCompare(b)`, determinized to the
code-point lexicographic order on the root path. -/
def byRootPath (a b : String × List String) : Prop := strLe a.1 b.1 = true

instance : DecidableRel byRootPath := fun a b =>
  inferInstanceAs (Decidable (strLe a.1 b.1 = true))

instance : IsTotal (String × List String) byRootPath :=
  ⟨fun a b => strLe_total a.1 b.1⟩

instance : IsTrans (String × List String) byRootPath :=
  ⟨fun _ _ _ h1 h2 => strLe_trans h1 h2⟩

/-- String order for `manifestFiles.sort()`. -/
def byStr (a b : String) : Prop := strLe a b = true

instance : DecidableRel byStr := fun a b =>
  inferInstanceAs (Decidable (strLe a b = true))

instance : IsTotal String byStr := ⟨fun a b => strLe_total a b⟩

instance : IsTrans String byStr := ⟨fun _ _ _ h1 h2 => strLe_trans h1 h2⟩

/-- The result-building loop of `detectWorkspaceProjects` (lines 74-86):
the id number is `results.length + 1`, the position of the root in the
sorted order. -/
def buildRoots (env : WorkspaceEnv) :
    Nat → List (String × List String) → List WorkspaceProjectRoot
  | _, [] => []
  | i, root :: rest =>
    let pmInfo := Dependencies.detectPackageManager (env.rootEnv root.1)
    { id := "proj-" ++ pad3 (i + 1)
      rootPath := root.1
      name := baseName root.1
      manifestFiles := List.insertionSort byStr root.2
      packageManagers := pmInfo.1
      hasLockFile := pmInfo.2
      typeHints := inferTypeHints root.1 } :: buildRoots env (i + 1) rest

/-- `detectWorkspaceProjects` (lines 48-88). -/
def detectWorkspaceProjects (env : WorkspaceEnv) :
    List WorkspaceProjectRoot :=
  let roots := collectRoots env
  let roots := if roots.isEmpty then [(env.workspacePath, [])] else roots
  buildRoots env 0 (List.insertionSort byRootPath roots)

theorem buildRoots_map_rootPath (env : WorkspaceEnv) :
    ∀ (i : Nat) (l : List (String × List String)),
      (buildRoots env i l).map (fun r => r.rootPath) = l.map Prod.fst := by
  intro i l
  induction l generalizing i with
  | nil => rfl
  | cons root rest ih =>
    simp [buildRoots, ih]

theorem buildRoots_map_id (env : WorkspaceEnv) :
    ∀ (i : Nat) (l : List (String × List String)),
      (buildRoots env i l).map (fun r => r.id) =
        (List.range l.length).map (fun k => "proj-" ++ pad3 (i + k + 1)) := by
  intro i l
  induction l generalizing i with
  | nil => rfl
  | cons root rest ih =>
    simp only [buildRoots, List.map_cons, List.length_cons,
      List.range_succ_eq_map, List.map_map, ih, Nat.add_zero]
    refine congrArg₂ List.cons rfl ?_
    apply List.map_congr_left
    intro k _
    simp only [Function.comp_apply, Nat.succ_eq_add_one]
    congr 1
    congr 1
    omega

theorem buildRoots_length (env : WorkspaceEnv) :
    ∀ (i : Nat) (l : List (String × List String)),
      (buildRoots env i l).length = l.length := by
  intro i l
  induction l generalizing i with
  | nil => rfl
  | cons root rest ih => simp [buildRoots, ih]

theorem upsertRoot_map_fst (acc : List (String × List String))
    (rootDir file : String) :
    (upsertRoot acc rootDir file).map Prod.fst =
      if acc.any (fun e => e.1 == rootDir) then acc.map Prod.fst
      else acc.map Prod.fst ++ [rootDir] := by
  unfold upsertRoot
  split
  · rw [List.map_map]
    apply List.map_congr_left
    intro e _
    simp only [Function.comp_apply]
    split <;> rfl
  · simp

theorem upsertRoot_fst_nodup (acc : List (String × List String))
    (rootDir file : String) (h : (acc.map Prod.fst).Nodup) :
    ((upsertRoot acc rootDir file).map Prod.fst).Nodup := by
  rw [upsertRoot_map_fst]
  split
  · exact h
  · rename_i hnone
    rw [List.nodup_append]
    refine ⟨h, List.nodup_singleton _, ?_⟩
    intro a ha hb
    rw [List.mem_singleton] at hb
    subst hb
    rcases List.mem_map.mp ha with ⟨e, he, hfst⟩
    exact hnone (List.any_eq_true.mpr
      ⟨e, he, by rw [beq_iff_eq]; exact hfst⟩)

theorem foldl_upsert_fst_nodup (dirOf : String → String) :
    ∀ (l : List String) (acc : List (String × List String)),
      (acc.map Prod.fst).Nodup →
      ((l.foldl (fun acc file => upsertRoot acc (dirOf file) file)
        acc).map Prod.fst).Nodup := by
  intro l
  induction l with
  | nil => intro acc h; exact h
  | cons f rest ih =>
    intro acc h
    exact ih _ (upsertRoot_fst_nodup acc (dirOf f) f h)

theorem collectRoots_fst_nodup (env : WorkspaceEnv) :
    ((collectRoots env).map Prod.fst).Nodup := by
  unfold collectRoots
  generalize MANIFEST_NAMES = names
  have base : (([] : List (String × List String)).map Prod.fst).Nodup := by
    simp
  revert base
  generalize ([] : List (String × List String)) = acc
  induction names generalizing acc with
  | nil => intro h; exact h
  | cons n rest ih =>
    intro h
    simp only [List.foldl_cons]
    exact ih _ (foldl_upsert_fst_nodup _ _ acc h)

theorem detectWorkspaceProjects_eq_of_empty (env : WorkspaceEnv)
    (hc : collectRoots env = []) :
    detectWorkspaceProjects env =
      buildRoots env 0 [(env.workspacePath, [])] := by
  unfold detectWorkspaceProjects
  rw [hc]
  rfl

theorem detectWorkspaceProjects_eq_of_nonempty (env : WorkspaceEnv)
    (hc : collectRoots env ≠ []) :
    detectWorkspaceProjects env =
      buildRoots env 0 (List.insertionSort byRootPath (collectRoots env)) := by
  rcases e : collectRoots env with _ | ⟨r, rest⟩
  · exact absurd e hc
  · unfold detectWorkspaceProjects
    rw [e]
    rfl

/-- C9: `detectWorkspaceProjects` groups the discovered manifests into one
root per distinct containing directory, falls back to the workspace path
when no manifest matches, sorts the roots by path and assigns the ids
positionally: `proj-001`, `proj-002`, … in sorted order, so each root's id
is determined by the set of discovered directories. -/
theorem detectWorkspaceProjects_spec (env : WorkspaceEnv) :
    (detectWorkspaceProjects env).map (fun r => r.id) =
      (List.range (detectWorkspaceProjects env).length).map
        (fun k => "proj-" ++ pad3 (k + 1)) ∧
    List.Pairwise (fun a b => strLe a b = true)
      ((detectWorkspaceProjects env).map (fun r => r.rootPath)) ∧
    ((detectWorkspaceProjects env).map (fun r => r.rootPath)).Nodup ∧
    (collectRoots env = [] →
      (detectWorkspaceProjects env).map (fun r => r.rootPath) =
        [env.workspacePath]) ∧
    (collectRoots env ≠ [] → ∀ d,
      (d ∈ (detectWorkspaceProjects env).map (fun r => r.rootPath)) ↔
        d ∈ (collectRoots env).map Prod.fst) := by
  by_cases hc : collectRoots env = []
  · have hrs := detectWorkspaceProjects_eq_of_empty env hc
    refine ⟨?_, ?_, ?_, fun _ => ?_, fun hne => absurd hc hne⟩
    · rw [hrs, buildRoots_map_id, buildRoots_length]
      apply List.map_congr_left
      intro k _
      simp
    · rw [hrs, buildRoots_map_rootPath]
      simp
    · rw [hrs, buildRoots_map_rootPath]
      simp
    · rw [hrs, buildRoots_map_rootPath]
      rfl
  · have hrs := detectWorkspaceProjects_eq_of_nonempty env hc
    have hperm : ((List.insertionSort byRootPath
        (collectRoots env)).map Prod.fst).Perm
        ((collectRoots env).map Prod.fst) :=
      (List.perm_insertionSort byRootPath (collectRoots env)).map Prod.fst
    refine ⟨?_, ?_, ?_, fun hemp => absurd hemp hc, fun _ d => ?_⟩
    · rw [hrs, buildRoots_map_id, buildRoots_length]
      apply List.map_congr_left
      intro k _
      simp
    · rw [hrs, buildRoots_map_rootPath]
      have hs := List.sorted_insertionSort byRootPath (collectRoots env)
      exact List.Pairwise.map Prod.fst (fun a b h => h) hs
    · rw [hrs, buildRoots_map_rootPath]
      exact hperm.nodup_iff.mpr (collectRoots_fst_nodup env)
    · rw [hrs, buildRoots_map_rootPath]
      exact hperm.mem_iff

end Workspace

/-! ### `src/src/analyze/index.ts`: the aggregator

The aggregator awaits one detector per phase. The embedding passes each
detector call's awaited outcome through the environment as an
`Except String` value (`.error` = the underlying promise rejected with that
message, exactly what the aggregator's `catch` sees). The cancellation
token is rendered by the loop-iteration index at which
`isCancellationRequested` first reads true. -/

/-- One technology entry (`TechnologyDescriptor`). -/
structure TechnologyDescriptor where
  name : String
  version : Option String := none
  kind : String
deriving Repr, DecidableEq

/-- The testing phase result. `detectTestingTools` returns a wide record;
the aggregator reads only `frameworks` and `e2eTools` (for `hasTests`) and
stores the value opaquely, so the embedding carries those two fields. -/
structure TestingAnalysisM where
  frameworks : List String := []
  e2eTools : List String := []
deriving Repr, DecidableEq

/-- The result of the helpers module `analyzeProjectStructure`
(`structure.ts` lines 4-41): all five keys always present. -/
structure FileStructureInfo where
  entryPoints : List String := []
  configFiles : List String := []
  testDirectories : List String := []
  sourceDirectories : List String := []
  buildOutputs : List String := []
deriving Repr, DecidableEq

/-- The result of `extractProjectMetadata` (lines 223-258): `name` is set
on both the success and the failure path; the remaining keys carry whatever
`package.json` holds (absent when it does). -/
structure ProjectMetadata where
  name : String
  version : Option String := none
  description : Option String := none
  license : Option String := none
  author : Option String := none
  repository : Option String := none
  mainEntry : Option String := none
deriving Repr, DecidableEq

/-- The `projectInfo` record: starts `{}`, every key is written by some
phase. -/
structure ProjectInfo where
  name : Option String := none
  version : Option String := none
  description : Option String := none
  license : Option String := none
  author : Option String := none
  repository : Option String := none
  mainEntry : Option String := none
  hasTypeScript : Option Bool := none
  hasLinting : Option Bool := none
  hasCI : Option Bool := none
  hasDocker : Option Bool := none
  hasTests : Option Bool := none
  hasDocumentation : Option Bool := none
deriving Repr, DecidableEq

/-- The `fileStructure` record: starts `{}`. -/
structure FileStructure where
  configFiles : Option (List String) := none
  entryPoints : Option (List String) := none
  testDirectories : Option (List String) := none
  sourceDirectories : Option (List String) := none
  buildOutputs : Option (List String) := none
deriving Repr, DecidableEq

/-- One component of `buildComponentsFromAnalysis`
(`ComponentAnalysis`). -/
structure ComponentAnalysis where
  id : String
  kind : String
  name : String
  technologies : List TechnologyDescriptor
  frontend : Option FrontendAnalysis := none
  backend : Option BackendAnalysis := none
  rootPath : String
  languages : List String
  packageManagers : List String
  hasLockFile : Bool
  dependencies : Option Dependencies.DependencyAnalysis
  testing : Option TestingAnalysisM
  fileStructure : FileStructure
deriving Repr, DecidableEq

/-- The profile `analyzeProject` accumulates (`ProjectAnalysis`). A `none`
field was never written (the key is absent at run time). -/
structure ProjectAnalysis where
  projectInfo : ProjectInfo := {}
  fileStructure : FileStructure := {}
  projectLastModified : Option String := none
  languages : Option (List String) := none
  frontend : Option FrontendAnalysis := none
  backend : Option BackendAnalysis := none
  testing : Option TestingAnalysisM := none
  dependencies : Option Dependencies.DependencyAnalysis := none
  rootPath : Option String := none
  components : Option (List ComponentAnalysis) := none
  projectId : Option String := none
  projectTypeHints : Option (List String) := none
deriving Repr, DecidableEq

namespace Analyze

/-- `[a-z0-9]`. -/
def isIdChar (c : Char) : Bool :=
  ('a' ≤ c && c ≤ 'z') || c.isDigit

/-- `replace(/[^a-z0-9]+/g, Char dash)`: each maximal run of other
characters becomes one dash. -/
def sanitizeCore (l : List Char) : List Char :=
  (l.foldl
    (fun (acc : List Char × Bool) c =>
      if isIdChar c then (acc.1 ++ [c], false)
      else if acc.2 then acc
      else (acc.1 ++ ['-'], true))
    ([], false)).1

/-- `sanitizeId` (lines 404-409): lower, collapse, strip one leading and
one trailing dash (all `/(^-|-$)/g` can match), default to "project". -/
def sanitizeId (value : String) : String :=
  let collapsed := sanitizeCore (jsToLower value).data
  let s1 := match collapsed with
    | '-' :: t => t
    | t => t
  let s2 := match s1.reverse with
    | '-' :: t => t.reverse
    | _ => s1
  if s2.isEmpty then "project" else ⟨s2⟩

/-- `collectFrontendTechnologies` (lines 311-352). -/
def collectFrontendTechnologies (a : ProjectAnalysis) :
    List TechnologyDescriptor :=
  match a.frontend with
  | none => []
  | some frontend =>
    let st : List TechnologyDescriptor × List String :=
      if !frontend.framework.name.isEmpty &&
          !(frontend.framework.name == "Unknown") then
        ([{ name := frontend.framework.name,
            version := frontend.framework.version, kind := "framework" }],
         [frontend.framework.name])
      else ([], [])
    let st :=
      if frontend.frameworks.length > 0 then
        frontend.frameworks.foldl
          (fun (st : List TechnologyDescriptor × List String) fw =>
            if fw.name.isEmpty || fw.name == "Unknown" ||
                st.2.contains fw.name then st
            else
              let td : TechnologyDescriptor :=
                { name := fw.name, version := fw.version,
                  kind := "framework" }
              (st.1 ++ [td], st.2 ++ [fw.name]))
          st
      else st
    let techs := st.1
    let techs := techs ++
      (if frontend.metaFrameworks.length > 0 then
        frontend.metaFrameworks.map (fun m =>
          { name := m, kind := "meta-framework" })
      else [])
    let techs := techs ++
      (match frontend.buildTool with
       | some bt =>
         if bt.isEmpty then []
         else
           [{ name := bt, version := frontend.buildToolVersion, kind := "build-tool" }]
       | none => [])
    let techs := techs ++
      (match frontend.cssFramework with
       | some c => if c.isEmpty then [] else [{ name := c, kind := "css" }]
       | none => [])
    let techs := techs ++
      (match frontend.uiLibrary with
       | some u => if u.isEmpty then [] else [{ name := u, kind := "ui" }]
       | none => [])
    techs

/-- `collectBackendTechnologies` (lines 354-402). -/
def collectBackendTechnologies (a : ProjectAnalysis) :
    List TechnologyDescriptor :=
  match a.backend with
  | none => []
  | some backend =>
    let st : List TechnologyDescriptor × List String :=
      if !backend.framework.name.isEmpty &&
          !(backend.framework.name == "Unknown") then
        ([{ name := backend.framework.name,
            version := backend.framework.version, kind := "framework" }],
         [backend.framework.name])
      else ([], [])
    let st :=
      if backend.frameworks.length > 0 then
        backend.frameworks.foldl
          (fun (st : List TechnologyDescriptor × List String) fw =>
            if fw.name.isEmpty || fw.name == "Unknown" ||
                st.2.contains fw.name then st
            else
              let td : TechnologyDescriptor :=
                { name := fw.name, version := fw.version,
                  kind := "framework" }
              (st.1 ++ [td], st.2 ++ [fw.name]))
          st
      else st
    let techs := st.1
    let techs := techs ++
      (match backend.runtime with
       | some r =>
         if r.isEmpty then [] else [{ name := r, kind := "runtime" }]
       | none => [])
    let techs := techs ++
      (if backend.database.length > 0 then
        backend.database.map (fun db => { name := db, kind := "database" })
      else [])
    let techs := techs ++
      (match backend.orm with
       | some o => if o.isEmpty then [] else [{ name := o, kind := "orm" }]
       | none => [])
    let techs := techs ++
      (match backend.server with
       | some s =>
         if s.isEmpty then [] else [{ name := s, kind := "service" }]
       | none => [])
    techs

/-- `buildComponentsFromAnalysis` (lines 260-309). -/
def buildComponentsFromAnalysis (a : ProjectAnalysis) :
    List ComponentAnalysis :=
  let baseId := match a.projectInfo.name with
    | some n => if n.isEmpty then "project" else sanitizeId n
    | none => "project"
  let rootPath := a.rootPath.getD ""
  let languages := a.languages.getD []
  let packageManagers := match a.dependencies with
    | some d => d.packageManagers
    | none => []
  let hasLockFile := match a.dependencies with
    | some d => d.hasLockFile
    | none => false
  let frontendOk := match a.frontend with
    | some fe => !fe.framework.name.isEmpty &&
        !(fe.framework.name == "Unknown")
    | none => false
  let backendOk := match a.backend with
    | some be => !be.framework.name.isEmpty &&
        !(be.framework.name == "Unknown")
    | none => false
  let comps : List ComponentAnalysis :=
    (if frontendOk then
      [{ id := baseId ++ "-frontend-1"
         kind := "frontend"
         name := a.projectInfo.name.getD "Project" ++ " Frontend"
         technologies := collectFrontendTechnologies a
         frontend := a.frontend
         rootPath := rootPath
         languages := languages
         packageManagers := packageManagers
         hasLockFile := hasLockFile
         dependencies := a.dependencies
         testing := a.testing
         fileStructure := a.fileStructure }]
    else []) ++
    (if backendOk then
      [{ id := baseId ++ "-backend-1"
         kind := "backend"
         name := a.projectInfo.name.getD "Project" ++ " Backend"
         technologies := collectBackendTechnologies a
         backend := a.backend
         rootPath := rootPath
         languages := languages
         packageManagers := packageManagers
         hasLockFile := hasLockFile
         dependencies := a.dependencies
         testing := a.testing
         fileStructure := a.fileStructure }]
    else [])
  if comps.isEmpty then
    [{ id := baseId ++ "-unknown-1"
       kind := "unknown"
       name := a.projectInfo.name.getD "Project"
       technologies := []
       rootPath := rootPath
       languages := languages
       packageManagers := packageManagers
       hasLockFile := hasLockFile
       dependencies := a.dependencies
       testing := a.testing
       fileStructure := a.fileStructure }]
  else comps

/-- The environment of one `analyzeProject` run: `rootExists` is the
`pathExists` probe, `stat` the `fs.stat` call (its `.ok` value the mtime
ISO string), and each further field one detector call's awaited outcome. -/
structure PipelineEnv where
  path : String
  rootExists : Bool
  stat : Except String String
  cancelAt : Option Nat := none
  languages : Except String (List String)
  configFiles : Except String (List String)
  frontend : Except String FrontendAnalysis
  backend : Except String BackendAnalysis
  testing : Except String TestingAnalysisM
  dependencies : Except String Dependencies.DependencyAnalysis
  structureInfo : Except String FileStructureInfo
  documentation : Except String Bool
  metadata : Except String ProjectMetadata

/-- `token?.isCancellationRequested` at loop iteration `i`. -/
def isCancelled (env : PipelineEnv) (i : Nat) : Bool :=
  match env.cancelAt with
  | some k => decide (k ≤ i)
  | none => false

/-- `startPhase` (lines 118-196) at phase index `i` of the fixed phase list
(LANGUAGE, CONFIGURATION, FRAMEWORK, TESTING, DEPENDENCY,
PROJECT_STRUCTURE, DOCUMENTATION, METADATA). The FRAMEWORK phase awaits
`Promise.all` of the frontend and the backend detector; a double rejection
is determinized to the frontend's error. -/
def startPhase (env : PipelineEnv) (i : Nat) (a : ProjectAnalysis) :
    Except String ProjectAnalysis :=
  match i with
  | 0 =>
    match env.languages with
    | .error e => .error e
    | .ok ls =>
      .ok { a with
        languages := some ls
        projectInfo := { a.projectInfo with
          hasTypeScript := some (ls.contains "TypeScript") } }
  | 1 =>
    match env.configFiles with
    | .error e => .error e
    | .ok cf =>
      .ok { a with
        fileStructure := { a.fileStructure with configFiles := some cf }
        projectInfo := { a.projectInfo with
          hasLinting := some (cf.any (fun f =>
            jsIncludes f "eslint" || jsIncludes f ".prettierrc" ||
            jsIncludes f ".stylelintrc"))
          hasCI := some (cf.any (fun f =>
            jsIncludes f ".github/workflows" ||
            jsIncludes f ".gitlab-ci.yml" ||
            jsIncludes f ".travis.yml" ||
            jsIncludes f "azure-pipelines.yml"))
          hasDocker := some (cf.any (fun f =>
            jsIncludes f "Dockerfile" || jsIncludes f "docker-compose")) } }
  | 2 =>
    match env.frontend with
    | .error e => .error e
    | .ok fe =>
      match env.backend with
      | .error e => .error e
      | .ok be => .ok { a with frontend := some fe, backend := some be }
  | 3 =>
    match env.testing with
    | .error e => .error e
    | .ok t =>
      .ok { a with
        testing := some t
        projectInfo := { a.projectInfo with
          hasTests := some
            (t.frameworks.length > 0 || t.e2eTools.length > 0) } }
  | 4 =>
    match env.dependencies with
    | .error e => .error e
    | .ok d => .ok { a with dependencies := some d }
  | 5 =>
    match env.structureInfo with
    | .error e => .error e
    | .ok si =>
      .ok { a with fileStructure := {
        configFiles := some si.configFiles
        entryPoints := some si.entryPoints
        testDirectories := some si.testDirectories
        sourceDirectories := some si.sourceDirectories
        buildOutputs := some si.buildOutputs } }
  | 6 =>
    match env.documentation with
    | .error e => .error e
    | .ok b =>
      .ok { a with projectInfo :=
        { a.projectInfo with hasDocumentation := some b } }
  | 7 =>
    match env.metadata with
    | .error e => .error e
    | .ok m =>
      .ok { a with projectInfo := { a.projectInfo with
        name := some m.name
        version := m.version
        description := m.description
        license := m.license
        author := m.author
        repository := m.repository
        mainEntry := m.mainEntry } }
  | _ => .ok a

/-- The phase loop (lines 38-44) over the list of phase indices: a
cancellation check before each phase, `break` on cancellation, the awaited
phase error aborting the loop. -/
def runPhases (env : PipelineEnv) :
    List Nat → ProjectAnalysis → Except String ProjectAnalysis
  | [], a => .ok a
  | i :: rest, a =>
    if isCancelled env i then .ok a
    else
      match startPhase env i a with
      | .error e => .error e
      | .ok a2 => runPhases env rest a2

/-- The two statements after the phase loop (lines 46-47): `rootPath` and
`components` are written even when the loop was cut short; an error passes
through. -/
def finishAnalysis (env : PipelineEnv) (r : Except String ProjectAnalysis) :
    Except String ProjectAnalysis :=
  match r with
  | .error e => .error e
  | .ok a =>
    let a2 := { a with rootPath := some env.path }
    .ok { a2 with components := some (buildComponentsFromAnalysis a2) }

/-- `analyzeProject` (lines 8-54). The surrounding `catch` rethrows
`new Error(errorMsg)` with the caught error's message, so an inner failure
passes through with its message intact; `pathExists` throws the quoted
message when the root is missing. -/
def analyzeProject (env : PipelineEnv) : Except String ProjectAnalysis :=
  if env.rootExists then
    env.stat.bind (fun mtime =>
      finishAnalysis env
        (runPhases env (List.range 8) { projectLastModified := some mtime }))
  else .error ("Project path does not exist: " ++ env.path)

end Analyze

namespace Analyze

/-- One entry of the workspace summary (`WorkspaceComponentRef`). -/
structure WorkspaceComponentRef where
  projectId : String
  componentId : String
  name : String
  rootPath : String
  kind : String
  frameworks : List String
deriving Repr, DecidableEq

/-- The `summary` of a `WorkspaceAnalysis`. -/
structure WorkspaceSummary where
  projectCount : Nat
  frontendComponents : List WorkspaceComponentRef
  backendComponents : List WorkspaceComponentRef
deriving Repr, DecidableEq

/-- The result of `analyzeWorkspace` (`WorkspaceAnalysis`). -/
structure WorkspaceAnalysis where
  roots : List WorkspaceProjectRoot
  projects : List ProjectAnalysis
  summary : WorkspaceSummary
deriving Repr, DecidableEq

/-- `deriveProjectTypeHints` (lines 246-258). -/
def deriveProjectTypeHints (a : ProjectAnalysis)
    (root : WorkspaceProjectRoot) : List String :=
  let hints := dedupFirst root.typeHints
  let frontendOk := match a.frontend with
    | some fe => !fe.framework.name.isEmpty &&
        !(fe.framework.name == "Unknown")
    | none => false
  let backendOk := match a.backend with
    | some be => !be.framework.name.isEmpty &&
        !(be.framework.name == "Unknown")
    | none => false
  let hints :=
    if frontendOk then
      if hints.contains "frontend" then hints else hints ++ ["frontend"]
    else hints
  if backendOk then
    if hints.contains "backend" then hints else hints ++ ["backend"]
  else hints

/-- The environment of one `analyzeWorkspace` run: the workspace existence
probe, the discoverer's view of the tree, each root's pipeline environment
(keyed by its root path), and the per-root cancellation index. -/
structure WorkspaceAnalyzeEnv where
  wsExists : Bool
  discovery : Workspace.WorkspaceEnv
  perRoot : String → PipelineEnv
  cancelRootAt : Option Nat := none

/-- `token?.isCancellationRequested` at root-loop iteration `i`. -/
def rootCancelled (env : WorkspaceAnalyzeEnv) (i : Nat) : Bool :=
  match env.cancelRootAt with
  | some k => decide (k ≤ i)
  | none => false

/-- The summary references of one analyzed root (lines 78-104):
`component.name` is always a string, so the `?? root.name` fallback never
fires. -/
def componentRefs (root : WorkspaceProjectRoot) (a : ProjectAnalysis)
    (kind : String) : List WorkspaceComponentRef :=
  (a.components.getD []).filterMap (fun c =>
    if c.kind == kind then
      some { projectId := root.id
             componentId := c.id
             name := c.name
             rootPath := c.rootPath
             kind := kind
             frameworks := (c.technologies.filter (fun t =>
               t.kind == "framework")).map (fun t => t.name) }
    else none)

/-- The root loop of `analyzeWorkspace` (lines 69-105): cancellation break,
error propagation (no catch around `analyzeProject`), per-root decoration
and summary collection. -/
def workspaceLoop (env : WorkspaceAnalyzeEnv) :
    List WorkspaceProjectRoot → Nat →
    Except String
      (List ProjectAnalysis × List WorkspaceComponentRef ×
        List WorkspaceComponentRef)
  | [], _ => .ok ([], [], [])
  | root :: rest, i =>
    if rootCancelled env i then .ok ([], [], [])
    else
      match analyzeProject (env.perRoot root.rootPath) with
      | .error e => .error e
      | .ok a0 =>
        let a := { a0 with
          projectId := some root.id
          rootPath := some root.rootPath
          projectTypeHints := some (deriveProjectTypeHints a0 root) }
        match workspaceLoop env rest (i + 1) with
        | .error e => .error e
        | .ok r =>
          .ok (a :: r.1, componentRefs root a "frontend" ++ r.2.1,
            componentRefs root a "backend" ++ r.2.2)

/-- `analyzeWorkspace` (lines 56-116). -/
def analyzeWorkspace (env : WorkspaceAnalyzeEnv) :
    Except String WorkspaceAnalysis :=
  if env.wsExists then
    let roots := Workspace.detectWorkspaceProjects env.discovery
    match workspaceLoop env roots 0 with
    | .error e => .error e
    | .ok r =>
      .ok { roots := roots
            projects := r.1
            summary := { projectCount := r.1.length
                         frontendComponents := r.2.1
                         backendComponents := r.2.2 } }
  else
    .error ("Project path does not exist: " ++
      env.discovery.workspacePath)

end Analyze

namespace Analyze

/-- Did the detector call of phase `i` succeed? -/
def phaseOk (env : PipelineEnv) (i : Nat) : Bool :=
  match i with
  | 0 => env.languages.isOk
  | 1 => env.configFiles.isOk
  | 2 => env.frontend.isOk && env.backend.isOk
  | 3 => env.testing.isOk
  | 4 => env.dependencies.isOk
  | 5 => env.structureInfo.isOk
  | 6 => env.documentation.isOk
  | 7 => env.metadata.isOk
  | _ => true

theorem startPhase_isOk (env : PipelineEnv) (i : Nat) (a : ProjectAnalysis) :
    (startPhase env i a).isOk = phaseOk env i := by
  rcases i with _ | _ | _ | _ | _ | _ | _ | _ | n
  · cases h : env.languages <;> simp only [startPhase, phaseOk, h] <;> rfl
  · cases h : env.configFiles <;> simp only [startPhase, phaseOk, h] <;> rfl
  · cases h1 : env.frontend <;> cases h2 : env.backend <;>
      simp only [startPhase, phaseOk, h1, h2] <;> rfl
  · cases h : env.testing <;> simp only [startPhase, phaseOk, h] <;> rfl
  · cases h : env.dependencies <;>
      simp only [startPhase, phaseOk, h] <;> rfl
  · cases h : env.structureInfo <;>
      simp only [startPhase, phaseOk, h] <;> rfl
  · cases h : env.documentation <;>
      simp only [startPhase, phaseOk, h] <;> rfl
  · cases h : env.metadata <;> simp only [startPhase, phaseOk, h] <;> rfl
  · rfl

theorem exceptIsOk_ok {ε α : Type} (x : α) :
    (Except.ok x : Except ε α).isOk = true := rfl

theorem exceptIsOk_error {ε α : Type} (e : ε) :
    (Except.error e : Except ε α).isOk = false := rfl

theorem isCancelled_mono (env : PipelineEnv) {i j : Nat} (hij : i ≤ j)
    (h : isCancelled env i = true) : isCancelled env j = true := by
  unfold isCancelled at h ⊢
  cases hca : env.cancelAt with
  | none => rw [hca] at h; cases h
  | some k =>
    rw [hca] at h
    have hk : k ≤ i := of_decide_eq_true h
    have hkj : k ≤ j := le_trans hk hij
    exact decide_eq_true hkj

theorem runPhases_isOk (env : PipelineEnv) (l : List Nat)
    (hp : l.Pairwise Nat.le) (a : ProjectAnalysis) :
    (runPhases env l a).isOk =
      l.all (fun j => isCancelled env j || phaseOk env j) := by
  induction l generalizing a with
  | nil => rfl
  | cons i rest ih =>
    rw [List.pairwise_cons] at hp
    by_cases hc : isCancelled env i = true
    · have hall : rest.all
          (fun j => isCancelled env j || phaseOk env j) = true := by
        rw [List.all_eq_true]
        intro j hj
        rw [Bool.or_eq_true]
        exact Or.inl (isCancelled_mono env (hp.1 j hj) hc)
      simp [runPhases, hc, hall, exceptIsOk_ok]
    · rw [Bool.not_eq_true] at hc
      cases hs : startPhase env i a with
      | error e =>
        have : phaseOk env i = false := by
          rw [← startPhase_isOk env i a, hs]
          rfl
        simp [runPhases, hc, hs, this, exceptIsOk_error]
      | ok a2 =>
        have : phaseOk env i = true := by
          rw [← startPhase_isOk env i a, hs]
          rfl
        simp [runPhases, hc, hs, this, ih hp.2]

/-- C1 (amended): `analyzeProject` returns a profile exactly when the root
exists, the `fs.stat` call succeeds, and every phase that runs before the
cancellation boundary succeeds; any phase failure is rethrown by the
aggregator's catch (with its message intact), not absorbed. -/
theorem analyzeProject_ok_iff (env : PipelineEnv) :
    (analyzeProject env).isOk =
      (env.rootExists && env.stat.isOk &&
        (List.range 8).all (fun i =>
          isCancelled env i || phaseOk env i)) := by
  have hfin : ∀ (r : Except String ProjectAnalysis),
      (finishAnalysis env r).isOk = r.isOk := by
    intro r
    cases r <;> rfl
  unfold analyzeProject
  by_cases hroot : env.rootExists
  · rw [if_pos hroot, hroot]
    cases hstat : env.stat with
    | error e => rfl
    | ok mtime =>
      have hrun := runPhases_isOk env (List.range 8)
        ((List.pairwise_lt_range 8).imp (fun h => Nat.le_of_lt h))
        { projectLastModified := some mtime }
      simp only [Except.bind]
      rw [hfin, hrun]
      rfl
  · rw [if_neg hroot]
    rw [Bool.not_eq_true] at hroot
    rw [hroot]
    rfl

end Analyze

/-- An existing root whose DEPENDENCY phase rejects (its
`analyzeDependencies` rethrows a read error) while every other phase
succeeds. -/
def depFailureEnv : Analyze.PipelineEnv where
  path := "/proj"
  rootExists := true
  stat := .ok "2024-01-01T00:00:00.000Z"
  cancelAt := none
  languages := .ok ["TypeScript"]
  configFiles := .ok []
  frontend := .ok Frontend.baseAnalysis
  backend := .ok Backend.createBackendAnalysisBase
  testing := .ok {}
  dependencies := .error "ENOENT: cannot read package.json"
  structureInfo := .ok {}
  documentation := .ok false
  metadata := .ok { name := "demo" }

/-- C1 (counterexample): the spec says a phase failure is caught, the
phase's fields keep defaults and `analyzeProject` still returns a profile.
With an existing root and a failing DEPENDENCY phase, `analyzeProject`
rethrows the error instead of returning a profile: its catch block throws
`new Error(errorMsg)`, it has no per-phase error handling. -/
theorem analyzeProject_dependency_failure_rethrown :
    depFailureEnv.rootExists = true ∧
    Analyze.analyzeProject depFailureEnv =
      .error "ENOENT: cannot read package.json" := by
  constructor
  · rfl
  · rfl

namespace Analyze

theorem isOk_exists {ε α : Type} {x : Except ε α} (h : x.isOk = true) :
    ∃ v, x = .ok v := by
  cases x with
  | error e => rw [exceptIsOk_error] at h; cases h
  | ok v => exact ⟨v, rfl⟩

theorem isCancelled_eq (env : PipelineEnv) {k : Nat}
    (hcancel : env.cancelAt = some k) (i : Nat) :
    isCancelled env i = decide (k ≤ i) := by
  unfold isCancelled
  rw [hcancel]

theorem analyzeProject_unfolded (env : PipelineEnv) {mt : String}
    (hroot : env.rootExists = true) (hmt : env.stat = .ok mt) :
    analyzeProject env =
      finishAnalysis env (runPhases env [0, 1, 2, 3, 4, 5, 6, 7]
        { projectLastModified := some mt }) := by
  unfold analyzeProject
  rw [if_pos hroot, hmt]
  rfl

end Analyze

namespace Analyze

/-- The cancellation profile: the phases before the boundary populated from
their detector results, every later phase's fields absent, `rootPath` and
`components` still written. -/
def cancellationProfileSpec (env : PipelineEnv) (k : Nat) : Prop :=
  ∃ a, analyzeProject env = .ok a ∧
    a.languages = (if 0 < k then env.languages.toOption else none) ∧
    a.frontend = (if 2 < k then env.frontend.toOption else none) ∧
    a.backend = (if 2 < k then env.backend.toOption else none) ∧
    a.testing = (if 3 < k then env.testing.toOption else none) ∧
    a.dependencies = (if 4 < k then env.dependencies.toOption else none) ∧
    a.fileStructure.entryPoints =
      (if 5 < k then env.structureInfo.toOption.map (fun s => s.entryPoints)
       else none) ∧
    a.fileStructure.configFiles =
      (if 5 < k then env.structureInfo.toOption.map (fun s => s.configFiles)
       else if 1 < k then env.configFiles.toOption else none) ∧
    a.projectInfo.hasDocumentation =
      (if 6 < k then env.documentation.toOption else none) ∧
    a.projectInfo.name =
      (if 7 < k then env.metadata.toOption.map (fun m => m.name)
       else none) ∧
    a.rootPath = some env.path ∧
    a.components.isSome = true

/-- C3 (amended): a cancellation observed at phase boundary `k` returns the
profile (no error) with the phases before `k` populated and every later
phase's fields ABSENT (`undefined`), not at zero-value defaults. -/
theorem analyzeProject_cancellation_profile (env : PipelineEnv) (k : Nat)
    (hroot : env.rootExists = true)
    (hstat : env.stat.isOk = true)
    (hcancel : env.cancelAt = some k)
    (hok : ∀ i, i < k → phaseOk env i = true) :
    cancellationProfileSpec env k := by
  obtain ⟨mt, hmt⟩ := isOk_exists hstat
  unfold cancellationProfileSpec
  rcases k with _ | _ | _ | _ | _ | _ | _ | _ | n
  -- cancellation at phase boundary 0
  · rw [analyzeProject_unfolded env hroot hmt]
    simp only [runPhases, isCancelled_eq env hcancel, startPhase, finishAnalysis]
    refine ⟨_, rfl, ?_, ?_, ?_, ?_, ?_, ?_, ?_, ?_, ?_, ?_, ?_⟩ <;>
      simp [Except.toOption]
  -- cancellation at phase boundary 1
  · obtain ⟨ls, hls⟩ := isOk_exists (hok 0 (by omega))
    rw [analyzeProject_unfolded env hroot hmt]
    simp only [runPhases, isCancelled_eq env hcancel, startPhase, finishAnalysis, hls]
    refine ⟨_, rfl, ?_, ?_, ?_, ?_, ?_, ?_, ?_, ?_, ?_, ?_, ?_⟩ <;>
      simp [Except.toOption, hls]
  -- cancellation at phase boundary 2
  · obtain ⟨ls, hls⟩ := isOk_exists (hok 0 (by omega))
    obtain ⟨cf, hcf⟩ := isOk_exists (hok 1 (by omega))
    rw [analyzeProject_unfolded env hroot hmt]
    simp only [runPhases, isCancelled_eq env hcancel, startPhase, finishAnalysis, hls, hcf]
    refine ⟨_, rfl, ?_, ?_, ?_, ?_, ?_, ?_, ?_, ?_, ?_, ?_, ?_⟩ <;>
      simp [Except.toOption, hls, hcf]
  -- cancellation at phase boundary 3
  · obtain ⟨ls, hls⟩ := isOk_exists (hok 0 (by omega))
    obtain ⟨cf, hcf⟩ := isOk_exists (hok 1 (by omega))
    have h2 := hok 2 (by omega)
    rw [show phaseOk env 2 = (env.frontend.isOk && env.backend.isOk) from rfl, Bool.and_eq_true] at h2
    obtain ⟨fe, hfe⟩ := isOk_exists h2.1
    obtain ⟨be, hbe⟩ := isOk_exists h2.2
    rw [analyzeProject_unfolded env hroot hmt]
    simp only [runPhases, isCancelled_eq env hcancel, startPhase, finishAnalysis, hls, hcf, hfe, hbe]
    refine ⟨_, rfl, ?_, ?_, ?_, ?_, ?_, ?_, ?_, ?_, ?_, ?_, ?_⟩ <;>
      simp [Except.toOption, hls, hcf, hfe, hbe]
  -- cancellation at phase boundary 4
  · obtain ⟨ls, hls⟩ := isOk_exists (hok 0 (by omega))
    obtain ⟨cf, hcf⟩ := isOk_exists (hok 1 (by omega))
    have h2 := hok 2 (by omega)
    rw [show phaseOk env 2 = (env.frontend.isOk && env.backend.isOk) from rfl, Bool.and_eq_true] at h2
    obtain ⟨fe, hfe⟩ := isOk_exists h2.1
    obtain ⟨be, hbe⟩ := isOk_exists h2.2
    obtain ⟨ts, hts⟩ := isOk_exists (hok 3 (by omega))
    rw [analyzeProject_unfolded env hroot hmt]
    simp only [runPhases, isCancelled_eq env hcancel, startPhase, finishAnalysis, hls, hcf, hfe, hbe, hts]
    refine ⟨_, rfl, ?_, ?_, ?_, ?_, ?_, ?_, ?_, ?_, ?_, ?_, ?_⟩ <;>
      simp [Except.toOption, hls, hcf, hfe, hbe, hts]
  -- cancellation at phase boundary 5
  · obtain ⟨ls, hls⟩ := isOk_exists (hok 0 (by omega))
    obtain ⟨cf, hcf⟩ := isOk_exists (hok 1 (by omega))
    have h2 := hok 2 (by omega)
    rw [show phaseOk env 2 = (env.frontend.isOk && env.backend.isOk) from rfl, Bool.and_eq_true] at h2
    obtain ⟨fe, hfe⟩ := isOk_exists h2.1
    obtain ⟨be, hbe⟩ := isOk_exists h2.2
    obtain ⟨ts, hts⟩ := isOk_exists (hok 3 (by omega))
    obtain ⟨dp, hdp⟩ := isOk_exists (hok 4 (by omega))
    rw [analyzeProject_unfolded env hroot hmt]
    simp only [runPhases, isCancelled_eq env hcancel, startPhase, finishAnalysis, hls, hcf, hfe, hbe, hts, hdp]
    refine ⟨_, rfl, ?_, ?_, ?_, ?_, ?_, ?_, ?_, ?_, ?_, ?_, ?_⟩ <;>
      simp [Except.toOption, hls, hcf, hfe, hbe, hts, hdp]
  -- cancellation at phase boundary 6
  · obtain ⟨ls, hls⟩ := isOk_exists (hok 0 (by omega))
    obtain ⟨cf, hcf⟩ := isOk_exists (hok 1 (by omega))
    have h2 := hok 2 (by omega)
    rw [show phaseOk env 2 = (env.frontend.isOk && env.backend.isOk) from rfl, Bool.and_eq_true] at h2
    obtain ⟨fe, hfe⟩ := isOk_exists h2.1
    obtain ⟨be, hbe⟩ := isOk_exists h2.2
    obtain ⟨ts, hts⟩ := isOk_exists (hok 3 (by omega))
    obtain ⟨dp, hdp⟩ := isOk_exists (hok 4 (by omega))
    obtain ⟨si, hsi⟩ := isOk_exists (hok 5 (by omega))
    rw [analyzeProject_unfolded env hroot hmt]
    simp only [runPhases, isCancelled_eq env hcancel, startPhase, finishAnalysis, hls, hcf, hfe, hbe, hts, hdp, hsi]
    refine ⟨_, rfl, ?_, ?_, ?_, ?_, ?_, ?_, ?_, ?_, ?_, ?_, ?_⟩ <;>
      simp [Except.toOption, hls, hcf, hfe, hbe, hts, hdp, hsi]
  -- cancellation at phase boundary 7
  · obtain ⟨ls, hls⟩ := isOk_exists (hok 0 (by omega))
    obtain ⟨cf, hcf⟩ := isOk_exists (hok 1 (by omega))
    have h2 := hok 2 (by omega)
    rw [show phaseOk env 2 = (env.frontend.isOk && env.backend.isOk) from rfl, Bool.and_eq_true] at h2
    obtain ⟨fe, hfe⟩ := isOk_exists h2.1
    obtain ⟨be, hbe⟩ := isOk_exists h2.2
    obtain ⟨ts, hts⟩ := isOk_exists (hok 3 (by omega))
    obtain ⟨dp, hdp⟩ := isOk_exists (hok 4 (by omega))
    obtain ⟨si, hsi⟩ := isOk_exists (hok 5 (by omega))
    obtain ⟨dc, hdc⟩ := isOk_exists (hok 6 (by omega))
    rw [analyzeProject_unfolded env hroot hmt]
    simp only [runPhases, isCancelled_eq env hcancel, startPhase, finishAnalysis, hls, hcf, hfe, hbe, hts, hdp, hsi, hdc]
    refine ⟨_, rfl, ?_, ?_, ?_, ?_, ?_, ?_, ?_, ?_, ?_, ?_, ?_⟩ <;>
      simp [Except.toOption, hls, hcf, hfe, hbe, hts, hdp, hsi, hdc]
  -- no cancellation observed within the eight phases
  · obtain ⟨ls, hls⟩ := isOk_exists (hok 0 (by omega))
    obtain ⟨cf, hcf⟩ := isOk_exists (hok 1 (by omega))
    have h2 := hok 2 (by omega)
    rw [show phaseOk env 2 = (env.frontend.isOk && env.backend.isOk) from rfl, Bool.and_eq_true] at h2
    obtain ⟨fe, hfe⟩ := isOk_exists h2.1
    obtain ⟨be, hbe⟩ := isOk_exists h2.2
    obtain ⟨ts, hts⟩ := isOk_exists (hok 3 (by omega))
    obtain ⟨dp, hdp⟩ := isOk_exists (hok 4 (by omega))
    obtain ⟨si, hsi⟩ := isOk_exists (hok 5 (by omega))
    obtain ⟨dc, hdc⟩ := isOk_exists (hok 6 (by omega))
    obtain ⟨md, hmd⟩ := isOk_exists (hok 7 (by omega))
    have hci : ∀ i, i ≤ 7 → isCancelled env i = false := by
      intro i hi
      rw [isCancelled_eq env hcancel]
      rw [decide_eq_false]
      omega
    have hc0 := hci 0 (by omega)
    have hc1 := hci 1 (by omega)
    have hc2 := hci 2 (by omega)
    have hc3 := hci 3 (by omega)
    have hc4 := hci 4 (by omega)
    have hc5 := hci 5 (by omega)
    have hc6 := hci 6 (by omega)
    have hc7 := hci 7 (by omega)
    have hg0 : 0 < n + 8 := by omega
    have hg1 : 1 < n + 8 := by omega
    have hg2 : 2 < n + 8 := by omega
    have hg3 : 3 < n + 8 := by omega
    have hg4 : 4 < n + 8 := by omega
    have hg5 : 5 < n + 8 := by omega
    have hg6 : 6 < n + 8 := by omega
    have hg7 : 7 < n + 8 := by omega
    rw [analyzeProject_unfolded env hroot hmt]
    simp only [runPhases, isCancelled_eq env hcancel, startPhase, finishAnalysis, hls, hcf, hfe, hbe, hts, hdp, hsi, hdc, hmd, hc0, hc1, hc2, hc3, hc4, hc5, hc6, hc7, hg0, hg1, hg2, hg3, hg4, hg5, hg6, hg7]
    refine ⟨_, rfl, ?_, ?_, ?_, ?_, ?_, ?_, ?_, ?_, ?_, ?_, ?_⟩ <;>
      simp [Except.toOption, hls, hcf, hfe, hbe, hts, hdp, hsi, hdc, hmd, hc0, hc1, hc2, hc3, hc4, hc5, hc6, hc7, hg0, hg1, hg2, hg3, hg4, hg5, hg6, hg7]

end Analyze

/-- An existing root whose every detector succeeds, with the cancellation
token observed set at the boundary of phase 3 (after LANGUAGE,
CONFIGURATION and FRAMEWORK ran). -/
def cancelAfter3Env : Analyze.PipelineEnv where
  path := "/proj"
  rootExists := true
  stat := .ok "2024-01-01T00:00:00.000Z"
  cancelAt := some 3
  languages := .ok ["TypeScript"]
  configFiles := .ok ["package.json"]
  frontend := .ok Frontend.baseAnalysis
  backend := .ok Backend.createBackendAnalysisBase
  testing := .ok { frameworks := ["Jest"] }
  dependencies := .ok (Dependencies.analyzeDependencies
    { files := [], read := fun _ => none, pkg := none, composer := none })
  structureInfo := .ok { entryPoints := ["index.ts"] }
  documentation := .ok true
  metadata := .ok { name := "demo" }

/-- C3 (counterexample): the spec says the phases after the cancellation
boundary keep zero-value defaults (empty lists, false booleans, framework
name "Unknown"). Cancelled after phase 3, the returned profile instead has
`testing`, `dependencies` and `hasDocumentation` ABSENT (`undefined`), not
default-valued records — `testing` is not the zero-value record the claim
expects. -/
theorem analyzeProject_cancel3_fields_absent :
    (Analyze.analyzeProject cancelAfter3Env).toOption.map (fun a =>
      (a.languages, a.frontend.isSome, a.backend.isSome, a.testing,
        a.dependencies.isSome, a.projectInfo.hasDocumentation)) =
      some (some ["TypeScript"], true, true, none, false, none) ∧
    (none : Option TestingAnalysisM) ≠
      some { frameworks := [], e2eTools := [] } := by
  constructor
  · rfl
  · decide

/-- C3 (witness): the amended characterization applied to the concrete
cancelled-after-phase-3 environment. -/
theorem analyzeProject_cancellation_profile_witness :
    cancelAfter3Env.cancelAt = some 3 ∧
    Analyze.cancellationProfileSpec cancelAfter3Env 3 :=
  ⟨rfl, Analyze.analyzeProject_cancellation_profile cancelAfter3Env 3 rfl rfl
    rfl (by decide)⟩

namespace Analyze

theorem workspaceLoop_all_ok (env : WorkspaceAnalyzeEnv)
    (hnc : env.cancelRootAt = none) :
    ∀ (l : List WorkspaceProjectRoot) (i : Nat),
      (∀ r ∈ l, (analyzeProject (env.perRoot r.rootPath)).isOk = true) →
      ∃ t, workspaceLoop env l i = .ok t ∧
        t.1.length = l.length ∧
        ∀ r ∈ l, ∃ p ∈ t.1, p.projectId = some r.id := by
  intro l
  induction l with
  | nil =>
    intro i _
    exact ⟨([], [], []), rfl, rfl, by simp⟩
  | cons root rest ih =>
    intro i hok
    have hc : rootCancelled env i = false := by
      unfold rootCancelled
      rw [hnc]
    obtain ⟨a0, ha0⟩ := isOk_exists (hok root (by simp))
    obtain ⟨t, ht, hlen, hmem⟩ := ih (i + 1)
      (fun r hr => hok r (List.mem_cons_of_mem _ hr))
    refine ⟨({ a0 with
        projectId := some root.id
        rootPath := some root.rootPath
        projectTypeHints := some (deriveProjectTypeHints a0 root) } :: t.1,
      componentRefs root { a0 with
        projectId := some root.id
        rootPath := some root.rootPath
        projectTypeHints := some (deriveProjectTypeHints a0 root) }
          "frontend" ++ t.2.1,
      componentRefs root { a0 with
        projectId := some root.id
        rootPath := some root.rootPath
        projectTypeHints := some (deriveProjectTypeHints a0 root) }
          "backend" ++ t.2.2), ?_, ?_, ?_⟩
    · simp only [workspaceLoop, hc, ha0, ht]
      rfl
    · simp [hlen]
    · intro r hr
      rcases List.mem_cons.mp hr with rfl | hr2
      · exact ⟨_, List.mem_cons_self _ _, rfl⟩
      · obtain ⟨p, hp, hpid⟩ := hmem r hr2
        exact ⟨p, List.mem_cons_of_mem _ hp, hpid⟩

/-- C4 (amended): `analyzeWorkspace` has no per-root error handling, so
entries exist for all roots only when every root's analysis succeeds: with
no cancellation and every discovered root's `analyzeProject` succeeding,
every root gets exactly one `ProjectAnalysis` entry carrying its id. (A
single failing root rejects the whole call, see the counterexample.) -/
theorem analyzeWorkspace_all_ok (env : WorkspaceAnalyzeEnv)
    (hws : env.wsExists = true)
    (hnc : env.cancelRootAt = none)
    (hok : ∀ r ∈ Workspace.detectWorkspaceProjects env.discovery,
      (analyzeProject (env.perRoot r.rootPath)).isOk = true) :
    ∃ w, analyzeWorkspace env = .ok w ∧
      w.roots = Workspace.detectWorkspaceProjects env.discovery ∧
      w.projects.length =
        (Workspace.detectWorkspaceProjects env.discovery).length ∧
      ∀ r ∈ Workspace.detectWorkspaceProjects env.discovery,
        ∃ p ∈ w.projects, p.projectId = some r.id := by
  obtain ⟨t, ht, hlen, hmem⟩ := workspaceLoop_all_ok env hnc
    (Workspace.detectWorkspaceProjects env.discovery) 0 hok
  refine ⟨{ roots := Workspace.detectWorkspaceProjects env.discovery
            projects := t.1
            summary := { projectCount := t.1.length
                         frontendComponents := t.2.1
                         backendComponents := t.2.2 } }, ?_, rfl, ?_, ?_⟩
  · unfold analyzeWorkspace
    rw [if_pos hws]
    dsimp only
    rw [ht]
  · exact hlen
  · exact hmem

end Analyze

/-- A workspace with two discovered roots (`ws/a` and `ws/b`, one
`package.json` each). -/
def twoRootDiscovery : Workspace.WorkspaceEnv where
  workspacePath := "ws"
  files := ["a/package.json", "b/package.json"]
  rootEnv := fun _ => emptyFsEnv

/-- The per-root pipeline environment in which the root `ws/a` became
inaccessible between discovery and analysis while every other root is
fine. -/
def rootFailsAt (bad : String) (p : String) : Analyze.PipelineEnv where
  path := p
  rootExists := !(p == bad)
  stat := .ok "2024-01-01T00:00:00.000Z"
  cancelAt := none
  languages := .ok []
  configFiles := .ok []
  frontend := .ok Frontend.baseAnalysis
  backend := .ok Backend.createBackendAnalysisBase
  testing := .ok {}
  dependencies := .ok (Dependencies.analyzeDependencies emptyFsEnv)
  structureInfo := .ok {}
  documentation := .ok false
  metadata := .ok { name := "demo" }

/-- The failing two-root workspace run. -/
def failingWorkspaceEnv : Analyze.WorkspaceAnalyzeEnv where
  wsExists := true
  discovery := twoRootDiscovery
  perRoot := rootFailsAt "ws/a"
  cancelRootAt := none

/-- C4 (counterexample): the spec says a failed root never aborts sibling
roots. Two roots are discovered; the first becomes inaccessible; the whole
`analyzeWorkspace` call rejects with that root's error, and the sibling
`ws/b` gets no `ProjectAnalysis` entry at all. -/
theorem analyzeWorkspace_failed_root_aborts_siblings :
    (Workspace.detectWorkspaceProjects twoRootDiscovery).map
      (fun r => r.rootPath) = ["ws/a", "ws/b"] ∧
    Analyze.analyzeWorkspace failingWorkspaceEnv =
      .error "Project path does not exist: ws/a" := by
  constructor
  · rfl
  · rfl

/-- The all-roots-fine two-root workspace run. -/
def okWorkspaceEnv : Analyze.WorkspaceAnalyzeEnv where
  wsExists := true
  discovery := twoRootDiscovery
  perRoot := rootFailsAt "nowhere"
  cancelRootAt := none

/-- C4 (witness): the amended statement at the concrete two-root
workspace whose roots all analyze successfully. -/
theorem analyzeWorkspace_all_ok_witness :
    okWorkspaceEnv.wsExists = true ∧
    (∃ w, Analyze.analyzeWorkspace okWorkspaceEnv = .ok w ∧
      w.roots = Workspace.detectWorkspaceProjects okWorkspaceEnv.discovery ∧
      w.projects.length =
        (Workspace.detectWorkspaceProjects
          okWorkspaceEnv.discovery).length ∧
      ∀ r ∈ Workspace.detectWorkspaceProjects okWorkspaceEnv.discovery,
        ∃ p ∈ w.projects, p.projectId = some r.id) :=
  ⟨rfl, Analyze.analyzeWorkspace_all_ok okWorkspaceEnv rfl rfl (by decide)⟩
